import Mathlib

/-!
# Ironwail HRTF sound driver: channel pool, mix engine and frame hand-off

A shallow embedding of `Quake/snd/hrtf/{hrtf.h, mixer.c, driver.c, util.c, ipl.c}`.

Conventions of the embedding.

* `float` values are exact rationals (`ℚ`): rounding and NaN are outside the model, so
  `assert(!isnan(..))` always passes and `CleanupNaNs` finds nothing to clean.
* A pointer into `state->mixer` or `state->sfxCache` is the index of the slot it points
  to; a pointer that may be `NULL` is an `Option`.
* Code that dereferences `NULL`, reads outside a buffer, divides by zero, fails an
  `assert` or calls `Sys_Error` ends in a `Fault`; every operation that can do so returns
  `Except Fault _`.
* Everything the driver obtains from outside `src/` during a call (file loading, the
  spatializer library, `rand()`, libm, the game client's globals) is read from a `host_t`
  record or passed as an explicit argument.
-/

namespace Ironwail

set_option autoImplicit false

/-! ## Constants of `hrtf.h` -/

/-- `#define FRAME_SIZE (1024 * 2)`. -/
def FRAME_SIZE : Nat := 1024 * 2

/-- `#define SFX_CACHE_MAX 1024`. -/
def SFX_CACHE_MAX : Nat := 1024

/-- `#define CHANNELS_MAX 1024`. -/
def CHANNELS_MAX : Nat := 1024

/-- `#define NUM_OUTPUT_CHANNELS 2`. -/
def NUM_OUTPUT_CHANNELS : Nat := 2

/-- For looped static sound sources. -/
def ENTNUM_STATIC : Int := -1

/-- Gets assigned to the first available channel. -/
def ENTCHANNEL_AUTO : Int := 0

/-- For ambients and menu sounds, doesn't get spatialized. -/
def ENTCHANNEL_PLAY_GLOBALLY : Int := -1

/-- Modelled from the spec: `MAX_QPATH`, the capacity of a sound name, is declared outside
`src/`; the value is the engine's 64. -/
def MAX_QPATH : Nat := 64

/-- Modelled from the spec: the ambient slots `AMBIENT_WATER`, `AMBIENT_SKY` and their
count `NUM_AMBIENTS` are declared outside `src/` (BSP format header). -/
def NUM_AMBIENTS : Nat := 4

/-- Modelled from the spec: index of the water ambient, declared outside `src/`. -/
def AMBIENT_WATER : Nat := 0

/-- Modelled from the spec: index of the sky ambient, declared outside `src/`. -/
def AMBIENT_SKY : Nat := 1

/-! ## Constants of SDL

Values of `SDL_audio.h` on a little-endian host. -/

/-- `AUDIO_U8`: unsigned 8-bit samples. -/
def AUDIO_U8 : Nat := 0x0008

/-- `AUDIO_S16SYS`: signed 16-bit samples in native byte order. -/
def AUDIO_S16SYS : Nat := 0x8010

/-- `AUDIO_F32SYS`: 32-bit floating point samples in native byte order. -/
def AUDIO_F32SYS : Nat := 0x8120

/-! ## Data model -/

/-- The ways a call can end without returning. -/
inductive Fault where
  | nullDeref
  | outOfBounds
  | divByZero
  | assertion
  | sysError
  deriving DecidableEq

/-- Equality of call outcomes is decidable, so that an outcome can be computed and compared. -/
instance instDecidableEqOutcome {ε α : Type} [DecidableEq ε] [DecidableEq α] :
    DecidableEq (Except ε α)
  | .ok a, .ok b => if h : a = b then isTrue (by rw [h]) else isFalse (fun k => h (by cases k; rfl))
  | .error a, .error b =>
    if h : a = b then isTrue (by rw [h]) else isFalse (fun k => h (by cases k; rfl))
  | .ok _, .error _ => isFalse (fun k => by cases k)
  | .error _, .ok _ => isFalse (fun k => by cases k)

/-- A `vec3_t`. -/
abbrev vec3_t := ℚ × ℚ × ℚ

/-- The `vec3_origin` constant. -/
def vec3_origin : vec3_t := (0, 0, 0)

/-- Planar float buffer: `data[i][j]` is sample `j` of channel `i`. -/
structure IPLAudioBuffer where
  numChannels : Nat
  numSamples : Nat
  data : List (List ℚ)
  deriving DecidableEq

/-- The all-zero `IPLAudioBuffer` value (`= {0}`): no storage. -/
def IPLAudioBuffer.null : IPLAudioBuffer := ⟨0, 0, []⟩

/-- Sample `data[i][j]`, if the buffer holds it. -/
def IPLAudioBuffer.sample? (buf : IPLAudioBuffer) (i j : Nat) : Option ℚ :=
  match buf.data[i]? with
  | none => none
  | some row => row[j]?

/-- Shape invariant of an allocated buffer: `numChannels` rows of `numSamples` samples. -/
def IPLAudioBuffer.wellShaped (buf : IPLAudioBuffer) : Bool :=
  buf.data.length == buf.numChannels && buf.data.all (fun row => row.length == buf.numSamples)

/-- `hrtf_sfx_cache_entry_t`. -/
structure hrtf_sfx_cache_entry_t where
  buf : IPLAudioBuffer
  loopStart : Int
  deriving DecidableEq

/-- `sfx_t`: a name and the `cache.data` pointer (`none` is `NULL`). -/
structure sfx_t where
  name : String
  cache_data : Option hrtf_sfx_cache_entry_t
  deriving DecidableEq

/-- `hrtf_channel_t`. `sfx` is the index of the `sfxCache` slot pointed to (`none` is `NULL`,
inactive). `spent` is a count of samples: every store to it in the source writes `0`, a
remainder of `rand()`, an increment, or a loop start already tested `>= 0`. The two effect
fields hold the opaque handles of the spatializer library. -/
structure hrtf_channel_t where
  entnum : Int
  entchannel : Int
  volume : ℚ
  attenuation : ℚ
  sfx : Option Nat
  origin : vec3_t
  spent : Nat
  loopStartSample : Int
  iplBinauralEffect : Option Nat
  iplDirectEffect : Option Nat
  deriving DecidableEq

/-- The channel left by `memset(chan, 0, sizeof(hrtf_channel_t))`. -/
def hrtf_channel_t.zero : hrtf_channel_t :=
  { entnum := 0, entchannel := 0, volume := 0, attenuation := 0, sfx := none,
    origin := (0, 0, 0), spent := 0, loopStartSample := 0,
    iplBinauralEffect := none, iplDirectEffect := none }

/-- A slot is live when `sfx != NULL`. -/
def hrtf_channel_t.live (chan : hrtf_channel_t) : Bool := chan.sfx.isSome

/-- The fields of `SDL_AudioSpec` the driver reads. -/
structure SDL_AudioSpec where
  freq : Int
  channels : Nat
  format : Nat
  samples : Nat
  deriving DecidableEq

/-- `hrtf_state_t`, together with the file-level statics the operations share:
`ambients` and `ambient_sfx` (driver.c) and the filter memory `acc` (mixer.c). The scratch
buffers `mix`, `subset` and `scratch` are rebuilt by every call that uses them and are not
kept. -/
structure hrtf_state_t where
  initialized : Bool
  audioSpec : SDL_AudioSpec
  volume : ℚ
  sfxCache : List sfx_t
  nextSFXCacheEntry : Nat
  precachedAudioBuffersSize : Nat
  mixer : List hrtf_channel_t
  underwater : ℚ
  listenerOrigin : vec3_t
  listenerForward : vec3_t
  listenerRight : vec3_t
  listenerUp : vec3_t
  frameBufferFull : Bool
  starved : Nat
  frameBufferSize : Nat
  frameBuffer : List ℚ
  bgmFrameFull : Bool
  bgmFrame : IPLAudioBuffer
  ambients : List (Option Nat)
  ambient_sfx : List (Option Nat)
  acc : Option (List ℚ)
  deriving DecidableEq

/-- What the two `ipl*EffectCreate` calls of one `AllocEffects` return: the new handle, or
`none` for an error code. -/
structure effect_alloc_t where
  binaural : Option Nat
  direct : Option Nat

/-- The BSP leaf the listener is in, as far as `UpdateAmbients` reads it. -/
structure mleaf_t where
  contents : Int
  ambient_sound_level : List ℚ

/-- Everything read from outside `src/` during one call. -/
structure host_t where
  /-- `cl.viewentity`. -/
  viewentity : Int
  /-- Whether `LoadWAV` succeeds for a name, and the entry it fills in. -/
  LoadWAV : String → Option hrtf_sfx_cache_entry_t
  /-- The length returned by `VectorNormalize`. -/
  VectorNormalize : vec3_t → ℚ
  /-- The spatializer library: sample `j` of output channel `i` that the two effects of
  `ApplyEffects` write, for a listener pose (origin, forward, right, up), a channel and its
  input frame. -/
  spatialize : vec3_t × vec3_t × vec3_t × vec3_t → hrtf_channel_t → IPLAudioBuffer → Nat → Nat → ℚ
  /-- libm `exp`. -/
  exp : ℚ → ℚ
  /-- libm `log`. -/
  log : ℚ → ℚ
  /-- The frame `HRTF_BGMUpdate` emits when it runs with the music slot empty, if any:
  sample `j` of channel `i`. -/
  bgmNext : Option (Nat → Nat → ℚ)
  /-- `bgmvolume.value`. -/
  bgmvolume : ℚ
  /-- `cls.state == ca_connected && cl.worldmodel`. -/
  connected : Bool
  /-- `Mod_PointInLeaf(state->listenerOrigin, cl.worldmodel)`. -/
  leaf : Option mleaf_t
  /-- `cl.forceunderwater`. -/
  forceunderwater : Bool
  /-- `snd_waterfx.value`. -/
  snd_waterfx : ℚ
  /-- `ambient_level.value`. -/
  ambient_level : ℚ
  /-- `host_frametime`. -/
  host_frametime : ℚ

/-! ## The arithmetic of `float` and `int`

Samples and gains are exact rationals in this development. Where a result of the code rests
on the rounding of a `float` operation or on the width of an `int`, the operation is written
with `f32`, `floatToInt` or `toInt32`. -/

/-- The integer nearest to `x`, the even one of the two when `x` lies half-way. -/
def roundHalfEven (x : ℚ) : Int :=
  if x - ⌊x⌋ < 1 / 2 then ⌊x⌋
  else if x - ⌊x⌋ > 1 / 2 then ⌊x⌋ + 1
  else if ⌊x⌋ % 2 = 0 then ⌊x⌋ else ⌊x⌋ + 1

/-- The search for the binary exponent of `x > 0`: `x` is halved or doubled, and `e`
counted up or down, until `1 ≤ x < 2`. The search ends after `fuel` steps at the latest. -/
def f32.exponent.search : Nat → ℚ → Int → Int
  | 0, _, e => e
  | fuel + 1, x, e =>
    if 2 ≤ x then search fuel (x / 2) (e + 1)
    else if x < 1 then search fuel (2 * x) (e - 1)
    else e

/-- The binary exponent of `x`: the `e` with `2 ^ e ≤ |x| < 2 ^ (e + 1)`, for `|x|` from
`2 ^ (-300)` to `2 ^ 300`, which covers every product and quotient of two `float` values
that are neither zero nor infinite. -/
def f32.exponent (x : ℚ) : Int := f32.exponent.search 300 |x| 0

/-- The value a `float` expression has after its rounding to IEEE 754 binary32, to nearest
with ties to even: a multiple of `2 ^ (e - 23)`, where `e` is the binary exponent of `x` and
at least `-126` (below that the format has the fixed spacing `2 ^ (-149)`). A result of
magnitude `2 ^ 128` or more, which the format turns into an infinity, is left finite. -/
def f32 (x : ℚ) : ℚ :=
  roundHalfEven (x / 2 ^ (max (f32.exponent x) (-126) - 23)) * 2 ^ (max (f32.exponent x) (-126) - 23)

/-- The value an `int` expression has when the exact result is `x`: 32 bits, two's
complement. -/
def toInt32 (x : Int) : Int := (x + 2 ^ 31) % 2 ^ 32 - 2 ^ 31

/-- Conversion of a `float` to `int`: the fraction is discarded. -/
def truncToInt (x : ℚ) : Int := if 0 ≤ x then ⌊x⌋ else ⌈x⌉

/-- The `int` a `float` value converts to: the fraction is discarded, and a value outside
the range of `int` gives `INT_MIN`, which is what the conversion instruction of x86 yields
where the C standard leaves the conversion undefined. -/
def floatToInt (x : ℚ) : Int :=
  if -2 ^ 31 ≤ truncToInt x ∧ truncToInt x < 2 ^ 31 then truncToInt x else -2 ^ 31

/-! ## Helpers declared outside `src/` -/

/-- Modelled from the spec: the `CLAMP(min, x, max)` macro is declared outside `src/`; the
spec calls it `clamp`. -/
def CLAMP (lo x hi : ℚ) : ℚ := if x < lo then lo else if x > hi then hi else x

/-- Modelled from the spec: `VectorSubtract(a, b, c)` is declared outside `src/`; it is the
component-wise difference `a - b` of the spec's `S − L`. -/
def VectorSubtract (a b : vec3_t) : vec3_t := (a.1 - b.1, a.2.1 - b.2.1, a.2.2 - b.2.2)

/-- `TO_PERCEPTIBLE_VOLUME(x) ((exp((x))-1.f) / (M_E-1.f))`. -/
def TO_PERCEPTIBLE_VOLUME (h : host_t) (x : ℚ) : ℚ := (h.exp x - 1) / (h.exp 1 - 1)

/-! ## util.c -/

/-- `iplAudioBufferZero`. -/
def iplAudioBufferZero (dst : IPLAudioBuffer) : IPLAudioBuffer :=
  { dst with data := List.replicate dst.numChannels (List.replicate dst.numSamples 0) }

/-- `AllocScratchBuffer`: afterwards the scratch buffer has the requested shape. Its
contents are unspecified after a reallocation; every caller zeroes or overwrites them. -/
def AllocScratchBuffer (channels samples : Nat) : IPLAudioBuffer :=
  { numChannels := channels, numSamples := samples,
    data := List.replicate channels (List.replicate samples 0) }

/-- `iplAudioBufferDataSize`, with `sizeof(IPLfloat32) = 4`. -/
def iplAudioBufferDataSize (buf : IPLAudioBuffer) : Nat := 4 * buf.numChannels * buf.numSamples

/-- Index of the first element satisfying `p`: the scan
`for (i = 0; i < n; i++) if (p(a[i])) return &a[i]; return NULL;`. -/
def firstIndex {α : Type} (p : α → Bool) : List α → Option Nat
  | [] => none
  | a :: as => if p a then some 0 else (firstIndex p as).map (fun i => i + 1)

/-- `FindOrAllocateCacheEntry`. `Sys_Error` does not return, so the `return NULL` after it
is never reached and the result is always a slot. `strnlen` counts the bytes of the name. -/
def FindOrAllocateCacheEntry (state : hrtf_state_t) (name : String) :
    Except Fault (hrtf_state_t × Nat) :=
  if name.utf8ByteSize ≥ MAX_QPATH then .error .sysError
  else
    match firstIndex (fun e : sfx_t => e.name == name) (state.sfxCache.take state.nextSFXCacheEntry) with
    | some i => .ok (state, i)
    | none =>
      if state.nextSFXCacheEntry ≥ SFX_CACHE_MAX then .error .sysError
      else
        match state.sfxCache[state.nextSFXCacheEntry]? with
        | none => .error .outOfBounds
        | some ret =>
          .ok ({ state with
                  nextSFXCacheEntry := state.nextSFXCacheEntry + 1,
                  sfxCache := state.sfxCache.set state.nextSFXCacheEntry { ret with name := name } },
               state.nextSFXCacheEntry)

/-- `freeSFXCache`. The loop hands `&entry->buf` and `entry` of every registered entry to
`iplAudioBufferFree` and `free`. For an entry registered without data `entry` is `NULL`, and
so is `&entry->buf`, `buf` being the first member; both calls return at once on `NULL`.
Then the counters are reset and the array is zeroed, whatever the entries held. -/
def freeSFXCache (state : hrtf_state_t) : hrtf_state_t :=
  { state with
    nextSFXCacheEntry := 0,
    sfxCache := List.replicate SFX_CACHE_MAX ⟨"", none⟩,
    precachedAudioBuffersSize := 0 }

/-- `PrecacheSound`: the slot of the sound, or `NULL` when `LoadWAV` fails. -/
def PrecacheSound (h : host_t) (state : hrtf_state_t) (name : String) :
    Except Fault (hrtf_state_t × Option Nat) :=
  match FindOrAllocateCacheEntry state name with
  | .error f => .error f
  | .ok (state, sfx) =>
    match state.sfxCache[sfx]? with
    | none => .error .outOfBounds
    | some e =>
      if e.cache_data.isSome then .ok (state, some sfx)
      else
        match h.LoadWAV name with
        | none => .ok (state, none)
        | some entry =>
          .ok ({ state with
                  sfxCache := state.sfxCache.set sfx { e with cache_data := some entry },
                  precachedAudioBuffersSize :=
                    state.precachedAudioBuffersSize + iplAudioBufferDataSize entry.buf },
               some sfx)

/-! ## ipl.c -/

/-- `AllocEffects`: the channel with the handles created so far, and whether both effects
were created. -/
def AllocEffects (fx : effect_alloc_t) (chan : hrtf_channel_t) : hrtf_channel_t × Bool :=
  match fx.binaural with
  | none => (chan, false)
  | some b =>
    match fx.direct with
    | none => ({ chan with iplBinauralEffect := some b }, false)
    | some d => ({ chan with iplBinauralEffect := some b, iplDirectEffect := some d }, true)

/-- A buffer of the shape of `buf` whose sample `j` of channel `i` is `f i j`: what a
library call leaves in `buf` when it overwrites every sample. -/
def IPLAudioBuffer.fill (buf : IPLAudioBuffer) (f : Nat → Nat → ℚ) : IPLAudioBuffer :=
  { buf with
    data := (List.range buf.numChannels).map (fun i => (List.range buf.numSamples).map (fun j => f i j)) }

/-- `ApplyEffects`: the direct effect into `scratch`, then the binaural effect back into
`buf`. Both are calls into the spatializer library; they leave the shape of `buf` as it is
and overwrite its samples. -/
def ApplyEffects (h : host_t) (listener : vec3_t × vec3_t × vec3_t × vec3_t) (buf : IPLAudioBuffer)
    (chan : hrtf_channel_t) : IPLAudioBuffer :=
  buf.fill (h.spatialize listener chan buf)

/-- `ComputeDistanceAttenuation` (the `#if 1` branch). Its three `float` operations, the
quotient `attenuation / 1000.f`, the product with the length and the difference
`1.f - dist`, are each rounded to binary32. -/
def ComputeDistanceAttenuation (h : host_t) (listenerOrigin sourceOrigin : vec3_t)
    (attenuation : ℚ) : ℚ :=
  let delta := VectorSubtract sourceOrigin listenerOrigin
  let dist := f32 (h.VectorNormalize delta * f32 (attenuation / 1000))
  CLAMP 0 (f32 (1 - dist)) 1

/-! ## mixer.c: the channel pool -/

/-- `FreeChannel`: releases the effects of a live channel and zeroes the slot. -/
def FreeChannel (_chan : hrtf_channel_t) : hrtf_channel_t := hrtf_channel_t.zero

/-- `PickRandomChannel`: the first slot with `sfx == NULL`. -/
def PickRandomChannel (mixer : List hrtf_channel_t) : Option Nat :=
  firstIndex (fun c : hrtf_channel_t => c.sfx.isNone) mixer

/-- `PickChannel`. -/
def PickChannel (mixer : List hrtf_channel_t) (entnum entchannel : Int) : Option Nat :=
  if entnum < 0 ∨ entchannel = 0 then PickRandomChannel mixer
  else
    match firstIndex
        (fun c : hrtf_channel_t => c.sfx.isSome && (c.entnum == entnum && c.entchannel == entchannel))
        mixer with
    | some i => some i
    | none => PickRandomChannel mixer

/-- `StartSound`. Returns the new state and the slot started (`none` is `NULL`).
`rnd` is the value `rand()` returns, `fx` what the effect allocation returns. The call to
`CL_AddDemoRewindSound` only touches the demo player and is left out. -/
def StartSound (h : host_t) (state : hrtf_state_t) (entnum entchannel : Int) (sfx : Nat)
    (origin : vec3_t) (volume attenuation : ℚ) (randomizeStart : Bool)
    (rnd : Nat) (fx : effect_alloc_t) : Except Fault (hrtf_state_t × Option Nat) :=
  if volume < 0 then .error .assertion
  else if attenuation < 0 then .error .assertion
  else
    match state.sfxCache[sfx]? with
    | none => .error .nullDeref
    | some e =>
      match (if e.cache_data.isNone then PrecacheSound h state e.name
             else .ok (state, some sfx)) with
      | .error f => .error f
      | .ok (state, sfx) =>
        match PickChannel state.mixer entnum entchannel with
        | none => .error .nullDeref
        | some i =>
          match state.mixer[i]? with
          | none => .error .outOfBounds
          | some chan =>
            let chan := if chan.sfx.isSome then FreeChannel chan else chan
            match AllocEffects fx chan with
            | (chan, false) => .ok ({ state with mixer := state.mixer.set i chan }, none)
            | (chan, true) =>
              match sfx with
              | none => .error .nullDeref
              | some k =>
                match state.sfxCache[k]? with
                | none => .error .nullDeref
                | some e =>
                  match e.cache_data with
                  | none => .error .nullDeref
                  | some entry =>
                    if randomizeStart = true ∧ entry.buf.numSamples = 0 then .error .divByZero
                    else
                      .ok ({ state with
                              mixer := state.mixer.set i
                                { chan with
                                  entnum := entnum, entchannel := entchannel,
                                  volume := volume, attenuation := attenuation,
                                  sfx := some k, origin := origin,
                                  spent := if randomizeStart then rnd % entry.buf.numSamples else 0,
                                  loopStartSample := entry.loopStart } },
                           some i)

/-! ## mixer.c: the mix engine

An `IPLAudioBuffer` value stands for an allocated buffer when it is `wellShaped`. The
element-wise loops `for (i < numChannels) for (j < numSamples)` are written as maps over
`data`; on a well-shaped buffer they visit the same samples. -/

/-- `ApplyGain`. -/
def ApplyGain (buf : IPLAudioBuffer) (gain : ℚ) : IPLAudioBuffer :=
  { buf with data := buf.data.map (fun row => row.map (fun x => x * gain)) }

/-- Modelled from the spec: `iplAudioBufferMix(ctx, in, mix)` belongs to the spatializer
library, outside `src/`; the spec describes it as a sample-wise sum into `mix` with no
normalization. -/
def iplAudioBufferMix (inp mix : IPLAudioBuffer) : IPLAudioBuffer :=
  { mix with data := List.zipWith (fun m i => List.zipWith (fun x y => x + y) m i) mix.data inp.data }

/-- Modelled from the spec: `iplAudioBufferInterleave(ctx, src, dst)` belongs to the
spatializer library, outside `src/`; sample `j` of channel `i` goes to
`dst[j * numChannels + i]`. -/
def iplAudioBufferInterleave (src : IPLAudioBuffer) : List ℚ :=
  (List.range src.numSamples).flatMap
    (fun j => (List.range src.numChannels).map (fun i => (src.sample? i j).getD 0))

/-- `CleanupNaNs`: a rational sample is never NaN, so the buffer is returned as it is and
the count is `0`. -/
def CleanupNaNs (buf : IPLAudioBuffer) : IPLAudioBuffer × Nat := (buf, 0)

/-- One sample of `ApplyGlobalVolume`: the scaled sample, clamped when it left `[-1, 1]`,
and whether it was clamped. -/
def ApplyGlobalVolume.sample (fvol x : ℚ) : ℚ × Bool :=
  let y := x * fvol
  if y < -1 ∨ y > 1 then (CLAMP (-1) y 1, true) else (y, false)

/-- `ApplyGlobalVolume`: the buffer after the global gain, and the number of clips. -/
def ApplyGlobalVolume (state : hrtf_state_t) (buf : IPLAudioBuffer) : IPLAudioBuffer × Nat :=
  let fvol := CLAMP 0 state.volume 1
  ({ buf with data := buf.data.map (fun row => row.map (fun x => (ApplyGlobalVolume.sample fvol x).1)) },
   (buf.data.map (fun row => row.countP (fun x => (ApplyGlobalVolume.sample fvol x).2))).sum)

/-- The sample loop of `CopyNextChannelFrame`, `n` samples from the end of the frame: the
samples written to every output channel, and the cursor afterwards. The source sample is
read once per output channel, so it is not read when there is none. -/
def CopyNextChannelFrame.loop (src : IPLAudioBuffer) (numChannels : Nat) (loopStartSample : Int) :
    Nat → Nat → Except Fault (List ℚ × Nat)
  | 0, spent => .ok ([], spent)
  | n + 1, spent =>
    match (if numChannels = 0 then some 0 else src.sample? 0 spent) with
    | none => .error .outOfBounds
    | some x =>
      if spent + 1 ≥ src.numSamples then
        if loopStartSample < 0 then .ok (x :: List.replicate n 0, spent + 1)
        else
          match loop src numChannels loopStartSample n loopStartSample.toNat with
          | .error f => .error f
          | .ok (row, spent') => .ok (x :: row, spent')
      else
        match loop src numChannels loopStartSample n (spent + 1) with
        | .error f => .error f
        | .ok (row, spent') => .ok (x :: row, spent')

/-- `CopyNextChannelFrame`: copies the next frame of a channel's sfx source buffer to
`dst`. Returns the channel with its cursor advanced and the filled `dst`. -/
def CopyNextChannelFrame (chan : hrtf_channel_t) (src dst : IPLAudioBuffer) :
    Except Fault (hrtf_channel_t × IPLAudioBuffer) :=
  match CopyNextChannelFrame.loop src dst.numChannels chan.loopStartSample dst.numSamples chan.spent with
  | .error f => .error f
  | .ok (row, spent) =>
    .ok ({ chan with spent := spent }, { dst with data := List.replicate dst.numChannels row })

/-- `ShouldSkipProcessingChannel`. The threshold `0.01f` is the binary32 value nearest to
`1/100`. -/
def ShouldSkipProcessingChannel (h : host_t) (state : hrtf_state_t) (chan : hrtf_channel_t) : Bool :=
  if chan.attenuation ≤ 0 ∨ chan.volume ≤ 0 then true
  else if chan.entnum = h.viewentity ∨ chan.entchannel = ENTCHANNEL_PLAY_GLOBALLY then false
  else
    decide (ComputeDistanceAttenuation h state.listenerOrigin chan.origin chan.attenuation
      ≤ f32 (1 / 100))

/-- The body of the `MixAudio` loop for one slot: the slot and the mix buffer afterwards. -/
def MixAudio.channel (h : host_t) (state : hrtf_state_t) (chan : hrtf_channel_t)
    (mix : IPLAudioBuffer) : Except Fault (hrtf_channel_t × IPLAudioBuffer) :=
  match chan.sfx with
  | none => .ok (chan, mix)
  | some k =>
    match state.sfxCache[k]? with
    | none => .error .nullDeref
    | some sfx =>
      match sfx.cache_data with
      | none => .error .nullDeref
      | some entry =>
        match CopyNextChannelFrame chan entry.buf (AllocScratchBuffer mix.numChannels mix.numSamples) with
        | .error f => .error f
        | .ok (chan, subset) =>
          let mix :=
            if ShouldSkipProcessingChannel h state chan then mix
            else
              let subset :=
                if chan.entnum ≠ h.viewentity ∧ chan.entchannel ≠ ENTCHANNEL_PLAY_GLOBALLY then
                  ApplyEffects h
                    (state.listenerOrigin, state.listenerForward, state.listenerRight, state.listenerUp)
                    subset chan
                else subset
              let subset := (CleanupNaNs subset).1
              let subset := ApplyGain subset chan.volume
              iplAudioBufferMix subset mix
          if chan.spent ≥ entry.buf.numSamples then .ok (FreeChannel chan, mix)
          else .ok (chan, mix)

/-- The loop of `MixAudio` over the slots of the pool, in order. -/
def MixAudio.loop (h : host_t) (state : hrtf_state_t) :
    List hrtf_channel_t → IPLAudioBuffer → Except Fault (List hrtf_channel_t × IPLAudioBuffer)
  | [], mix => .ok ([], mix)
  | chan :: rest, mix =>
    match MixAudio.channel h state chan mix with
    | .error f => .error f
    | .ok (chan, mix) =>
      match loop h state rest mix with
      | .error f => .error f
      | .ok (rest, mix) => .ok (chan :: rest, mix)

/-- `MixAudio`: one tick of every slot of the pool. Returns the state with the advanced
pool, and the mix buffer. -/
def MixAudio (h : host_t) (state : hrtf_state_t) (mix : IPLAudioBuffer) :
    Except Fault (hrtf_state_t × IPLAudioBuffer) :=
  match MixAudio.loop h state state.mixer mix with
  | .error f => .error f
  | .ok (mixer, mix) => .ok ({ state with mixer := mixer }, mix)

/-- The bypass branch of `ApplyUnderwaterEffect`: `acc[i] = in->data[i][numSamples-1]` for
every channel. -/
def ApplyUnderwaterEffect.resync (numSamples : Nat) : List ℚ → List (List ℚ) → Except Fault (List ℚ)
  | acc, [] => .ok acc
  | [], _ :: _ => .error .outOfBounds
  | _ :: acc, row :: rows =>
    if numSamples = 0 then .error .outOfBounds
    else
      match row[numSamples - 1]? with
      | none => .error .outOfBounds
      | some x =>
        match resync numSamples acc rows with
        | .error f => .error f
        | .ok acc => .ok (x :: acc)

/-- The inner loop of the filter on one channel: `acc += alpha * (in[j] - acc)`,
`out[j] = acc`. Returns the output row and the accumulator afterwards. -/
def ApplyUnderwaterEffect.filterRow (alpha : ℚ) : ℚ → List ℚ → List ℚ × ℚ
  | a, [] => ([], a)
  | a, x :: xs =>
    let a := a + alpha * (x - a)
    ((a :: (filterRow alpha a xs).1), (filterRow alpha a xs).2)

/-- The outer loop of the filter over the channels. -/
def ApplyUnderwaterEffect.filter (alpha : ℚ) :
    List ℚ → List (List ℚ) → Except Fault (List ℚ × List (List ℚ))
  | acc, [] => .ok (acc, [])
  | [], _ :: _ => .error .outOfBounds
  | a :: acc, row :: rows =>
    match filter alpha acc rows with
    | .error f => .error f
    | .ok (acc, rows) =>
      .ok ((ApplyUnderwaterEffect.filterRow alpha a row).2 :: acc,
           (ApplyUnderwaterEffect.filterRow alpha a row).1 :: rows)

/-- `ApplyUnderwaterEffect`, applied in place. Returns the filter memory `acc` and the
output buffer. -/
def ApplyUnderwaterEffect (h : host_t) (intensity : ℚ) (acc : Option (List ℚ)) (inp : IPLAudioBuffer) :
    Except Fault (List ℚ × IPLAudioBuffer) :=
  let acc := match acc with
    | none => List.replicate inp.numChannels 0
    | some acc => acc
  if intensity ≤ 0 then
    match ApplyUnderwaterEffect.resync inp.numSamples acc inp.data with
    | .error f => .error f
    | .ok acc => .ok (acc, inp)
  else
    match ApplyUnderwaterEffect.filter (h.exp (-intensity * h.log 12)) acc inp.data with
    | .error f => .error f
    | .ok (acc, rows) => .ok (acc, { inp with data := rows })

/-- The effect of `BGM_Update()` on the driver state (`HRTF_BGMUpdate`, bgm.c): when the
music slot is empty and the resampler emits a frame, the frame is deinterleaved into
`bgmFrame` and the slot is flagged full. -/
def BGM_Update (h : host_t) (state : hrtf_state_t) : hrtf_state_t :=
  if state.bgmFrameFull then state
  else
    match h.bgmNext with
    | none => state
    | some frame => { state with bgmFrame := state.bgmFrame.fill frame, bgmFrameFull := true }

/-- `MixAndSend`. -/
def MixAndSend (h : host_t) (state : hrtf_state_t) : Except Fault hrtf_state_t :=
  if state.frameBufferFull then .ok state
  else
    let mix := iplAudioBufferZero (AllocScratchBuffer state.audioSpec.channels FRAME_SIZE)
    match MixAudio h state mix with
    | .error f => .error f
    | .ok (state, mix) =>
      match ApplyUnderwaterEffect h state.underwater state.acc mix with
      | .error f => .error f
      | .ok (acc, mix) =>
        let state := { state with acc := some acc }
        let mix := (ApplyGlobalVolume state mix).1
        let state := BGM_Update h state
        let bgmFrame :=
          if state.bgmFrameFull then ApplyGain state.bgmFrame (TO_PERCEPTIBLE_VOLUME h h.bgmvolume)
          else state.bgmFrame
        let mix := if state.bgmFrameFull then iplAudioBufferMix bgmFrame mix else mix
        .ok { state with
              bgmFrame := bgmFrame,
              bgmFrameFull := false,
              frameBuffer := iplAudioBufferInterleave mix,
              frameBufferFull := true,
              starved := 0 }

/-! ## driver.c -/

/-- Modelled from the spec: the leaf contents codes `CONTENTS_WATER`, `CONTENTS_SLIME` and
`CONTENTS_LAVA` are declared outside `src/` (BSP format header). -/
def CONTENTS_WATER : Int := -3

/-- Modelled from the spec: see `CONTENTS_WATER`. -/
def CONTENTS_SLIME : Int := -4

/-- Modelled from the spec: see `CONTENTS_WATER`. -/
def CONTENTS_LAVA : Int := -5

/-- `HRTF_Init`, on the path where the device, the spatializer and the music pipeline all
initialise: the state is zeroed, the cache array and the frame buffers are allocated, the
volume is read from the `volume` option, and the device reports what `sdl_init` asked
for (`samplingFreq`, two channels, `float` samples, frames of `FRAME_SIZE`). The file-level statics hold their load-time zeroes. -/
def HRTF_Init (sfxvolume : ℚ) (samplingFreq : Int) : hrtf_state_t :=
  { initialized := true,
    audioSpec := { freq := samplingFreq, channels := NUM_OUTPUT_CHANNELS,
                   format := AUDIO_F32SYS, samples := FRAME_SIZE },
    volume := sfxvolume,
    sfxCache := List.replicate SFX_CACHE_MAX ⟨"", none⟩,
    nextSFXCacheEntry := 0,
    precachedAudioBuffersSize := 0,
    mixer := List.replicate CHANNELS_MAX hrtf_channel_t.zero,
    underwater := 0,
    listenerOrigin := (0, 0, 0),
    listenerForward := (0, 0, 0),
    listenerRight := (0, 0, 0),
    listenerUp := (0, 0, 0),
    frameBufferFull := false,
    starved := 0,
    frameBufferSize := 4 * FRAME_SIZE * NUM_OUTPUT_CHANNELS,
    frameBuffer := List.replicate (FRAME_SIZE * NUM_OUTPUT_CHANNELS) 0,
    bgmFrameFull := false,
    bgmFrame := AllocScratchBuffer NUM_OUTPUT_CHANNELS FRAME_SIZE,
    ambients := List.replicate NUM_AMBIENTS none,
    ambient_sfx := List.replicate NUM_AMBIENTS none,
    acc := none }

/-- `sdl_audio_callback` for a request of `len` bytes: the samples handed to the device and
the state afterwards. -/
def sdl_audio_callback (state : hrtf_state_t) (len : Nat) : Except Fault (List ℚ × hrtf_state_t) :=
  if !state.frameBufferFull then .ok (List.replicate (len / 4) 0, { state with starved := state.starved + 1 })
  else if state.frameBufferSize ≠ len then .error .assertion
  else .ok (state.frameBuffer, { state with frameBufferFull := false })

/-- `HRTF_ClearBuffer`. -/
def HRTF_ClearBuffer (state : hrtf_state_t) : Except Fault hrtf_state_t :=
  if !state.initialized then .error .assertion
  else .ok { state with
             frameBufferFull := false,
             frameBuffer := List.replicate state.frameBuffer.length 0 }

/-- `HRTF_StopSound`. -/
def HRTF_StopSound (state : hrtf_state_t) (entnum entchannel : Int) : Except Fault hrtf_state_t :=
  if !state.initialized then .error .assertion
  else .ok { state with
             mixer := state.mixer.map (fun chan =>
               if chan.sfx.isSome && (chan.entnum == entnum && chan.entchannel == entchannel)
               then FreeChannel chan else chan) }

/-- `HRTF_StopAllSounds`. -/
def HRTF_StopAllSounds (state : hrtf_state_t) : Except Fault hrtf_state_t :=
  if !state.initialized then .error .assertion
  else
    match HRTF_ClearBuffer state with
    | .error f => .error f
    | .ok state => .ok { state with mixer := state.mixer.map FreeChannel }

/-- `HRTF_StartSound`. -/
def HRTF_StartSound (h : host_t) (state : hrtf_state_t) (entnum entchannel : Int) (sfx : Nat)
    (origin : vec3_t) (volume attenuation : ℚ) (fx : effect_alloc_t) : Except Fault hrtf_state_t :=
  match StartSound h state entnum entchannel sfx origin volume attenuation false 0 fx with
  | .error f => .error f
  | .ok (state, _) => .ok state

/-- `HRTF_StaticSound`. -/
def HRTF_StaticSound (h : host_t) (state : hrtf_state_t) (sfx : Nat) (origin : vec3_t)
    (volume attenuation : ℚ) (rnd : Nat) (fx : effect_alloc_t) : Except Fault hrtf_state_t :=
  match StartSound h state ENTNUM_STATIC ENTCHANNEL_AUTO sfx origin (volume / 255) (attenuation / 64)
      true rnd fx with
  | .error f => .error f
  | .ok (state, _) => .ok state

/-- `HRTF_LocalSound`. -/
def HRTF_LocalSound (h : host_t) (state : hrtf_state_t) (name : String) (fx : effect_alloc_t) :
    Except Fault hrtf_state_t :=
  match FindOrAllocateCacheEntry state name with
  | .error f => .error f
  | .ok (state, sfx) =>
    match StartSound h state h.viewentity ENTCHANNEL_AUTO sfx vec3_origin 1 1 false 0 fx with
    | .error f => .error f
    | .ok (state, _) => if !state.initialized then .error .assertion else .ok state

/-- `HRTF_PrecacheSound` (and `HRTF_TouchSound`, which drops the result). -/
def HRTF_PrecacheSound (h : host_t) (state : hrtf_state_t) (name : String) :
    Except Fault (hrtf_state_t × Option Nat) :=
  if !state.initialized then .error .assertion else PrecacheSound h state name

/-- `HRTF_ClearPrecache`. -/
def HRTF_ClearPrecache (state : hrtf_state_t) : Except Fault hrtf_state_t :=
  if !state.initialized then .error .assertion else .ok (freeSFXCache state)

/-- The loop of `InitAmbients` over the ambient slots `is`. -/
def InitAmbients.loop (h : host_t) (rnd : Nat → Nat) (fx : Nat → effect_alloc_t) :
    List Nat → hrtf_state_t → Except Fault hrtf_state_t
  | [], state => .ok state
  | i :: is, state =>
    match state.ambient_sfx.getD i none with
    | none => loop h rnd fx is state
    | some sfx =>
      match StartSound h state ENTNUM_STATIC ENTCHANNEL_PLAY_GLOBALLY sfx vec3_origin 0 1 true
          (rnd i) (fx i) with
      | .error f => .error f
      | .ok (state, chan) => loop h rnd fx is { state with ambients := state.ambients.set i chan }

/-- `InitAmbients` (`HRTF_BeginPrecaching`). `rnd i` and `fx i` are what `rand()` and the
effect allocation return when ambient `i` is started. -/
def InitAmbients (h : host_t) (state : hrtf_state_t) (rnd : Nat → Nat) (fx : Nat → effect_alloc_t) :
    Except Fault hrtf_state_t :=
  match PrecacheSound h state "ambience/water1.wav" with
  | .error f => .error f
  | .ok (state, water) =>
    let state := { state with ambient_sfx := state.ambient_sfx.set AMBIENT_WATER water }
    match PrecacheSound h state "ambience/wind2.wav" with
    | .error f => .error f
    | .ok (state, sky) =>
      let state := { state with ambient_sfx := state.ambient_sfx.set AMBIENT_SKY sky }
      match HRTF_StopSound state ENTNUM_STATIC ENTCHANNEL_PLAY_GLOBALLY with
      | .error f => .error f
      | .ok state => InitAmbients.loop h rnd fx (List.range NUM_AMBIENTS) state

/-- The store `ambients[i]->volume = v`, for every ambient `i` of `is`, through the channel
pointers kept in `ambients`. -/
def setAmbientVolumes (v : Nat → hrtf_channel_t → ℚ) :
    List Nat → List (Option Nat) → List hrtf_channel_t → List hrtf_channel_t
  | [], _, mixer => mixer
  | i :: is, ambients, mixer =>
    match ambients.getD i none with
    | none => setAmbientVolumes v is ambients mixer
    | some k =>
      setAmbientVolumes v is ambients
        (match mixer[k]? with
         | none => mixer
         | some chan => mixer.set k { chan with volume := v i chan })

/-- `SilenceAmbients`. -/
def SilenceAmbients (state : hrtf_state_t) : hrtf_state_t :=
  { state with
    mixer := setAmbientVolumes (fun _ _ => 0) (List.range NUM_AMBIENTS) state.ambients state.mixer,
    underwater := 0 }

/-- `ContentsIsUnderwater`. -/
def ContentsIsUnderwater (contents : Int) : Bool :=
  contents == CONTENTS_WATER || contents == CONTENTS_SLIME || contents == CONTENTS_LAVA

/-- `UpdateUnderwater`. -/
def UpdateUnderwater (h : host_t) (state : hrtf_state_t) (leaf : mleaf_t) : hrtf_state_t :=
  let target := if h.forceunderwater || ContentsIsUnderwater leaf.contents then h.snd_waterfx else 0
  if |target - state.underwater| < 1 / 1000 then { state with underwater := target }
  else
    let sign : ℚ := if state.underwater > target then -1 else 1
    { state with underwater := CLAMP 0 (state.underwater + sign * h.host_frametime) h.snd_waterfx }

/-- `UpdateAmbients`. -/
def UpdateAmbients (h : host_t) (state : hrtf_state_t) : hrtf_state_t :=
  if !h.connected then SilenceAmbients state
  else
    match h.leaf with
    | none => SilenceAmbients state
    | some leaf =>
      let state := UpdateUnderwater h state leaf
      { state with
        mixer := setAmbientVolumes
          (fun i chan =>
            let target := h.ambient_level * (leaf.ambient_sound_level.getD i 0 / 255)
            if |target - chan.volume| < 1 / 1000 then target
            else
              let sign : ℚ := if chan.volume > target then -1 else 1
              CLAMP 0 (chan.volume + sign * h.host_frametime) 1)
          (List.range NUM_AMBIENTS) state.ambients state.mixer }

/-- `HRTF_Update`. -/
def HRTF_Update (h : host_t) (state : hrtf_state_t) (origin forward right up : vec3_t) :
    Except Fault hrtf_state_t :=
  if !state.initialized then .error .assertion
  else
    MixAndSend h
      (UpdateAmbients h
        { state with
          listenerOrigin := origin, listenerForward := forward,
          listenerRight := right, listenerUp := up })

/-- `HRTF_ExtraUpdate`. -/
def HRTF_ExtraUpdate (h : host_t) (state : hrtf_state_t) : Except Fault hrtf_state_t :=
  if !state.initialized then .error .assertion else MixAndSend h state

/-! ## bgm.c

The music resampler. The decoder (`S_CodecReadStream`, `S_CodecRewindStream`) and the
conversion stream (`SDL_AudioStream`) live outside `src/`: what the decoder answers is
given call by call as a list, the conversion itself is read from a `bgm_host_t`. -/

/-- The fields of `snd_info_t` (the `info` of a `snd_stream_t`) that bgm.c reads: sample
rate, channel count, and bytes per sample. -/
structure snd_info_t where
  rate : Int
  channels : Nat
  width : Int
  deriving DecidableEq

/-- An `SDL_AudioStream`: the conversion it was created for, and the converted bytes it
holds, which `SDL_AudioStreamAvailable` counts and `SDL_AudioStreamGet` hands out in order. -/
structure SDL_AudioStream where
  src_format : Nat
  src_channels : Nat
  src_rate : Int
  dst_format : Nat
  dst_channels : Nat
  dst_rate : Int
  converted : List Nat
  deriving DecidableEq

/-- What bgm.c obtains from the SDL conversion functions. -/
structure bgm_host_t where
  /-- Whether `SDL_NewAudioStream` returns a stream for (source format, channels, rate) and
  (destination format, channels, rate). -/
  SDL_NewAudioStream : Nat → Nat → Int → Nat → Nat → Int → Bool
  /-- The bytes `SDL_AudioStreamPut` adds to the converted data of a stream for the input
  bytes it is given; `none` when it returns `-1`. -/
  SDL_AudioStreamPut : SDL_AudioStream → List Nat → Option (List Nat)

/-- What the decoder answers to one `S_CodecReadStream` call: the bytes it delivers (none at
the end of the data), and what `S_CodecRewindStream` returns if the driver rewinds right
after this read. -/
structure codec_read_t where
  bytes : List Nat
  rewind : Int
  deriving DecidableEq

/-- `bgm_state_t`, as far as the modelled functions use it. The buffer `interleaved`, of
`interleavedSize` bytes, is rewritten whole by every `GetNextConvertedFrame`; it is not
kept in the state but returned by that function. -/
structure bgm_state_t where
  outSpec : SDL_AudioSpec
  inStream : Option SDL_AudioStream
  inSpec : SDL_AudioSpec
  inFrameSize : Nat
  initialized : Bool
  interleavedSize : Nat
  deriving DecidableEq

/-- `bgm_init`, on the path where both allocations succeed: the state is zeroed, the output
spec is the device spec and the interleaved buffer has room for one frame of `float`
samples. -/
def bgm_init (state : hrtf_state_t) : bgm_state_t :=
  { outSpec := state.audioSpec,
    inStream := none,
    inSpec := { freq := 0, channels := 0, format := 0, samples := 0 },
    inFrameSize := 0,
    initialized := true,
    interleavedSize := 4 * state.audioSpec.channels * FRAME_SIZE }

/-- `formatFromBGMStreamWidth`: `Sys_Error` for a width other than 1 or 2. -/
def formatFromBGMStreamWidth (width : Int) : Except Fault Nat :=
  if width = 1 then .ok AUDIO_U8
  else if width = 2 then .ok AUDIO_S16SYS
  else .error .sysError

/-- `CreateConversionStream`: a new, empty stream from `inSpec` to the output spec;
`Sys_Error` when `SDL_NewAudioStream` returns `NULL`. -/
def CreateConversionStream (h : bgm_host_t) (state : bgm_state_t) (inSpec : SDL_AudioSpec) :
    Except Fault SDL_AudioStream :=
  if h.SDL_NewAudioStream inSpec.format inSpec.channels inSpec.freq
      state.outSpec.format state.outSpec.channels state.outSpec.freq then
    .ok { src_format := inSpec.format, src_channels := inSpec.channels, src_rate := inSpec.freq,
          dst_format := state.outSpec.format, dst_channels := state.outSpec.channels,
          dst_rate := state.outSpec.freq, converted := [] }
  else .error .sysError

/-- `AudioSpecEquals`. -/
def AudioSpecEquals (a b : SDL_AudioSpec) : Bool :=
  a.freq == b.freq && a.channels == b.channels && a.format == b.format && a.samples == b.samples

/-- `UpdateConversionStream` for the music stream `inStream` (`none` is `NULL`): the state
afterwards and the value returned. The `channels` field of an `SDL_AudioSpec` is a `Uint8`,
so the channel count is stored modulo 256. The product for `inFrameSize` is computed in
`int` and converted to `size_t`. `SDL_FreeAudioStream` only releases the stream. -/
def UpdateConversionStream (h : bgm_host_t) (state : bgm_state_t) (inStream : Option snd_info_t) :
    Except Fault (bgm_state_t × Bool) :=
  match inStream with
  | none => .ok ({ state with inStream := none }, true)
  | some info =>
    match formatFromBGMStreamWidth info.width with
    | .error f => .error f
    | .ok format =>
      let inSpec : SDL_AudioSpec :=
        { freq := info.rate, channels := info.channels % 256, format := format,
          samples := FRAME_SIZE }
      let state := if AudioSpecEquals state.inSpec inSpec then state
                   else { state with inStream := none }
      match state.inStream with
      | some _ => .ok (state, true)
      | none =>
        match CreateConversionStream h state inSpec with
        | .error f => .error f
        | .ok stream =>
          .ok ({ state with
                  inStream := some stream,
                  inSpec := inSpec,
                  inFrameSize :=
                    (toInt32 (info.width * FRAME_SIZE * info.channels) % 2 ^ 64).toNat },
               true)

/-- `(size_t) SDL_AudioStreamAvailable(stream)`: the number of converted bytes the stream
holds; for `NULL` the call returns `-1`, which the cast makes `2^64 - 1`. -/
def SDL_AudioStreamAvailable (stream : Option SDL_AudioStream) : Nat :=
  match stream with
  | none => 2 ^ 64 - 1
  | some s => s.converted.length

/-- The `do ... while` loop of `FeedNextRawFrame`, for the answers `reads` of the decoder to
the calls still to come. `none` means the loop is still running when the answers end.
Otherwise the result is the conversion stream when the loop exits, and the answers not
consumed. The decoder delivers at most the `inFrameSize` bytes it is asked for. -/
def FeedNextRawFrame.loop (h : bgm_host_t) (inFrameSize : Nat) :
    List codec_read_t → Bool → Option SDL_AudioStream →
      Except Fault (Option (Option SDL_AudioStream × List codec_read_t))
  | [], _, _ => .ok none
  | r :: rest, looped, stream =>
    if (r.bytes.take inFrameSize).length = 0 then
      if looped then .error .sysError
      else if r.rewind ≠ 0 then .error .sysError
      else if SDL_AudioStreamAvailable stream < inFrameSize then loop h inFrameSize rest true stream
      else .ok (some (stream, rest))
    else
      match stream with
      | none => .error .sysError
      | some s =>
        match h.SDL_AudioStreamPut s (r.bytes.take inFrameSize) with
        | none => .error .sysError
        | some out =>
          if SDL_AudioStreamAvailable (some { s with converted := s.converted ++ out }) < inFrameSize then
            loop h inFrameSize rest looped (some { s with converted := s.converted ++ out })
          else .ok (some (some { s with converted := s.converted ++ out }, rest))

/-- `FeedNextRawFrame`, on the path where `malloc` succeeds. `none`: still in the loop when
the answers of the decoder end. -/
def FeedNextRawFrame (h : bgm_host_t) (state : bgm_state_t) (reads : List codec_read_t) :
    Except Fault (Option (bgm_state_t × List codec_read_t)) :=
  if state.inFrameSize = 0 then .error .assertion
  else
    match FeedNextRawFrame.loop h state.inFrameSize reads false state.inStream with
    | .error f => .error f
    | .ok none => .ok none
    | .ok (some (stream, rest)) => .ok (some ({ state with inStream := stream }, rest))

/-- The `do ... while` loop of `GetNextConvertedFrame` on the buffer `buf` of `size` bytes.
`gets` lists what the coming `SDL_AudioStreamGet` calls are willing to deliver: a negative
entry is the error return `-1`, an entry `n ≥ 0` delivers the next bytes of the stream, at
most `n` of them and at most the `len` asked for; when the list ends the stream delivers
nothing more. The destination of a call is `interleaved + totalRead` with `interleaved` an
`IPLfloat32*`, that is byte `4 * totalRead` of the buffer. Returns the value returned, the
buffer, the stream and `totalRead`. -/
def GetNextConvertedFrame.loop (size : Nat) :
    List Int → SDL_AudioStream → List Nat → Nat →
      Except Fault (Bool × List Nat × SDL_AudioStream × Nat)
  | [], s, buf, totalRead => .ok (true, buf, s, totalRead)
  | want :: gets, s, buf, totalRead =>
    if want < 0 then .ok (false, buf, s, totalRead)
    else
      let chunk := s.converted.take (min want.toNat (size - totalRead))
      if chunk.length = 0 then .ok (true, buf, s, totalRead)
      else if 4 * totalRead + chunk.length > size then .error .outOfBounds
      else
        let buf := buf.take (4 * totalRead) ++ chunk ++ buf.drop (4 * totalRead + chunk.length)
        let s := { s with converted := s.converted.drop chunk.length }
        if totalRead + chunk.length < size then loop size gets s buf (totalRead + chunk.length)
        else .ok (true, buf, s, totalRead + chunk.length)

/-- `GetNextConvertedFrame`: the value returned, the buffer `interleaved`, the state
afterwards and `totalRead`. The buffer is zeroed first. Without a conversion stream
`SDL_AudioStreamGet` returns `-1`. -/
def GetNextConvertedFrame (state : bgm_state_t) (gets : List Int) :
    Except Fault (Bool × List Nat × bgm_state_t × Nat) :=
  match state.inStream with
  | none => .ok (false, List.replicate state.interleavedSize 0, state, 0)
  | some s =>
    match GetNextConvertedFrame.loop state.interleavedSize gets s
        (List.replicate state.interleavedSize 0) 0 with
    | .error f => .error f
    | .ok (ret, buf, s, totalRead) => .ok (ret, buf, { state with inStream := some s }, totalRead)

/-- The loop start `LoadWAV` stores for a file whose declared loop start is `loopstart`
(`info.loopstart`), sampled at `specFreq` Hz, when the mixer runs at `audioFreq` Hz:
`scale = (float) spec.freq / (float) state->audioSpec.freq;`
`*loopStart = info.loopstart < 0 ? -1 : info.loopstart * scale;`.
The two casts, the quotient and the product are rounded to binary32, and the product is
converted to `int`. With `audioFreq = 0` the scale, and with it the product, is an infinity
or not a number, which is outside the range of `int`. -/
def LoadWAV.loopStart (loopstart specFreq audioFreq : Int) : Except Fault Int :=
  if loopstart < 0 then .ok (-1)
  else if audioFreq = 0 then .ok (-2 ^ 31)
  else .ok (floatToInt (f32 (f32 loopstart * f32 (f32 specFreq / f32 audioFreq))))

/-- `HRTF_CB_sfxvolume`, the callback of the `volume` option, for the new value. -/
def HRTF_CB_sfxvolume (h : host_t) (state : hrtf_state_t) (value : ℚ) : Except Fault hrtf_state_t :=
  if !state.initialized then .error .assertion
  else .ok { state with volume := TO_PERCEPTIBLE_VOLUME h value }

/-! ## Reachable states -/

/-- One call of the playback and cache surface, of a tick entry point, or of the device
callback, that returns. -/
inductive Step : hrtf_state_t → hrtf_state_t → Prop
  | start_sound (h : host_t) (s s' : hrtf_state_t) (entnum entchannel : Int) (sfx : Nat)
      (origin : vec3_t) (volume attenuation : ℚ) (fx : effect_alloc_t) :
      HRTF_StartSound h s entnum entchannel sfx origin volume attenuation fx = .ok s' → Step s s'
  | static_sound (h : host_t) (s s' : hrtf_state_t) (sfx : Nat) (origin : vec3_t)
      (volume attenuation : ℚ) (rnd : Nat) (fx : effect_alloc_t) :
      HRTF_StaticSound h s sfx origin volume attenuation rnd fx = .ok s' → Step s s'
  | local_sound (h : host_t) (s s' : hrtf_state_t) (name : String) (fx : effect_alloc_t) :
      HRTF_LocalSound h s name fx = .ok s' → Step s s'
  | init_ambients (h : host_t) (s s' : hrtf_state_t) (rnd : Nat → Nat) (fx : Nat → effect_alloc_t) :
      InitAmbients h s rnd fx = .ok s' → Step s s'
  | stop_sound (s s' : hrtf_state_t) (entnum entchannel : Int) :
      HRTF_StopSound s entnum entchannel = .ok s' → Step s s'
  | stop_all (s s' : hrtf_state_t) :
      HRTF_StopAllSounds s = .ok s' → Step s s'
  | clear_buffer (s s' : hrtf_state_t) :
      HRTF_ClearBuffer s = .ok s' → Step s s'
  | precache (h : host_t) (s s' : hrtf_state_t) (name : String) (r : Option Nat) :
      HRTF_PrecacheSound h s name = .ok (s', r) → Step s s'
  | clear_precache (s s' : hrtf_state_t) :
      HRTF_ClearPrecache s = .ok s' → Step s s'
  | update (h : host_t) (s s' : hrtf_state_t) (origin forward right up : vec3_t) :
      HRTF_Update h s origin forward right up = .ok s' → Step s s'
  | extra_update (h : host_t) (s s' : hrtf_state_t) :
      HRTF_ExtraUpdate h s = .ok s' → Step s s'
  | device_callback (s s' : hrtf_state_t) (len : Nat) (stream : List ℚ) :
      sdl_audio_callback s len = .ok (stream, s') → Step s s'

/-- The states the driver can be in: the state after `HRTF_Init` (an empty pool), and every
state a sequence of calls leads to from there. -/
inductive Reachable : hrtf_state_t → Prop
  | init (sfxvolume : ℚ) (samplingFreq : Int) : Reachable (HRTF_Init sfxvolume samplingFreq)
  | step (s s' : hrtf_state_t) : Reachable s → Step s s' → Reachable s'

/-! ## Properties of the channel pool -/

/-- Slot `i` of the pool is live and holds the pair `(e, c)`. -/
def Holds (m : List hrtf_channel_t) (i : Nat) (e c : Int) : Prop :=
  ∃ ch, m[i]? = some ch ∧ ch.sfx.isSome = true ∧ ch.entnum = e ∧ ch.entchannel = c

/-- Whether slot `i` is live and holds `(e, c)`, computed. -/
def holdsb (m : List hrtf_channel_t) (i : Nat) (e c : Int) : Bool :=
  match m[i]? with
  | none => false
  | some ch => ch.sfx.isSome && (ch.entnum == e && ch.entchannel == c)

/-- No two live slots hold the same pair `(e, c)` with `e ≥ 0` and `c ≠ 0`. -/
def PairUnique (m : List hrtf_channel_t) : Prop :=
  ∀ (e c : Int) (i j : Nat), 0 ≤ e → c ≠ 0 → Holds m i e c → Holds m j e c → i = j

/-- The source buffer holds channel `0` with `numSamples` samples. -/
def srcOK (buf : IPLAudioBuffer) : Bool :=
  match buf.data[0]? with
  | none => false
  | some row => row.length == buf.numSamples

/-- A slot is free, or it plays a loaded cache entry, its cursor is inside the source and
its loop start, when it has one, is inside the source too. -/
def channelOK (sfxCache : List sfx_t) (chan : hrtf_channel_t) : Bool :=
  match chan.sfx with
  | none => true
  | some k =>
    match sfxCache[k]? with
    | none => false
    | some sfx =>
      match sfx.cache_data with
      | none => false
      | some entry =>
        srcOK entry.buf && decide (chan.spent < entry.buf.numSamples) &&
          decide (chan.loopStartSample < (entry.buf.numSamples : Int))

/-- Every slot of the pool is `channelOK`. -/
def poolOK (state : hrtf_state_t) : Bool := state.mixer.all (channelOK state.sfxCache)

/-- The cache entry a channel plays, if it is live and the entry is loaded. -/
def entryOf (sfxCache : List sfx_t) (chan : hrtf_channel_t) : Option hrtf_sfx_cache_entry_t :=
  match chan.sfx with
  | none => none
  | some k =>
    match sfxCache[k]? with
    | none => none
    | some sfx => sfx.cache_data

/-- The next frame of a channel: the samples `CopyNextChannelFrame` writes to each of
`numChannels` output channels of `numSamples` samples; empty for a free slot. -/
def nextFrame (sfxCache : List sfx_t) (numChannels numSamples : Nat) (chan : hrtf_channel_t) : List ℚ :=
  match entryOf sfxCache chan with
  | none => []
  | some entry =>
    match CopyNextChannelFrame.loop entry.buf numChannels chan.loopStartSample numSamples chan.spent with
    | .error _ => []
    | .ok (row, _) => row

/-- The cursor of a channel after its next frame is copied; the cursor it has for a free
slot. -/
def nextCursor (sfxCache : List sfx_t) (numChannels numSamples : Nat) (chan : hrtf_channel_t) : Nat :=
  match entryOf sfxCache chan with
  | none => chan.spent
  | some entry =>
    match CopyNextChannelFrame.loop entry.buf numChannels chan.loopStartSample numSamples chan.spent with
    | .error _ => chan.spent
    | .ok (_, spent) => spent

/-- What a tick makes of a slot, for a mix buffer of `C` channels of `S` samples: a live
slot is released when its cursor ends at or beyond the source length, and keeps the
advanced cursor otherwise. -/
def slotAfter (sfxCache : List sfx_t) (C S : Nat) (chan : hrtf_channel_t) : hrtf_channel_t :=
  match entryOf sfxCache chan with
  | none => chan
  | some entry =>
    if nextCursor sfxCache C S chan ≥ entry.buf.numSamples then FreeChannel chan
    else { chan with spent := nextCursor sfxCache C S chan }

/-- The frame a live channel hands to the mix: its next frame in every output channel. -/
def subsetOf (sfxCache : List sfx_t) (C S : Nat) (chan : hrtf_channel_t) : IPLAudioBuffer :=
  { numChannels := C, numSamples := S, data := List.replicate C (nextFrame sfxCache C S chan) }

/-- What a tick of one slot makes of the mix buffer. -/
def mixAfter (h : host_t) (st : hrtf_state_t) (chan : hrtf_channel_t) (mix : IPLAudioBuffer) :
    IPLAudioBuffer :=
  if chan.sfx = none then mix
  else if ShouldSkipProcessingChannel h st chan then mix
  else
    iplAudioBufferMix
      (ApplyGain
        (if chan.entnum ≠ h.viewentity ∧ chan.entchannel ≠ ENTCHANNEL_PLAY_GLOBALLY then
           ApplyEffects h (st.listenerOrigin, st.listenerForward, st.listenerRight, st.listenerUp)
             (subsetOf st.sfxCache mix.numChannels mix.numSamples chan)
             { chan with spent := nextCursor st.sfxCache mix.numChannels mix.numSamples chan }
         else subsetOf st.sfxCache mix.numChannels mix.numSamples chan)
        chan.volume)
      mix

/-- A slot the tick can process: it is free, or it plays a loaded entry from which the next
frame of `S` samples can be copied. -/
def Tickable (sfxCache : List sfx_t) (C S : Nat) (chan : hrtf_channel_t) : Prop :=
  chan.sfx = none ∨
    ∃ entry row spent, entryOf sfxCache chan = some entry ∧
      CopyNextChannelFrame.loop entry.buf C chan.loopStartSample S chan.spent = .ok (row, spent)

/-- Every live slot of `m'` is the same slot of `m`, live with the same pair. -/
def Shrinks (m m' : List hrtf_channel_t) : Prop :=
  ∀ (i : Nat) (ch' : hrtf_channel_t), m'[i]? = some ch' → ch'.sfx.isSome = true →
    ∃ ch, m[i]? = some ch ∧ ch.sfx.isSome = true ∧ ch.entnum = ch'.entnum ∧
      ch.entchannel = ch'.entchannel

/-! ## Example inputs -/

/-- The value of an outcome, or the value given when the call faulted. -/
def outcomeOr {α : Type} (dflt : α) : Except Fault α → α
  | .ok a => a
  | .error _ => dflt

/-- A non-looping mono source of four samples. -/
def demoEntry : hrtf_sfx_cache_entry_t :=
  { buf := { numChannels := 1, numSamples := 4, data := [[1/2, 1/2, 1/2, 1/2]] }, loopStart := -1 }

/-- A host whose files all load as `demoEntry`, with the player as entity `1`, a spatializer
that passes its input through, no music, and the listener outside any level. -/
def demoHost : host_t :=
  { viewentity := 1,
    LoadWAV := fun _ => some demoEntry,
    VectorNormalize := fun v => |v.1| + |v.2.1| + |v.2.2|,
    spatialize := fun _ _ buf i j => (buf.sample? i j).getD 0,
    exp := fun x => 1 + x,
    log := fun x => x - 1,
    bgmNext := none,
    bgmvolume := 1,
    connected := false,
    leaf := none,
    forceunderwater := false,
    snd_waterfx := 1,
    ambient_level := 3 / 10,
    host_frametime := 1 / 60 }

/-- An effect allocation that succeeds. -/
def demoFx : effect_alloc_t := { binaural := some 1, direct := some 2 }

/-- The state after `HRTF_Init` with the default options. -/
def demoInit : hrtf_state_t := HRTF_Init (7 / 10) 44100

/-- The state after precaching one sound. -/
def demoCached : hrtf_state_t :=
  (outcomeOr (demoInit, none) (HRTF_PrecacheSound demoHost demoInit "weapons/rocket1.wav")).1

/-- The state after starting the cached sound on entity 5, sub-channel 3. -/
def demoOnce : hrtf_state_t :=
  (outcomeOr (demoCached, none)
    (StartSound demoHost demoCached 5 3 0 (0, 0, 0) 1 1 false 0 demoFx)).1

/-- The state after starting it there a second time. -/
def demoTwice : hrtf_state_t :=
  (outcomeOr (demoOnce, none)
    (StartSound demoHost demoOnce 5 3 0 (10, 0, 0) 1 1 false 0 demoFx)).1

/-- A live channel: the cached sound playing on the auto sub-channel of entity 7. -/
def demoLive : hrtf_channel_t :=
  { entnum := 7, entchannel := ENTCHANNEL_AUTO, volume := 1, attenuation := 1, sfx := some 0,
    origin := (0, 0, 0), spent := 0, loopStartSample := -1,
    iplBinauralEffect := some 1, iplDirectEffect := some 2 }

/-- A pool in which every slot is live. -/
def demoFull : hrtf_state_t :=
  { demoCached with mixer := List.replicate CHANNELS_MAX demoLive }

/-- The state after starting the cached sound on the auto sub-channel of entity 5. -/
def demoAuto : hrtf_state_t :=
  (outcomeOr (demoCached, none)
    (StartSound demoHost demoCached 5 ENTCHANNEL_AUTO 0 (0, 0, 0) 1 1 false 0 demoFx)).1

/-- The state after starting it there a second time. -/
def demoAutoTwice : hrtf_state_t :=
  (outcomeOr (demoAuto, none)
    (StartSound demoHost demoAuto 5 ENTCHANNEL_AUTO 0 (0, 0, 0) 1 1 false 0 demoFx)).1

/-- The state after `InitAmbients` on the initial state. -/
def demoAmbients : hrtf_state_t :=
  outcomeOr demoInit (InitAmbients demoHost demoInit (fun _ => 0) (fun _ => demoFx))

/-- The mix buffer `MixAndSend` hands to `MixAudio`: two channels of `FRAME_SIZE` zeroes. -/
def demoMix : IPLAudioBuffer := iplAudioBufferZero (AllocScratchBuffer NUM_OUTPUT_CHANNELS FRAME_SIZE)

/-- The state after the player's own local sound is started on the initial state: slot `0`
plays `demoEntry`, unspatialized, with volume `1` and attenuation `1`. -/
def demoLocal : hrtf_state_t :=
  outcomeOr demoInit (HRTF_LocalSound demoHost demoInit "misc/menu1.wav" demoFx)

/-- The channel `demoLocal` has in slot `0`. -/
def demoLocalChan : hrtf_channel_t :=
  { entnum := 1, entchannel := ENTCHANNEL_AUTO, volume := 1, attenuation := 1, sfx := some 0,
    origin := (0, 0, 0), spent := 0, loopStartSample := -1,
    iplBinauralEffect := some 1, iplDirectEffect := some 2 }

/-- The state after entity 2 starts the cached sound on sub-channel 1 with volume `1` and
attenuation `0`, a hundred units from the listener. -/
def demoAtt0 : hrtf_state_t :=
  outcomeOr demoCached (HRTF_StartSound demoHost demoCached 2 1 0 (100, 0, 0) 1 0 demoFx)

/-- The channel `demoAtt0` has in slot `0`. -/
def demoAtt0Chan : hrtf_channel_t :=
  { entnum := 2, entchannel := 1, volume := 1, attenuation := 0, sfx := some 0,
    origin := (100, 0, 0), spent := 0, loopStartSample := -1,
    iplBinauralEffect := some 1, iplDirectEffect := some 2 }

/-- A looping mono source of eight samples with loop start `4`. -/
def demoHumEntry : hrtf_sfx_cache_entry_t :=
  { buf := { numChannels := 1, numSamples := 8,
             data := [[1/2, 1/4, 1/2, 1/4, 1/2, 1/4, 1/2, 1/4]] },
    loopStart := 4 }

/-- The host `demoHost`, with files that all load as `demoHumEntry`. -/
def demoHumHost : host_t := { demoHost with LoadWAV := fun _ => some demoHumEntry }

/-- The state after the player's own local sound is started with `demoHumHost`. -/
def demoHum : hrtf_state_t :=
  outcomeOr demoInit (HRTF_LocalSound demoHumHost demoInit "ambience/hum1.wav" demoFx)

/-- The channel `demoHum` has in slot `0`. -/
def demoHumChan : hrtf_channel_t :=
  { demoLocalChan with loopStartSample := 4 }

/-- A looping mono source of `FRAME_SIZE` samples whose loop start lies beyond its end: what
`LoadWAV` computes (`scale = spec.freq / audioSpec.freq`, `loopStart = loopstart * scale`)
for a 44100 Hz file of 4096 samples with loop start 2048 when the mixer runs at 22050 Hz. -/
def demoLoopEntry : hrtf_sfx_cache_entry_t :=
  { buf := { numChannels := 1, numSamples := FRAME_SIZE, data := [List.replicate FRAME_SIZE (1/2)] },
    loopStart := 4096 }

/-- The host `demoHost`, with files that all load as `demoLoopEntry`. -/
def demoLoopHost : host_t := { demoHost with LoadWAV := fun _ => some demoLoopEntry }

/-- The state after `HRTF_Init` with the mixer at 22050 Hz. -/
def demoLoopInit : hrtf_state_t := HRTF_Init (7 / 10) 22050

/-- The state after the player's own local sound is started with `demoLoopHost`. -/
def demoLoop : hrtf_state_t :=
  outcomeOr demoLoopInit (HRTF_LocalSound demoLoopHost demoLoopInit "ambience/hum1.wav" demoFx)

/-- The channel `demoLoop` has in slot `0`. -/
def demoLoopChan : hrtf_channel_t :=
  { demoLocalChan with loopStartSample := 4096 }

/-- A live channel of another entity, one metre short of two thousand units from the
listener of `demoCached`, with attenuation `1` and volume `1`. -/
def demoFar : hrtf_channel_t :=
  { entnum := 2, entchannel := 1, volume := 1, attenuation := 1, sfx := some 0,
    origin := (2000, 0, 0), spent := 0, loopStartSample := -1,
    iplBinauralEffect := some 1, iplDirectEffect := some 2 }

/-- A source without loop, two samples longer than a frame. -/
def demoLongEntry : hrtf_sfx_cache_entry_t :=
  { buf := { numChannels := 1, numSamples := FRAME_SIZE + 2,
             data := [List.replicate (FRAME_SIZE + 2) (1/4)] },
    loopStart := -1 }

/-- The host `demoHost`, with files that all load as `demoLongEntry`. -/
def demoLongHost : host_t := { demoHost with LoadWAV := fun _ => some demoLongEntry }

/-- The state after `InitAmbients` with `demoLongHost`: slots `0` and `1` play the two
ambient sounds from their first sample, with volume `0`. -/
def demoLongAmbients : hrtf_state_t :=
  outcomeOr demoInit (InitAmbients demoLongHost demoInit (fun _ => 0) (fun _ => demoFx))

/-- The channel `demoLongAmbients` has in slot `0`. -/
def demoLongChan : hrtf_channel_t :=
  { entnum := ENTNUM_STATIC, entchannel := ENTCHANNEL_PLAY_GLOBALLY, volume := 0, attenuation := 1,
    sfx := some 0, origin := (0, 0, 0), spent := 0, loopStartSample := -1,
    iplBinauralEffect := some 1, iplDirectEffect := some 2 }

/-- The state after another entity starts the cached sound on `ENTCHANNEL_PLAY_GLOBALLY`
with volume `1/2`, while the local sound of `demoLocal` plays. -/
def demoDuo : hrtf_state_t :=
  outcomeOr demoLocal
    (HRTF_StartSound demoHost demoLocal 7 ENTCHANNEL_PLAY_GLOBALLY 0 (50, 0, 0) (1 / 2) 1 demoFx)

/-- The channel `demoDuo` has in slot `1`. -/
def demoDuoChan : hrtf_channel_t :=
  { entnum := 7, entchannel := ENTCHANNEL_PLAY_GLOBALLY, volume := 1 / 2, attenuation := 1,
    sfx := some 0, origin := (50, 0, 0), spent := 0, loopStartSample := -1,
    iplBinauralEffect := some 1, iplDirectEffect := some 2 }

/-- The channel `demoFar`, on `ENTCHANNEL_PLAY_GLOBALLY`. -/
def demoGlobalFar : hrtf_channel_t := { demoFar with entchannel := ENTCHANNEL_PLAY_GLOBALLY }

/-- The channel `demoFar`, owned by the listener's own entity. -/
def demoOwnFar : hrtf_channel_t := { demoFar with entnum := 1 }

/-- The channel `demoFar`, a hundred units from the listener. -/
def demoNear : hrtf_channel_t := { demoFar with origin := (100, 0, 0) }

/-- The host `demoHost`, with three kinds of files: `ambience/drone1.wav` loads as
`demoLoopEntry`, `ambience/hum1.wav` as `demoHumEntry`, every other file as `demoEntry`. -/
def demoMixedHost : host_t :=
  { demoHost with
    LoadWAV := fun name =>
      if name == "ambience/drone1.wav" then some demoLoopEntry
      else if name == "ambience/hum1.wav" then some demoHumEntry
      else some demoEntry }

/-- The state after the local sound `ambience/drone1.wav` is started with `demoMixedHost`,
with the mixer at 22050 Hz: slot `0` plays `demoLoopEntry`, whose loop start lies beyond its
end. -/
def demoMixedOne : hrtf_state_t :=
  outcomeOr demoLoopInit
    (HRTF_LocalSound demoMixedHost demoLoopInit "ambience/drone1.wav" demoFx)

/-- The state after `ambience/hum1.wav` is started next: slot `1` plays the looping
`demoHumEntry`. -/
def demoMixedTwo : hrtf_state_t :=
  outcomeOr demoMixedOne (HRTF_LocalSound demoMixedHost demoMixedOne "ambience/hum1.wav" demoFx)

/-- The state after `misc/menu1.wav` is started as well: slot `2` plays `demoEntry`, which
has no loop. -/
def demoMixed : hrtf_state_t :=
  outcomeOr demoMixedTwo (HRTF_LocalSound demoMixedHost demoMixedTwo "misc/menu1.wav" demoFx)

/-- The channel `demoMixed` has in slot `1`. -/
def demoMixedHum : hrtf_channel_t := { demoHumChan with sfx := some 1 }

/-- The channel `demoMixed` has in slot `2`. -/
def demoMixedMenu : hrtf_channel_t := { demoLocalChan with sfx := some 2 }

/-- The rows of the mix after the slots `m`, started from rows all equal to `acc`. -/
def mixedRow (sfxCache : List sfx_t) (C S : Nat) : List hrtf_channel_t → List ℚ → List ℚ
  | [], acc => acc
  | chan :: rest, acc =>
    mixedRow sfxCache C S rest
      (if chan.sfx.isSome then
        List.zipWith (fun x y => x + y) acc
          ((nextFrame sfxCache C S chan).map (fun x => x * chan.volume))
       else acc)

/-- The host `demoHost`, with a music resampler that emits frames of samples `3/4`. -/
def demoMusicHost : host_t := { demoHost with bgmNext := some (fun _ _ => 3 / 4) }

/-! ## The cache, the filter and the hand-off: properties and example inputs -/

/-- A stereo frame of three samples. -/
def demoBFrame : IPLAudioBuffer :=
  { numChannels := 2, numSamples := 3, data := [[1/4, -1/2, 3/4], [0, 1/8, -1/8]] }

/-- The initial state with a frame waiting in the mailbox. -/
def demoBMailboxFull : hrtf_state_t := { demoInit with frameBufferFull := true }

/-- The registered entries of the cache have names of fewer than `MAX_QPATH` bytes, and no
two of them have the same name. -/
def CacheNames (sfxCache : List sfx_t) (next : Nat) : Prop :=
  (∀ (i : Nat) (e : sfx_t), i < next → sfxCache[i]? = some e → e.name.utf8ByteSize < MAX_QPATH) ∧
  (∀ (i j : Nat) (ei ej : sfx_t), i < next → j < next → sfxCache[i]? = some ei →
    sfxCache[j]? = some ej → ei.name = ej.name → i = j)

/-- A host for which no sound file loads. -/
def demoBFailHost : host_t := { demoHost with LoadWAV := fun _ => none }

/-- The state after a precache whose load failed: the name is registered, without data. -/
def demoBUnloaded : hrtf_state_t :=
  (outcomeOr (demoInit, none) (HRTF_PrecacheSound demoBFailHost demoInit "misc/missing.wav")).1

/-- The state after `HRTF_StaticSound` on the cached, non-looping sound. -/
def demoBStatic : hrtf_state_t :=
  outcomeOr demoCached (HRTF_StaticSound demoHost demoCached 0 (100, 0, 0) 255 64 7 demoFx)

/-- An effect allocation whose second effect cannot be created. -/
def demoBFxFail : effect_alloc_t := { binaural := some 1, direct := none }

/-! ## The volume, the music resampler and the loop point: properties and example inputs -/

/-- A host whose `exp` is the Taylor polynomial of degree 5, within `0.002` of the
exponential on `[0, 1]`. -/
def demoExpHost : host_t :=
  { demoHost with exp := fun x => 1 + x + x ^ 2 / 2 + x ^ 3 / 6 + x ^ 4 / 24 + x ^ 5 / 120 }

/-- The state right after `HRTF_Init` with the `volume` option at `1/2`. -/
def demoHalfInit : hrtf_state_t := HRTF_Init (1 / 2) 44100

/-- A buffer of one channel holding the single sample `1`. -/
def demoUnitBuf : IPLAudioBuffer := { numChannels := 1, numSamples := 1, data := [[1]] }

/-- Every live channel of the pool plays a cache entry whose data is loaded. -/
def LiveLoaded (state : hrtf_state_t) : Bool :=
  state.mixer.all (fun chan =>
    match chan.sfx with
    | none => true
    | some k =>
      match state.sfxCache[k]? with
      | none => false
      | some sfx => sfx.cache_data.isSome)

/-- The state after `HRTF_ClearPrecache` while the local sound of `demoLocal` plays. -/
def demoCleared : hrtf_state_t := outcomeOr demoLocal (HRTF_ClearPrecache demoLocal)

/-- An SDL on which every conversion stream can be created, and whose streams turn every
input byte into two bytes of silence: the size 16-bit stereo input has as `float` stereo
output at the same rate. -/
def demoBgmHost : bgm_host_t :=
  { SDL_NewAudioStream := fun _ _ _ _ _ _ => true,
    SDL_AudioStreamPut := fun _ bytes => some (List.replicate (2 * bytes.length) 0) }

/-- The music state right after `bgm_init`. -/
def demoBgmInit : bgm_state_t := bgm_init demoInit

/-- A music stream of 16-bit stereo samples at 44100 Hz. -/
def demoCdInfo : snd_info_t := { rate := 44100, channels := 2, width := 2 }

/-- The music state after `UpdateConversionStream` for `demoCdInfo`: an empty conversion
stream, `inFrameSize = 8192`, `interleavedSize = 16384`. -/
def demoBgmCd : bgm_state_t :=
  (outcomeOr (demoBgmInit, false) (UpdateConversionStream demoBgmHost demoBgmInit (some demoCdInfo))).1

/-- The conversion stream of `demoBgmCd`, holding `n` converted bytes of silence. -/
def demoCdStream (n : Nat) : SDL_AudioStream :=
  { src_format := AUDIO_S16SYS, src_channels := 2, src_rate := 44100,
    dst_format := AUDIO_F32SYS, dst_channels := 2, dst_rate := 44100,
    converted := List.replicate n 0 }

/-- The last read of a track: 4096 bytes, half of the 8192 asked for. -/
def demoTail : List codec_read_t := [⟨List.replicate 4096 0, 0⟩]

/-- A track of four bytes played in a loop: its data, the end of the data, its data again,
the end of the data again. Every rewind succeeds. -/
def demoTinyTrack : List codec_read_t := [⟨[1, 2, 3, 4], 0⟩, ⟨[], 0⟩, ⟨[1, 2, 3, 4], 0⟩, ⟨[], 0⟩]

/-- The number of reads of a list that deliver no byte. -/
def emptyReads (reads : List codec_read_t) : Nat := (reads.filter (fun r => r.bytes.isEmpty)).length

/-- The music state `demoBgmCd` with sixteen converted bytes `1, 2, .., 16` waiting in the
conversion stream. -/
def demoBgmSixteen : bgm_state_t :=
  { demoBgmCd with
    inStream := some { demoCdStream 0 with
      converted := [1, 2, 3, 4, 5, 6, 7, 8, 9, 10, 11, 12, 13, 14, 15, 16] } }

/-- The music state `demoBgmCd` with 8192 converted bytes waiting in the conversion
stream. -/
def demoBgmHalf : bgm_state_t := { demoBgmCd with inStream := some (demoCdStream 8192) }

/-! ## Lemmas: rounding to binary32 -/

/-- The rounding of `x` is not below an integer that `x` is not below. -/
theorem roundHalfEven_ge (n : Int) (x : ℚ) (h : (n : ℚ) ≤ x) : n ≤ roundHalfEven x := by
  have hf : n ≤ ⌊x⌋ := Int.le_floor.2 h
  unfold roundHalfEven
  split
  · exact hf
  · split
    · omega
    · split
      · exact hf
      · omega

/-- The rounding of `x` is not above an integer that `x` is not above. -/
theorem roundHalfEven_le (n : Int) (x : ℚ) (h : x ≤ (n : ℚ)) : roundHalfEven x ≤ n := by
  have hf : ⌊x⌋ ≤ n := by
    have h1 : ((⌊x⌋ : Int) : ℚ) ≤ (n : ℚ) := le_trans (Int.floor_le x) h
    exact_mod_cast h1
  have hstep : ¬ (x - ⌊x⌋ < 1 / 2) → ⌊x⌋ + 1 ≤ n := by
    intro hfrac
    have hlt : x < (n : ℚ) := by
      rcases lt_or_eq_of_le h with h1 | h1
      · exact h1
      · exfalso
        apply hfrac
        rw [h1, Int.floor_intCast]
        norm_num
    have := Int.floor_lt.2 hlt
    omega
  unfold roundHalfEven
  split
  · exact hf
  · rename_i hfrac
    split
    · exact hstep hfrac
    · split
      · exact hf
      · exact hstep hfrac

/-- The search for the exponent of an `x ≥ 1` only counts up, and `2 ^ e` stays at or below
the value searched for. -/
theorem f32_exponent_search_of_one_le (fuel : Nat) (x : ℚ) (e : Int) (hx : 1 ≤ x) :
    e ≤ f32.exponent.search fuel x e ∧ (2 : ℚ) ^ (f32.exponent.search fuel x e) ≤ x * 2 ^ e := by
  induction fuel generalizing x e with
  | zero =>
    refine ⟨le_refl _, ?_⟩
    unfold f32.exponent.search
    have hpos : (0 : ℚ) < 2 ^ e := zpow_pos (by norm_num) e
    nlinarith
  | succ fuel ih =>
    unfold f32.exponent.search
    split
    · rename_i h2
      obtain ⟨h1, h3⟩ := ih (x / 2) (e + 1) (by linarith)
      refine ⟨by omega, ?_⟩
      have he : (2 : ℚ) ^ (e + 1) = 2 ^ e * 2 := zpow_add_one₀ (by norm_num) e
      rw [he] at h3
      calc (2 : ℚ) ^ (f32.exponent.search fuel (x / 2) (e + 1)) ≤ x / 2 * (2 ^ e * 2) := h3
        _ = x * 2 ^ e := by ring
    · rw [if_neg (by linarith)]
      refine ⟨le_refl _, ?_⟩
      have hpos : (0 : ℚ) < 2 ^ e := zpow_pos (by norm_num) e
      nlinarith

/-- The search for the exponent of an `x < 2` only counts down, and the value searched for
stays below `2 ^ (e + 1)`. -/
theorem f32_exponent_search_of_lt_two (fuel : Nat) (x : ℚ) (e : Int) (hx : x < 2) :
    f32.exponent.search fuel x e ≤ e ∧ x * 2 ^ e < (2 : ℚ) ^ (f32.exponent.search fuel x e + 1) := by
  induction fuel generalizing x e with
  | zero =>
    refine ⟨le_refl _, ?_⟩
    unfold f32.exponent.search
    have hpos : (0 : ℚ) < 2 ^ e := zpow_pos (by norm_num) e
    rw [zpow_add_one₀ (by norm_num)]
    nlinarith
  | succ fuel ih =>
    unfold f32.exponent.search
    rw [if_neg (by linarith)]
    split
    · rename_i h1
      obtain ⟨h2, h3⟩ := ih (2 * x) (e - 1) (by linarith)
      refine ⟨by omega, ?_⟩
      have he : (2 : ℚ) ^ e = 2 ^ (e - 1) * 2 := by
        rw [← zpow_add_one₀ (by norm_num)]
        congr 1
        omega
      calc x * 2 ^ e = 2 * x * 2 ^ (e - 1) := by rw [he]; ring
        _ < _ := h3
    · refine ⟨le_refl _, ?_⟩
      have hpos : (0 : ℚ) < 2 ^ e := zpow_pos (by norm_num) e
      rw [zpow_add_one₀ (by norm_num)]
      nlinarith

/-- Rounding to binary32 does not take a value that is at least `1` below `1`. -/
theorem f32_one_le (x : ℚ) (hx : 1 ≤ x) : 1 ≤ f32 x := by
  have habs : |x| = x := abs_of_nonneg (by linarith)
  obtain ⟨h0, hle⟩ := f32_exponent_search_of_one_le 300 x 0 hx
  have hexp : f32.exponent x = f32.exponent.search 300 x 0 := by
    unfold f32.exponent
    rw [habs]
  have hmax : max (f32.exponent x) (-126) = f32.exponent x := by
    rw [hexp]
    omega
  unfold f32
  rw [hmax]
  rw [← hexp] at h0 hle
  simp only [zpow_zero, mul_one] at hle
  have hu : (0 : ℚ) < 2 ^ (f32.exponent x - 23) := zpow_pos (by norm_num) _
  have hsplit : (2 : ℚ) ^ (f32.exponent x) = 2 ^ (f32.exponent x - 23) * 2 ^ (23 : Int) := by
    rw [← zpow_add₀ (by norm_num : (2 : ℚ) ≠ 0)]
    congr 1
    omega
  have hq : ((8388608 : Int) : ℚ) ≤ x / 2 ^ (f32.exponent x - 23) := by
    rw [le_div_iff₀ hu]
    calc ((8388608 : Int) : ℚ) * 2 ^ (f32.exponent x - 23)
        = 2 ^ (f32.exponent x - 23) * 2 ^ (23 : Int) := by norm_num; ring
      _ = 2 ^ (f32.exponent x) := hsplit.symm
      _ ≤ x := hle
  have hr := roundHalfEven_ge 8388608 _ hq
  have hr' : ((8388608 : Int) : ℚ) ≤ (roundHalfEven (x / 2 ^ (f32.exponent x - 23)) : ℚ) := by
    exact_mod_cast hr
  have hone : (1 : ℚ) ≤ 2 ^ (f32.exponent x) := one_le_zpow₀ (by norm_num) h0
  calc (1 : ℚ) ≤ 2 ^ (f32.exponent x) := hone
    _ = ((8388608 : Int) : ℚ) * 2 ^ (f32.exponent x - 23) := by rw [hsplit]; norm_num; ring
    _ ≤ (roundHalfEven (x / 2 ^ (f32.exponent x - 23)) : ℚ) * 2 ^ (f32.exponent x - 23) :=
      mul_le_mul_of_nonneg_right hr' (le_of_lt hu)

/-- Rounding to binary32 does not make a value that is at most `0` positive. -/
theorem f32_nonpos (x : ℚ) (hx : x ≤ 0) : f32 x ≤ 0 := by
  unfold f32
  have hu : (0 : ℚ) < 2 ^ (max (f32.exponent x) (-126) - 23) := zpow_pos (by norm_num) _
  have hq : x / 2 ^ (max (f32.exponent x) (-126) - 23) ≤ ((0 : Int) : ℚ) := by
    rw [div_le_iff₀ hu]
    simpa using hx
  have hr := roundHalfEven_le 0 _ hq
  have hr' : (roundHalfEven (x / 2 ^ (max (f32.exponent x) (-126) - 23)) : ℚ) ≤ 0 := by
    exact_mod_cast hr
  exact mul_nonpos_of_nonpos_of_nonneg hr' (le_of_lt hu)

/-- Zero is a binary32 value. -/
theorem f32_zero : f32 0 = 0 := by
  unfold f32
  simp [roundHalfEven]

/-- One is a binary32 value. -/
theorem f32_one : f32 1 = 1 := by decide!

/-- No binary32 value lies above `0.01f` and at or below `1/100`. -/
theorem f32_le_threshold (z : ℚ) (h : f32 z ≤ 1 / 100) : f32 z ≤ f32 (1 / 100) := by
  have ht : f32 (1 / 100) = 10737418 / 1073741824 := by decide!
  rw [ht]
  unfold f32 at h ⊢
  generalize hec : max (f32.exponent z) (-126) = ec at h ⊢
  generalize hn : roundHalfEven (z / 2 ^ (ec - 23)) = n at h ⊢
  have hu : (0 : ℚ) < 2 ^ (ec - 23) := zpow_pos (by norm_num) _
  by_cases hc : -7 ≤ ec
  · obtain ⟨k, hk⟩ := Int.eq_ofNat_of_zero_le (show 0 ≤ ec + 7 by omega)
    have hpow : (2 : ℚ) ^ (ec - 23) = (2 : ℚ) ^ k / 1073741824 := by
      have e1 : ec - 23 = (k : Int) - 30 := by omega
      rw [e1, zpow_sub₀ (by norm_num : (2 : ℚ) ≠ 0)]
      norm_num
    rw [hpow] at h ⊢
    rw [← mul_div_assoc] at h ⊢
    rw [div_le_iff₀ (by norm_num)] at h
    have h1 : ((n * 2 ^ k : Int) : ℚ) * 100 ≤ 1073741824 := by
      push_cast
      linarith
    have h2 : (n * 2 ^ k) * 100 ≤ (1073741824 : Int) := by exact_mod_cast h1
    have h3 : n * 2 ^ k ≤ (10737418 : Int) := by omega
    have h4 : ((n * 2 ^ k : Int) : ℚ) ≤ 10737418 := by exact_mod_cast h3
    push_cast at h4
    exact div_le_div_of_nonneg_right h4 (by norm_num)
  · have hlow : ec ≤ -8 := by omega
    have hz2 : |z| < 2 := by
      by_contra hge
      have h1 : (1 : ℚ) ≤ |z| := by linarith [not_lt.1 hge]
      have := (f32_exponent_search_of_one_le 300 |z| 0 h1).1
      have hexp : f32.exponent z = f32.exponent.search 300 |z| 0 := rfl
      omega
    obtain ⟨hr, hlt⟩ := f32_exponent_search_of_lt_two 300 |z| 0 hz2
    have hexp : f32.exponent z = f32.exponent.search 300 |z| 0 := rfl
    rw [← hexp] at hr hlt
    simp only [zpow_zero, mul_one] at hlt
    have hle : f32.exponent z ≤ ec := by omega
    have hzle : z ≤ 2 ^ (ec + 1) := by
      have h1 : (2 : ℚ) ^ (f32.exponent z + 1) ≤ 2 ^ (ec + 1) :=
        zpow_le_zpow_right₀ (by norm_num) (by omega)
      linarith [le_abs_self z]
    have hsplit : (2 : ℚ) ^ (ec + 1) = 16777216 * 2 ^ (ec - 23) := by
      have e1 : ec + 1 = (ec - 23) + 24 := by omega
      rw [e1, zpow_add₀ (by norm_num : (2 : ℚ) ≠ 0)]
      norm_num
      ring
    have hq : z / 2 ^ (ec - 23) ≤ ((16777216 : Int) : ℚ) := by
      rw [div_le_iff₀ hu]
      push_cast
      linarith
    have hn' := roundHalfEven_le 16777216 _ hq
    rw [hn] at hn'
    have hn'' : (n : ℚ) ≤ 16777216 := by exact_mod_cast hn'
    have h7 : (2 : ℚ) ^ (ec + 1) ≤ 2 ^ (-7 : Int) := zpow_le_zpow_right₀ (by norm_num) (by omega)
    have h8 : (2 : ℚ) ^ (-7 : Int) = 1 / 128 := by norm_num
    calc (n : ℚ) * 2 ^ (ec - 23) ≤ 16777216 * 2 ^ (ec - 23) :=
          mul_le_mul_of_nonneg_right hn'' (le_of_lt hu)
      _ = 2 ^ (ec + 1) := hsplit.symm
      _ ≤ 1 / 128 := by rw [← h8]; exact h7
      _ ≤ 10737418 / 1073741824 := by norm_num

/-- Comparing the distance attenuation with `0.01f` decides the same as comparing it with
`1/100`. -/
theorem ComputeDistanceAttenuation_le_threshold (h : host_t) (listenerOrigin sourceOrigin : vec3_t)
    (a : ℚ) :
    ComputeDistanceAttenuation h listenerOrigin sourceOrigin a ≤ f32 (1 / 100) ↔
      ComputeDistanceAttenuation h listenerOrigin sourceOrigin a ≤ 1 / 100 := by
  have ht : f32 (1 / 100) = 10737418 / 1073741824 := by decide!
  constructor
  · intro h1
    rw [ht] at h1
    refine le_trans h1 (by norm_num)
  · intro h1
    simp only [ComputeDistanceAttenuation, CLAMP] at h1 ⊢
    split
    · rw [ht]
      norm_num
    · rename_i hneg
      rw [if_neg hneg] at h1
      split
      · rename_i hbig
        rw [if_pos hbig] at h1
        norm_num at h1
      · rename_i hbig
        rw [if_neg hbig] at h1
        exact f32_le_threshold _ h1

/-! ## Lemmas: scans, cache lookups and the pool invariant -/

theorem firstIndex_eq_some_iff {α : Type} (p : α → Bool) (l : List α) (i : Nat) :
    firstIndex p l = some i ↔
      (∃ a, l[i]? = some a ∧ p a = true) ∧ ∀ j < i, ∀ b, l[j]? = some b → p b = false := by
  induction l generalizing i with
  | nil => simp [firstIndex]
  | cons a as ih =>
    unfold firstIndex
    by_cases hp : p a = true
    · simp only [hp, if_true]
      constructor
      · intro h
        have : i = 0 := by simpa using h.symm
        subst this
        simp [hp]
      · rintro ⟨_, hlt⟩
        cases i with
        | zero => rfl
        | succ n =>
          have := hlt 0 (Nat.succ_pos n) a (by simp)
          simp [hp] at this
    · have hp' : p a = false := by simpa using hp
      simp only [hp', Bool.false_eq_true, if_false]
      cases i with
      | zero =>
        simp [hp']
      | succ n =>
        simp only [Option.map_eq_some', Nat.add_right_cancel_iff, exists_eq_right]
        rw [ih n]
        simp only [List.getElem?_cons_succ]
        constructor
        · rintro ⟨h1, h2⟩
          refine ⟨h1, ?_⟩
          intro j hj b hb
          cases j with
          | zero => simp at hb; subst hb; exact hp'
          | succ k => exact h2 k (by omega) b (by simpa using hb)
        · rintro ⟨h1, h2⟩
          refine ⟨h1, ?_⟩
          intro j hj b hb
          exact h2 (j + 1) (by omega) b (by simpa using hb)

theorem firstIndex_eq_none_iff {α : Type} (p : α → Bool) (l : List α) :
    firstIndex p l = none ↔ ∀ (i : Nat) (a : α), l[i]? = some a → p a = false := by
  induction l with
  | nil => simp [firstIndex]
  | cons a as ih =>
    unfold firstIndex
    by_cases hp : p a = true
    · simp only [hp, if_true]
      constructor
      · intro h; cases h
      · intro h
        have := h 0 a (by simp)
        simp [hp] at this
    · have hp' : p a = false := by simpa using hp
      simp only [hp', Bool.false_eq_true, if_false, Option.map_eq_none', ih]
      constructor
      · intro h i b hb
        cases i with
        | zero => simp at hb; subst hb; exact hp'
        | succ k => exact h k b (by simpa using hb)
      · intro h i b hb
        exact h (i + 1) b (by simpa using hb)

theorem FindOrAllocateCacheEntry_mixer {s s' : hrtf_state_t} {name : String} {k : Nat}
    (hs : FindOrAllocateCacheEntry s name = .ok (s', k)) : s'.mixer = s.mixer := by
  unfold FindOrAllocateCacheEntry at hs
  split at hs
  · cases hs
  · split at hs
    · cases hs; rfl
    · split at hs
      · cases hs
      · split at hs
        · cases hs
        · cases hs; rfl

theorem PrecacheSound_mixer {h : host_t} {s s' : hrtf_state_t} {name : String} {r : Option Nat}
    (hs : PrecacheSound h s name = .ok (s', r)) : s'.mixer = s.mixer := by
  unfold PrecacheSound at hs
  split at hs
  · cases hs
  · rename_i s2 k hfind
    have hm := FindOrAllocateCacheEntry_mixer hfind
    split at hs
    · cases hs
    · split at hs
      · cases hs; exact hm
      · split at hs
        · cases hs; exact hm
        · cases hs; exact hm

theorem AllocEffects_sfx (fx : effect_alloc_t) (chan : hrtf_channel_t) :
    (AllocEffects fx chan).1.sfx = chan.sfx := by
  unfold AllocEffects
  split
  · rfl
  · split <;> rfl

theorem StartSound_ok {h : host_t} {s s1 : hrtf_state_t} {e c : Int} {sfx : Nat} {o : vec3_t}
    {v a : ℚ} {r : Bool} {rnd : Nat} {fx : effect_alloc_t} {res : Option Nat}
    (hs : StartSound h s e c sfx o v a r rnd fx = .ok (s1, res)) :
    ∃ i chan0 chan1, PickChannel s.mixer e c = some i ∧ s.mixer[i]? = some chan0 ∧
      s1.mixer = s.mixer.set i chan1 ∧
      ((res = none ∧ chan1.sfx = none) ∨
       (res = some i ∧ chan1.sfx.isSome = true ∧ chan1.entnum = e ∧ chan1.entchannel = c ∧
        chan1.volume = v ∧ chan1.attenuation = a)) := by
  unfold StartSound at hs
  split at hs
  · cases hs
  split at hs
  · cases hs
  split at hs
  · cases hs
  rename_i e0 he0
  split at hs
  · cases hs
  rename_i s2 sfx2 hpre
  have hm : s2.mixer = s.mixer := by
    split at hpre
    · exact PrecacheSound_mixer hpre
    · cases hpre; rfl
  rw [hm] at hs
  split at hs
  · cases hs
  rename_i i hpick
  split at hs
  · cases hs
  rename_i chan0 hchan0
  have hF : (if chan0.sfx.isSome = true then FreeChannel chan0 else chan0).sfx = none := by
    split
    · rfl
    · rename_i hn
      simpa using hn
  generalize (if chan0.sfx.isSome = true then FreeChannel chan0 else chan0) = chanF at hs hF
  have h1 := AllocEffects_sfx fx chanF
  rcases halloc : AllocEffects fx chanF with ⟨chan1, ok⟩
  dsimp only at hs
  rw [halloc] at hs h1
  cases ok
  · simp only at hs
    cases hs
    exact ⟨i, chan0, chan1, hpick, hchan0, rfl, Or.inl ⟨rfl, by rw [← hF]; exact h1⟩⟩
  · simp only at hs
    split at hs
    · cases hs
    split at hs
    · cases hs
    split at hs
    · cases hs
    split at hs
    · cases hs
    cases hs
    exact ⟨i, chan0, _, hpick, hchan0, rfl, Or.inr ⟨rfl, rfl, rfl, rfl, rfl, rfl⟩⟩

theorem shrinks_refl (m : List hrtf_channel_t) : Shrinks m m :=
  fun _ ch' h1 h2 => ⟨ch', h1, h2, rfl, rfl⟩

theorem shrinks_trans {m1 m2 m3 : List hrtf_channel_t} (h12 : Shrinks m1 m2) (h23 : Shrinks m2 m3) :
    Shrinks m1 m3 := by
  intro i ch3 h3 hl3
  obtain ⟨ch2, h2, hl2, he2, hc2⟩ := h23 i ch3 h3 hl3
  obtain ⟨ch1, h1, hl1, he1, hc1⟩ := h12 i ch2 h2 hl2
  exact ⟨ch1, h1, hl1, he1.trans he2, hc1.trans hc2⟩

theorem shrinks_holds {m m' : List hrtf_channel_t} (hm : Shrinks m m') {i : Nat} {e c : Int}
    (hh : Holds m' i e c) : Holds m i e c := by
  obtain ⟨ch', h1, h2, h3, h4⟩ := hh
  obtain ⟨ch, g1, g2, g3, g4⟩ := hm i ch' h1 h2
  exact ⟨ch, g1, g2, g3.trans h3, g4.trans h4⟩

theorem pairUnique_shrinks {m m' : List hrtf_channel_t} (hu : PairUnique m) (hm : Shrinks m m') :
    PairUnique m' :=
  fun e c i j he hc hi hj => hu e c i j he hc (shrinks_holds hm hi) (shrinks_holds hm hj)

theorem shrinks_map (m : List hrtf_channel_t) (f : hrtf_channel_t → hrtf_channel_t)
    (hf : ∀ ch, (f ch).sfx.isSome = true →
      ch.sfx.isSome = true ∧ ch.entnum = (f ch).entnum ∧ ch.entchannel = (f ch).entchannel) :
    Shrinks m (m.map f) := by
  intro i ch' h1 h2
  rw [List.getElem?_map] at h1
  cases hmi : m[i]? with
  | none => simp [hmi] at h1
  | some ch =>
    simp [hmi] at h1
    subst h1
    exact ⟨ch, rfl, hf ch h2⟩

theorem shrinks_set_dead (m : List hrtf_channel_t) (k : Nat) (chan : hrtf_channel_t)
    (hd : chan.sfx = none) : Shrinks m (m.set k chan) := by
  intro i ch' h1 h2
  rw [List.getElem?_set] at h1
  split at h1
  · split at h1
    · cases h1
      simp [hd] at h2
    · cases h1
  · exact ⟨ch', h1, h2, rfl, rfl⟩

theorem shrinks_set_same (m : List hrtf_channel_t) (k : Nat) (ch0 chan : hrtf_channel_t)
    (hk : m[k]? = some ch0)
    (hs : chan.sfx.isSome = true → ch0.sfx.isSome = true ∧ ch0.entnum = chan.entnum ∧
      ch0.entchannel = chan.entchannel) : Shrinks m (m.set k chan) := by
  intro i ch' h1 h2
  rw [List.getElem?_set] at h1
  split at h1
  · rename_i hki
    subst hki
    split at h1
    · cases h1
      exact ⟨ch0, hk, hs h2⟩
    · cases h1
  · exact ⟨ch', h1, h2, rfl, rfl⟩

theorem PickChannel_reuse {m : List hrtf_channel_t} {e c : Int} {i : Nat} (he : 0 ≤ e) (hc : c ≠ 0)
    (hp : PickChannel m e c = some i) :
    (Holds m i e c ∧ ∀ j < i, ¬ Holds m j e c) ∨
    ((∀ j, ¬ Holds m j e c) ∧ PickRandomChannel m = some i) := by
  unfold PickChannel at hp
  rw [if_neg (by omega)] at hp
  split at hp
  · rename_i i' hi'
    cases hp
    rw [firstIndex_eq_some_iff] at hi'
    obtain ⟨⟨ch, h1, h2⟩, h3⟩ := hi'
    simp only [Bool.and_eq_true, beq_iff_eq] at h2
    refine Or.inl ⟨⟨ch, h1, h2.1, h2.2.1, h2.2.2⟩, ?_⟩
    rintro j hj ⟨chj, g1, g2, g3, g4⟩
    have := h3 j hj chj g1
    simp [g2, g3, g4] at this
  · rename_i hnone
    rw [firstIndex_eq_none_iff] at hnone
    refine Or.inr ⟨?_, hp⟩
    rintro j ⟨chj, g1, g2, g3, g4⟩
    have := hnone j chj g1
    simp [g2, g3, g4] at this

theorem PickChannel_free {m : List hrtf_channel_t} {e c : Int} {i : Nat} (hec : e < 0 ∨ c = 0)
    (hp : PickChannel m e c = some i) : PickRandomChannel m = some i := by
  unfold PickChannel at hp
  rwa [if_pos hec] at hp

theorem PickRandomChannel_some {m : List hrtf_channel_t} {i : Nat}
    (hp : PickRandomChannel m = some i) :
    (∃ ch, m[i]? = some ch ∧ ch.sfx = none) ∧
      ∀ j < i, ∀ ch, m[j]? = some ch → ch.sfx.isSome = true := by
  unfold PickRandomChannel at hp
  rw [firstIndex_eq_some_iff] at hp
  obtain ⟨⟨ch, h1, h2⟩, h3⟩ := hp
  refine ⟨⟨ch, h1, by simpa using h2⟩, ?_⟩
  intro j hj chj hchj
  have := h3 j hj chj hchj
  cases hsfx : chj.sfx <;> simp [hsfx] at this ⊢

theorem holds_set {m : List hrtf_channel_t} {k j : Nat} {chan : hrtf_channel_t} {e c : Int}
    (hh : Holds (m.set k chan) j e c) :
    (j = k ∧ chan.entnum = e ∧ chan.entchannel = c) ∨ (j ≠ k ∧ Holds m j e c) := by
  obtain ⟨ch, h1, h2, h3, h4⟩ := hh
  rw [List.getElem?_set] at h1
  split at h1
  · rename_i hkj
    split at h1
    · cases h1
      exact Or.inl ⟨hkj.symm, h3, h4⟩
    · cases h1
  · rename_i hkj
    exact Or.inr ⟨fun h => hkj h.symm, ch, h1, h2, h3, h4⟩

theorem StartSound_pairUnique {h : host_t} {s s1 : hrtf_state_t} {e c : Int} {sfx : Nat} {o : vec3_t}
    {v a : ℚ} {r : Bool} {rnd : Nat} {fx : effect_alloc_t} {res : Option Nat}
    (hs : StartSound h s e c sfx o v a r rnd fx = .ok (s1, res)) (hu : PairUnique s.mixer) :
    PairUnique s1.mixer := by
  obtain ⟨i, chan0, chan1, hpick, hchan0, hm1, hres⟩ := StartSound_ok hs
  rw [hm1]
  rcases hres with ⟨_, hdead⟩ | ⟨_, hlive, hent, hch, _, _⟩
  · exact pairUnique_shrinks hu (shrinks_set_dead _ _ _ hdead)
  · intro e' c' j1 j2 he' hc' h1 h2
    have key : ∀ j, j ≠ i → Holds s.mixer j e' c' → chan1.entnum = e' → chan1.entchannel = c' → False := by
      intro j hj hjh g1 g2
      have he0 : 0 ≤ e := by rw [← hent, g1]; exact he'
      have hc0 : c ≠ 0 := by rw [← hch, g2]; exact hc'
      have hjh' : Holds s.mixer j e c := by rw [← hent, ← hch, g1, g2]; exact hjh
      rcases PickChannel_reuse he0 hc0 hpick with ⟨hi, _⟩ | ⟨hno, _⟩
      · exact hj (hu e c j i he0 hc0 hjh' hi)
      · exact hno j hjh'
    rcases holds_set h1 with ⟨e1, g1, g2⟩ | ⟨n1, g1⟩ <;> rcases holds_set h2 with ⟨e2, k1, k2⟩ | ⟨n2, k1⟩
    · rw [e1, e2]
    · exact (key j2 n2 k1 g1 g2).elim
    · exact (key j1 n1 g1 k1 k2).elim
    · exact hu e' c' j1 j2 he' hc' g1 k1

theorem CopyNextChannelFrame_ok {chan chan' : hrtf_channel_t} {src dst dst' : IPLAudioBuffer}
    (hc : CopyNextChannelFrame chan src dst = .ok (chan', dst')) :
    ∃ row spent,
      CopyNextChannelFrame.loop src dst.numChannels chan.loopStartSample dst.numSamples chan.spent
        = .ok (row, spent) ∧
      chan' = { chan with spent := spent } ∧
      dst' = { dst with data := List.replicate dst.numChannels row } := by
  unfold CopyNextChannelFrame at hc
  split at hc
  · cases hc
  · rename_i row spent hloop
    cases hc
    exact ⟨row, spent, hloop, rfl, rfl⟩

theorem MixAudio_channel_shrink {h : host_t} {st : hrtf_state_t} {chan chan' : hrtf_channel_t}
    {mix mix' : IPLAudioBuffer} (hc : MixAudio.channel h st chan mix = .ok (chan', mix'))
    (hl : chan'.sfx.isSome = true) :
    chan.sfx.isSome = true ∧ chan.entnum = chan'.entnum ∧ chan.entchannel = chan'.entchannel := by
  unfold MixAudio.channel at hc
  split at hc
  · cases hc
    exact ⟨hl, rfl, rfl⟩
  · rename_i k hk
    split at hc
    · cases hc
    split at hc
    · cases hc
    rcases hcopy : CopyNextChannelFrame chan _ (AllocScratchBuffer mix.numChannels mix.numSamples)
      with f | ⟨chan2, subset⟩
    · rw [hcopy] at hc
      cases hc
    · rw [hcopy] at hc
      obtain ⟨row, spent, _, hchan2, _⟩ := CopyNextChannelFrame_ok hcopy
      dsimp only at hc
      split at hc
      · cases hc
        simp [FreeChannel, hrtf_channel_t.zero] at hl
      · cases hc
        subst hchan2
        exact ⟨by simp [hk], rfl, rfl⟩

theorem MixAudio_loop_shrinks {h : host_t} {st : hrtf_state_t} {m m' : List hrtf_channel_t}
    {mix mix' : IPLAudioBuffer} (hl : MixAudio.loop h st m mix = .ok (m', mix')) : Shrinks m m' := by
  induction m generalizing m' mix mix' with
  | nil =>
    unfold MixAudio.loop at hl
    cases hl
    exact shrinks_refl _
  | cons chan rest ih =>
    unfold MixAudio.loop at hl
    split at hl
    · cases hl
    rename_i chan1 mix1 hchan
    split at hl
    · cases hl
    rename_i rest1 mix2 hrest
    cases hl
    intro i ch' h1 h2
    cases i with
    | zero =>
      simp only [List.getElem?_cons_zero, Option.some.injEq] at h1
      subst h1
      exact ⟨chan, by simp, MixAudio_channel_shrink hchan h2⟩
    | succ n =>
      simp only [List.getElem?_cons_succ] at h1 ⊢
      exact ih hrest n ch' h1 h2

theorem MixAudio_shrinks {h : host_t} {s s' : hrtf_state_t} {mix mix' : IPLAudioBuffer}
    (hm : MixAudio h s mix = .ok (s', mix')) : Shrinks s.mixer s'.mixer := by
  unfold MixAudio at hm
  split at hm
  · cases hm
  · rename_i m' mix2 hloop
    cases hm
    exact MixAudio_loop_shrinks hloop

theorem BGM_Update_mixer (h : host_t) (s : hrtf_state_t) : (BGM_Update h s).mixer = s.mixer := by
  unfold BGM_Update
  split
  · rfl
  · split <;> rfl

theorem MixAndSend_shrinks {h : host_t} {s s' : hrtf_state_t} (hm : MixAndSend h s = .ok s') :
    Shrinks s.mixer s'.mixer := by
  unfold MixAndSend at hm
  split at hm
  · cases hm
    exact shrinks_refl _
  · dsimp only at hm
    split at hm
    · cases hm
    rename_i s2 mix2 hmix
    split at hm
    · cases hm
    cases hm
    simp only [BGM_Update_mixer]
    exact MixAudio_shrinks hmix

theorem setAmbientVolumes_shrinks (v : Nat → hrtf_channel_t → ℚ) (is : List Nat)
    (ambients : List (Option Nat)) (m : List hrtf_channel_t) :
    Shrinks m (setAmbientVolumes v is ambients m) := by
  induction is generalizing m with
  | nil => exact shrinks_refl _
  | cons i is ih =>
    unfold setAmbientVolumes
    split
    · exact ih m
    · rename_i k _
      refine shrinks_trans ?_ (ih _)
      split
      · exact shrinks_refl _
      · rename_i chan hchan
        exact shrinks_set_same _ _ chan _ hchan (fun hl => ⟨hl, rfl, rfl⟩)

theorem UpdateAmbients_shrinks (h : host_t) (s : hrtf_state_t) :
    Shrinks s.mixer (UpdateAmbients h s).mixer := by
  unfold UpdateAmbients
  split
  · exact setAmbientVolumes_shrinks _ _ _ _
  · split
    · exact setAmbientVolumes_shrinks _ _ _ _
    · have hu : ∀ leaf, (UpdateUnderwater h s leaf).mixer = s.mixer := by
        intro leaf
        unfold UpdateUnderwater
        dsimp only
        split_ifs <;> rfl
      have ha : ∀ leaf, (UpdateUnderwater h s leaf).ambients = s.ambients := by
        intro leaf
        unfold UpdateUnderwater
        dsimp only
        split_ifs <;> rfl
      dsimp only
      rw [hu, ha]
      exact setAmbientVolumes_shrinks _ _ _ _

theorem HRTF_StopSound_shrinks {s s' : hrtf_state_t} {e c : Int}
    (hs : HRTF_StopSound s e c = .ok s') : Shrinks s.mixer s'.mixer := by
  unfold HRTF_StopSound at hs
  split at hs
  · cases hs
  · cases hs
    refine shrinks_map _ _ ?_
    intro ch hl
    split at hl
    · simp [FreeChannel, hrtf_channel_t.zero] at hl
    · rename_i hn
      rw [if_neg hn]
      exact ⟨hl, rfl, rfl⟩

theorem HRTF_StopAllSounds_shrinks {s s' : hrtf_state_t}
    (hs : HRTF_StopAllSounds s = .ok s') : Shrinks s.mixer s'.mixer := by
  unfold HRTF_StopAllSounds HRTF_ClearBuffer at hs
  split at hs
  · cases hs
  · rename_i hi
    simp only [hi, Bool.false_eq_true, if_false] at hs
    cases hs
    refine shrinks_map _ _ ?_
    intro ch hl
    simp [FreeChannel, hrtf_channel_t.zero] at hl

theorem InitAmbients_loop_pairUnique {h : host_t} {rnd : Nat → Nat} {fx : Nat → effect_alloc_t}
    {is : List Nat} {s s' : hrtf_state_t} (hs : InitAmbients.loop h rnd fx is s = .ok s')
    (hu : PairUnique s.mixer) : PairUnique s'.mixer := by
  induction is generalizing s with
  | nil =>
    unfold InitAmbients.loop at hs
    cases hs
    exact hu
  | cons i is ih =>
    unfold InitAmbients.loop at hs
    split at hs
    · exact ih hs hu
    · split at hs
      · cases hs
      · rename_i s2 chan hstart
        refine ih hs ?_
        show PairUnique s2.mixer
        exact StartSound_pairUnique hstart hu

theorem InitAmbients_pairUnique {h : host_t} {rnd : Nat → Nat} {fx : Nat → effect_alloc_t}
    {s s' : hrtf_state_t} (hs : InitAmbients h s rnd fx = .ok s')
    (hu : PairUnique s.mixer) : PairUnique s'.mixer := by
  unfold InitAmbients at hs
  split at hs
  · cases hs
  rename_i s2 water h1
  dsimp only at hs
  split at hs
  · cases hs
  rename_i s3 sky h2
  split at hs
  · cases hs
  rename_i s4 h3
  refine InitAmbients_loop_pairUnique hs ?_
  refine pairUnique_shrinks ?_ (HRTF_StopSound_shrinks h3)
  have e2 := PrecacheSound_mixer h2
  have e1 := PrecacheSound_mixer h1
  simp only at e2
  show PairUnique s3.mixer
  rw [e2, e1]
  exact hu

theorem step_pairUnique {s s' : hrtf_state_t} (hstep : Step s s') (hu : PairUnique s.mixer) :
    PairUnique s'.mixer := by
  cases hstep with
  | start_sound h _ _ e c sfx o v a fx hs =>
    unfold HRTF_StartSound at hs
    split at hs
    · cases hs
    · rename_i s2 r hst
      cases hs
      exact StartSound_pairUnique hst hu
  | static_sound h _ _ sfx o v a rnd fx hs =>
    unfold HRTF_StaticSound at hs
    split at hs
    · cases hs
    · rename_i s2 r hst
      cases hs
      exact StartSound_pairUnique hst hu
  | local_sound h _ _ name fx hs =>
    unfold HRTF_LocalSound at hs
    split at hs
    · cases hs
    rename_i s2 k hfind
    split at hs
    · cases hs
    rename_i s3 r hst
    split at hs
    · cases hs
    cases hs
    refine StartSound_pairUnique hst ?_
    rw [FindOrAllocateCacheEntry_mixer hfind]
    exact hu
  | init_ambients h _ _ rnd fx hs => exact InitAmbients_pairUnique hs hu
  | stop_sound _ _ e c hs => exact pairUnique_shrinks hu (HRTF_StopSound_shrinks hs)
  | stop_all _ _ hs => exact pairUnique_shrinks hu (HRTF_StopAllSounds_shrinks hs)
  | clear_buffer _ _ hs =>
    unfold HRTF_ClearBuffer at hs
    split at hs
    · cases hs
    · cases hs
      exact hu
  | precache h _ _ name r hs =>
    unfold HRTF_PrecacheSound at hs
    split at hs
    · cases hs
    · rw [PrecacheSound_mixer hs]
      exact hu
  | clear_precache _ _ hs =>
    unfold HRTF_ClearPrecache freeSFXCache at hs
    split at hs
    · cases hs
    · cases hs
      exact hu
  | update h _ _ o f r u hs =>
    unfold HRTF_Update at hs
    split at hs
    · cases hs
    · refine pairUnique_shrinks ?_ (MixAndSend_shrinks hs)
      refine pairUnique_shrinks ?_ (UpdateAmbients_shrinks h _)
      exact hu
  | extra_update h _ _ hs =>
    unfold HRTF_ExtraUpdate at hs
    split at hs
    · cases hs
    · exact pairUnique_shrinks hu (MixAndSend_shrinks hs)
  | device_callback _ _ len stream hs =>
    unfold sdl_audio_callback at hs
    split at hs
    · cases hs
      exact hu
    · split at hs
      · cases hs
      · cases hs
        exact hu

theorem HRTF_Init_pairUnique (v : ℚ) (f : Int) : PairUnique (HRTF_Init v f).mixer := by
  rintro e c i j _ _ ⟨ch, h1, h2, _⟩ _
  simp only [HRTF_Init, List.getElem?_replicate] at h1
  split at h1
  · cases h1
    simp [hrtf_channel_t.zero] at h2
  · cases h1

theorem reachable_pairUnique {s : hrtf_state_t} (hr : Reachable s) : PairUnique s.mixer := by
  induction hr with
  | init v f => exact HRTF_Init_pairUnique v f
  | step s s' _ hstep ih => exact step_pairUnique hstep ih

/-! ## Lemmas: the tick -/

theorem srcOK_sample {src : IPLAudioBuffer} (hsrc : srcOK src = true) {spent : Nat}
    (hlt : spent < src.numSamples) : ∃ x, src.sample? 0 spent = some x := by
  unfold srcOK at hsrc
  unfold IPLAudioBuffer.sample?
  cases hrow : src.data[0]? with
  | none => simp [hrow] at hsrc
  | some row =>
    simp only [hrow, beq_iff_eq] at hsrc
    simp only
    exact ⟨_, List.getElem?_eq_getElem (by omega)⟩

theorem loop_read {src : IPLAudioBuffer} (hsrc : srcOK src = true) {spent : Nat}
    (hlt : spent < src.numSamples) (numChannels : Nat) :
    ∃ x, (if numChannels = 0 then some 0 else src.sample? 0 spent) = some x := by
  split
  · exact ⟨0, rfl⟩
  · exact srcOK_sample hsrc hlt

/-- The cursor of a channel after `n` more samples: it advances by one per sample, and on
reaching the source length `N` it is set to the loop start `L`. -/
theorem CopyNextChannelFrame_loop_looping {src : IPLAudioBuffer} (hsrc : srcOK src = true)
    (C : Nat) (L : Int) (hL0 : 0 ≤ L) (hLN : L < (src.numSamples : Int)) (n spent : Nat)
    (hlt : spent < src.numSamples) :
    ∃ row, CopyNextChannelFrame.loop src C L n spent =
        .ok (row, if spent + n < src.numSamples then spent + n
                  else L.toNat + (spent + n - src.numSamples) % (src.numSamples - L.toNat)) ∧
      row.length = n := by
  have hLt : L.toNat < src.numSamples := by omega
  induction n generalizing spent with
  | zero =>
    refine ⟨[], ?_, rfl⟩
    simp [CopyNextChannelFrame.loop, hlt]
  | succ n ih =>
    obtain ⟨x, hx⟩ := loop_read hsrc hlt C
    unfold CopyNextChannelFrame.loop
    rw [hx]
    simp only
    by_cases hend : spent + 1 ≥ src.numSamples
    · have hN : spent + 1 = src.numSamples := by omega
      rw [if_pos hend, if_neg (by omega)]
      obtain ⟨row, hrow, hlen⟩ := ih L.toNat hLt
      rw [hrow]
      refine ⟨x :: row, ?_, by simp [hlen]⟩
      simp only
      congr 2
      have e1 : spent + (n + 1) - src.numSamples = n := by omega
      rw [if_neg (show ¬ spent + (n + 1) < src.numSamples by omega), e1]
      by_cases hlt2 : L.toNat + n < src.numSamples
      · rw [if_pos hlt2, Nat.mod_eq_of_lt (by omega)]
      · rw [if_neg hlt2]
        have e2 : L.toNat + n - src.numSamples = n - (src.numSamples - L.toNat) := by omega
        rw [e2, ← Nat.mod_eq_sub_mod (by omega)]
    · rw [if_neg hend]
      obtain ⟨row, hrow, hlen⟩ := ih (spent + 1) (by omega)
      rw [hrow]
      refine ⟨x :: row, ?_, by simp [hlen]⟩
      simp only
      congr 2
      have e1 : spent + 1 + n = spent + (n + 1) := by omega
      rw [e1]

theorem CopyNextChannelFrame_loop_nonlooping {src : IPLAudioBuffer} (hsrc : srcOK src = true)
    (C : Nat) (L : Int) (hL : L < 0) (n spent : Nat) (hlt : spent < src.numSamples) :
    ∃ row, CopyNextChannelFrame.loop src C L n spent =
        .ok (row, if spent + n < src.numSamples then spent + n else src.numSamples) ∧
      row.length = n := by
  induction n generalizing spent with
  | zero =>
    refine ⟨[], ?_, rfl⟩
    simp [CopyNextChannelFrame.loop, hlt]
  | succ n ih =>
    obtain ⟨x, hx⟩ := loop_read hsrc hlt C
    unfold CopyNextChannelFrame.loop
    rw [hx]
    simp only
    by_cases hend : spent + 1 ≥ src.numSamples
    · rw [if_pos hend, if_pos hL]
      refine ⟨x :: List.replicate n 0, ?_, by simp⟩
      rw [if_neg (by omega)]
      congr 2
      omega
    · rw [if_neg hend]
      obtain ⟨row, hrow, hlen⟩ := ih (spent + 1) (by omega)
      rw [hrow]
      refine ⟨x :: row, ?_, by simp [hlen]⟩
      simp only
      congr 2
      have e1 : spent + 1 + n = spent + (n + 1) := by omega
      rw [e1]

theorem ShouldSkipProcessingChannel_spent (h : host_t) (st : hrtf_state_t) (chan : hrtf_channel_t)
    (spent : Nat) :
    ShouldSkipProcessingChannel h st { chan with spent := spent } =
      ShouldSkipProcessingChannel h st chan := rfl

theorem channelOK_live {sfxCache : List sfx_t} {chan : hrtf_channel_t} {k : Nat}
    (hok : channelOK sfxCache chan = true) (hk : chan.sfx = some k) :
    ∃ sfx entry, sfxCache[k]? = some sfx ∧ sfx.cache_data = some entry ∧
      srcOK entry.buf = true ∧ chan.spent < entry.buf.numSamples ∧
      chan.loopStartSample < (entry.buf.numSamples : Int) := by
  unfold channelOK at hok
  rw [hk] at hok
  simp only at hok
  cases hsfx : sfxCache[k]? with
  | none => simp [hsfx] at hok
  | some sfx =>
    simp only [hsfx] at hok
    cases hentry : sfx.cache_data with
    | none => simp [hentry] at hok
    | some entry =>
      simp only [hentry, Bool.and_eq_true, decide_eq_true_eq] at hok
      exact ⟨sfx, entry, rfl, hentry, hok.1.1, hok.1.2, hok.2⟩

theorem channelOK_loop {sfxCache : List sfx_t} {chan : hrtf_channel_t} {k : Nat} {sfx : sfx_t}
    {entry : hrtf_sfx_cache_entry_t}
    (hok : channelOK sfxCache chan = true) (hk : chan.sfx = some k)
    (hsfx : sfxCache[k]? = some sfx) (hentry : sfx.cache_data = some entry) (C S : Nat) :
    ∃ row spent, CopyNextChannelFrame.loop entry.buf C chan.loopStartSample S chan.spent
        = .ok (row, spent) ∧ row.length = S := by
  obtain ⟨sfx', entry', h1, h2, hsrc, hlt, hL⟩ := channelOK_live hok hk
  rw [hsfx] at h1
  cases h1
  rw [hentry] at h2
  cases h2
  by_cases hneg : chan.loopStartSample < 0
  · obtain ⟨row, hrow, hlen⟩ :=
      CopyNextChannelFrame_loop_nonlooping hsrc C chan.loopStartSample hneg S chan.spent hlt
    exact ⟨row, _, hrow, hlen⟩
  · obtain ⟨row, hrow, hlen⟩ :=
      CopyNextChannelFrame_loop_looping hsrc C chan.loopStartSample (by omega) hL S chan.spent hlt
    exact ⟨row, _, hrow, hlen⟩

theorem entryOf_eq {sfxCache : List sfx_t} {chan : hrtf_channel_t} {k : Nat} {sfx : sfx_t}
    (hk : chan.sfx = some k) (hsfx : sfxCache[k]? = some sfx) :
    entryOf sfxCache chan = sfx.cache_data := by
  simp [entryOf, hk, hsfx]

theorem entryOf_some {sfxCache : List sfx_t} {chan : hrtf_channel_t}
    {entry : hrtf_sfx_cache_entry_t} (he : entryOf sfxCache chan = some entry) :
    ∃ k sfx, chan.sfx = some k ∧ sfxCache[k]? = some sfx ∧ sfx.cache_data = some entry := by
  unfold entryOf at he
  split at he
  · cases he
  · rename_i k hk
    split at he
    · cases he
    · rename_i sfx hsfx
      exact ⟨k, sfx, hk, hsfx, he⟩

theorem channelOK_tickable {sfxCache : List sfx_t} {chan : hrtf_channel_t}
    (hok : channelOK sfxCache chan = true) (C S : Nat) : Tickable sfxCache C S chan := by
  cases hk : chan.sfx with
  | none => exact Or.inl hk
  | some k =>
    obtain ⟨sfx, entry, hsfx, hentry, _, _, _⟩ := channelOK_live hok hk
    obtain ⟨row, spent, hloop, _⟩ := channelOK_loop hok hk hsfx hentry C S
    exact Or.inr ⟨entry, row, spent, by rw [entryOf_eq hk hsfx, hentry], hloop⟩

theorem MixAudio_channel_free (h : host_t) (st : hrtf_state_t) (chan : hrtf_channel_t)
    (mix : IPLAudioBuffer) (hfree : chan.sfx = none) :
    MixAudio.channel h st chan mix = .ok (chan, mix) := by
  unfold MixAudio.channel
  rw [hfree]

theorem slotAfter_free {sfxCache : List sfx_t} {C S : Nat} {chan : hrtf_channel_t}
    (hfree : chan.sfx = none) : slotAfter sfxCache C S chan = chan := by
  simp [slotAfter, entryOf, hfree]

theorem mixAfter_free (h : host_t) (st : hrtf_state_t) (chan : hrtf_channel_t)
    (mix : IPLAudioBuffer) (hfree : chan.sfx = none) : mixAfter h st chan mix = mix := by
  simp [mixAfter, hfree]

theorem nextCursor_eq {sfxCache : List sfx_t} {C S : Nat} {chan : hrtf_channel_t}
    {entry : hrtf_sfx_cache_entry_t} {row : List ℚ} {spent : Nat}
    (he : entryOf sfxCache chan = some entry)
    (hloop : CopyNextChannelFrame.loop entry.buf C chan.loopStartSample S chan.spent
      = .ok (row, spent)) : nextCursor sfxCache C S chan = spent := by
  simp [nextCursor, he, hloop]

theorem nextFrame_eq {sfxCache : List sfx_t} {C S : Nat} {chan : hrtf_channel_t}
    {entry : hrtf_sfx_cache_entry_t} {row : List ℚ} {spent : Nat}
    (he : entryOf sfxCache chan = some entry)
    (hloop : CopyNextChannelFrame.loop entry.buf C chan.loopStartSample S chan.spent
      = .ok (row, spent)) : nextFrame sfxCache C S chan = row := by
  simp [nextFrame, he, hloop]

theorem slotAfter_eq {sfxCache : List sfx_t} {C S : Nat} {chan : hrtf_channel_t}
    {entry : hrtf_sfx_cache_entry_t} {row : List ℚ} {spent : Nat}
    (he : entryOf sfxCache chan = some entry)
    (hloop : CopyNextChannelFrame.loop entry.buf C chan.loopStartSample S chan.spent
      = .ok (row, spent)) :
    slotAfter sfxCache C S chan =
      if spent ≥ entry.buf.numSamples then hrtf_channel_t.zero else { chan with spent := spent } := by
  simp [slotAfter, he, nextCursor_eq he hloop, FreeChannel]

/-- The tick of a live slot whose next frame can be copied. -/
theorem MixAudio_channel_live (h : host_t) (st : hrtf_state_t) (chan : hrtf_channel_t)
    (mix : IPLAudioBuffer) {entry : hrtf_sfx_cache_entry_t} {row : List ℚ} {spent : Nat}
    (he : entryOf st.sfxCache chan = some entry)
    (hloop : CopyNextChannelFrame.loop entry.buf mix.numChannels chan.loopStartSample
      mix.numSamples chan.spent = .ok (row, spent)) :
    MixAudio.channel h st chan mix =
      .ok (slotAfter st.sfxCache mix.numChannels mix.numSamples chan, mixAfter h st chan mix) := by
  obtain ⟨k, sfx, hk, hsfx, hentry⟩ := entryOf_some he
  rw [slotAfter_eq he hloop]
  unfold mixAfter subsetOf
  rw [nextCursor_eq he hloop, nextFrame_eq he hloop]
  unfold MixAudio.channel
  simp only [hk, hsfx, hentry]
  unfold CopyNextChannelFrame
  simp only [AllocScratchBuffer] at hloop ⊢
  rw [hloop]
  simp only [ShouldSkipProcessingChannel_spent, CleanupNaNs, FreeChannel, reduceCtorEq, if_false]
  split <;> simp only [hk]

theorem MixAudio_channel_tickable (h : host_t) (st : hrtf_state_t) (chan : hrtf_channel_t)
    (mix : IPLAudioBuffer) (ht : Tickable st.sfxCache mix.numChannels mix.numSamples chan) :
    MixAudio.channel h st chan mix =
      .ok (slotAfter st.sfxCache mix.numChannels mix.numSamples chan, mixAfter h st chan mix) := by
  rcases ht with hfree | ⟨entry, row, spent, he, hloop⟩
  · rw [MixAudio_channel_free h st chan mix hfree, slotAfter_free hfree, mixAfter_free h st chan mix hfree]
  · exact MixAudio_channel_live h st chan mix he hloop

theorem mixAfter_shape (h : host_t) (st : hrtf_state_t) (chan : hrtf_channel_t)
    (mix : IPLAudioBuffer) :
    (mixAfter h st chan mix).numChannels = mix.numChannels ∧
    (mixAfter h st chan mix).numSamples = mix.numSamples := by
  unfold mixAfter
  split
  · exact ⟨rfl, rfl⟩
  · split
    · exact ⟨rfl, rfl⟩
    · exact ⟨rfl, rfl⟩

theorem foldl_mixAfter_shape (h : host_t) (st : hrtf_state_t) (m : List hrtf_channel_t)
    (mix : IPLAudioBuffer) :
    (m.foldl (fun acc chan => mixAfter h st chan acc) mix).numChannels = mix.numChannels ∧
    (m.foldl (fun acc chan => mixAfter h st chan acc) mix).numSamples = mix.numSamples := by
  induction m generalizing mix with
  | nil => exact ⟨rfl, rfl⟩
  | cons chan rest ih =>
    simp only [List.foldl_cons]
    obtain ⟨h1, h2⟩ := ih (mixAfter h st chan mix)
    obtain ⟨g1, g2⟩ := mixAfter_shape h st chan mix
    exact ⟨h1.trans g1, h2.trans g2⟩

/-- On a pool whose slots are all tickable, the loop of `MixAudio` returns: every slot
becomes its `slotAfter`, and the mix buffer is folded through `mixAfter`, slot by slot. -/
theorem MixAudio_loop_total (h : host_t) (st : hrtf_state_t) (m : List hrtf_channel_t)
    (mix : IPLAudioBuffer)
    (hok : ∀ chan ∈ m, Tickable st.sfxCache mix.numChannels mix.numSamples chan) :
    MixAudio.loop h st m mix =
      .ok (m.map (slotAfter st.sfxCache mix.numChannels mix.numSamples),
           m.foldl (fun acc chan => mixAfter h st chan acc) mix) := by
  induction m generalizing mix with
  | nil => rfl
  | cons chan rest ih =>
    have hchan := hok chan (List.mem_cons_self _ _)
    obtain ⟨g1, g2⟩ := mixAfter_shape h st chan mix
    have hrest : ∀ c ∈ rest, Tickable st.sfxCache (mixAfter h st chan mix).numChannels
        (mixAfter h st chan mix).numSamples c := by
      intro c hc
      rw [g1, g2]
      exact hok c (List.mem_cons_of_mem _ hc)
    unfold MixAudio.loop
    rw [MixAudio_channel_tickable h st chan mix hchan]
    simp only
    rw [ih (mixAfter h st chan mix) hrest, g1, g2]
    rfl

theorem poolOK_iff (s : hrtf_state_t) :
    poolOK s = true ↔ ∀ chan ∈ s.mixer, channelOK s.sfxCache chan = true := by
  simp [poolOK, List.all_eq_true]

theorem MixAudio_tickable (h : host_t) (s : hrtf_state_t) (mix : IPLAudioBuffer)
    (hok : ∀ chan ∈ s.mixer, Tickable s.sfxCache mix.numChannels mix.numSamples chan) :
    MixAudio h s mix =
      .ok ({ s with mixer := s.mixer.map (slotAfter s.sfxCache mix.numChannels mix.numSamples) },
           s.mixer.foldl (fun acc chan => mixAfter h s chan acc) mix) := by
  unfold MixAudio
  rw [MixAudio_loop_total h s s.mixer mix hok]

theorem MixAudio_total (h : host_t) (s : hrtf_state_t) (mix : IPLAudioBuffer)
    (hok : poolOK s = true) :
    MixAudio h s mix =
      .ok ({ s with mixer := s.mixer.map (slotAfter s.sfxCache mix.numChannels mix.numSamples) },
           s.mixer.foldl (fun acc chan => mixAfter h s chan acc) mix) :=
  MixAudio_tickable h s mix
    (fun chan hc => channelOK_tickable ((poolOK_iff s).1 hok chan hc) _ _)

/-- A slot whose tick returns is tickable. -/
theorem MixAudio_channel_ok_tickable {h : host_t} {st : hrtf_state_t} {chan chan' : hrtf_channel_t}
    {mix mix' : IPLAudioBuffer} (hc : MixAudio.channel h st chan mix = .ok (chan', mix')) :
    Tickable st.sfxCache mix.numChannels mix.numSamples chan := by
  cases hk : chan.sfx with
  | none => exact Or.inl hk
  | some k =>
    unfold MixAudio.channel at hc
    rw [hk] at hc
    simp only at hc
    split at hc
    · cases hc
    rename_i sfx hsfx
    split at hc
    · cases hc
    rename_i entry hentry
    rcases hcopy : CopyNextChannelFrame chan entry.buf
        (AllocScratchBuffer mix.numChannels mix.numSamples) with f | ⟨chan2, subset⟩
    · rw [hcopy] at hc
      cases hc
    · obtain ⟨row, spent, hloop, _, _⟩ := CopyNextChannelFrame_ok hcopy
      exact Or.inr ⟨entry, row, spent, by rw [entryOf_eq hk hsfx, hentry], hloop⟩

/-- When the loop of `MixAudio` returns, every slot it went through is tickable. -/
theorem MixAudio_loop_ok_tickable {h : host_t} {st : hrtf_state_t} {m m' : List hrtf_channel_t}
    {mix mix' : IPLAudioBuffer} (hl : MixAudio.loop h st m mix = .ok (m', mix')) :
    ∀ chan ∈ m, Tickable st.sfxCache mix.numChannels mix.numSamples chan := by
  induction m generalizing m' mix mix' with
  | nil =>
    intro chan hmem
    cases hmem
  | cons c rest ih =>
    unfold MixAudio.loop at hl
    split at hl
    · cases hl
    rename_i c1 mix1 hchan
    split at hl
    · cases hl
    rename_i rest1 mix2 hrest
    have ht := MixAudio_channel_ok_tickable hchan
    have hform := MixAudio_channel_tickable h st c mix ht
    rw [hform] at hchan
    cases hchan
    obtain ⟨g1, g2⟩ := mixAfter_shape h st c mix
    intro chan hmem
    rcases List.mem_cons.1 hmem with h0 | h1
    · rw [h0]
      exact ht
    · have := ih hrest chan h1
      rw [g1, g2] at this
      exact this

/-- When `MixAudio` returns, every slot of the pool was tickable, every slot has become its
`slotAfter`, and the mix buffer has been folded through `mixAfter`, slot by slot. -/
theorem MixAudio_ok {h : host_t} {s s' : hrtf_state_t} {mix mix' : IPLAudioBuffer}
    (hm : MixAudio h s mix = .ok (s', mix')) :
    (∀ chan ∈ s.mixer, Tickable s.sfxCache mix.numChannels mix.numSamples chan) ∧
    s' = { s with mixer := s.mixer.map (slotAfter s.sfxCache mix.numChannels mix.numSamples) } ∧
    mix' = s.mixer.foldl (fun acc chan => mixAfter h s chan acc) mix := by
  have ht : ∀ chan ∈ s.mixer, Tickable s.sfxCache mix.numChannels mix.numSamples chan := by
    unfold MixAudio at hm
    split at hm
    · cases hm
    · rename_i m' mix2 hloop
      exact MixAudio_loop_ok_tickable hloop
  rw [MixAudio_tickable h s mix ht] at hm
  cases hm
  exact ⟨ht, rfl, rfl⟩

/-- The cursor a looping channel has after `n` more samples, when the copy returns. -/
theorem CopyNextChannelFrame_loop_cursor_looping (src : IPLAudioBuffer) (C : Nat) (L : Int)
    (hL0 : 0 ≤ L) (hLN : L < (src.numSamples : Int)) (n spent : Nat) (row : List ℚ) (spent' : Nat)
    (hlt : spent < src.numSamples)
    (hloop : CopyNextChannelFrame.loop src C L n spent = .ok (row, spent')) :
    spent' = if spent + n < src.numSamples then spent + n
             else L.toNat + (spent + n - src.numSamples) % (src.numSamples - L.toNat) := by
  have hLt : L.toNat < src.numSamples := by omega
  induction n generalizing spent row spent' with
  | zero =>
    unfold CopyNextChannelFrame.loop at hloop
    cases hloop
    simp [hlt]
  | succ n ih =>
    unfold CopyNextChannelFrame.loop at hloop
    split at hloop
    · cases hloop
    split at hloop
    · rename_i hend
      rw [if_neg (by omega)] at hloop
      split at hloop
      · cases hloop
      rename_i row1 sp1 hrec
      cases hloop
      have := ih L.toNat row1 spent' hLt hrec
      rw [this]
      have e1 : spent + (n + 1) - src.numSamples = n := by omega
      rw [if_neg (show ¬ spent + (n + 1) < src.numSamples by omega), e1]
      by_cases hlt2 : L.toNat + n < src.numSamples
      · rw [if_pos hlt2, Nat.mod_eq_of_lt (by omega)]
      · rw [if_neg hlt2]
        have e2 : L.toNat + n - src.numSamples = n - (src.numSamples - L.toNat) := by omega
        rw [e2, ← Nat.mod_eq_sub_mod (by omega)]
    · rename_i hend
      split at hloop
      · cases hloop
      rename_i row1 sp1 hrec
      cases hloop
      have := ih (spent + 1) row1 spent' (by omega) hrec
      rw [this]
      have e1 : spent + 1 + n = spent + (n + 1) := by omega
      rw [e1]

/-- The cursor a channel without loop has after `n` more samples, when the copy returns. -/
theorem CopyNextChannelFrame_loop_cursor_nonlooping (src : IPLAudioBuffer) (C : Nat) (L : Int)
    (hL : L < 0) (n spent : Nat) (row : List ℚ) (spent' : Nat) (hlt : spent < src.numSamples)
    (hloop : CopyNextChannelFrame.loop src C L n spent = .ok (row, spent')) :
    spent' = if spent + n < src.numSamples then spent + n else src.numSamples := by
  induction n generalizing spent row spent' with
  | zero =>
    unfold CopyNextChannelFrame.loop at hloop
    cases hloop
    simp [hlt]
  | succ n ih =>
    unfold CopyNextChannelFrame.loop at hloop
    split at hloop
    · cases hloop
    split at hloop
    · rename_i hend
      cases hloop
      rw [if_neg (by omega)]
      omega
    · rename_i hend
      split at hloop
      · cases hloop
      rename_i row1 sp1 hrec
      cases hloop
      have := ih (spent + 1) row1 spent' (by omega) hrec
      rw [this]
      have e1 : spent + 1 + n = spent + (n + 1) := by omega
      rw [e1]

/-- While the cursor stays inside the source, sample `j` of the next frame is sample
`cursor + j` of the source. -/
theorem CopyNextChannelFrame_loop_sample (src : IPLAudioBuffer) (C : Nat) (hC : 0 < C) (L : Int)
    (n spent : Nat) (row : List ℚ) (spent' : Nat)
    (hloop : CopyNextChannelFrame.loop src C L n spent = .ok (row, spent'))
    (j : Nat) (hj : j < n) (hin : spent + j < src.numSamples) :
    row[j]? = src.sample? 0 (spent + j) := by
  induction n generalizing spent row spent' j with
  | zero => omega
  | succ n ih =>
    unfold CopyNextChannelFrame.loop at hloop
    rw [if_neg (by omega)] at hloop
    split at hloop
    · cases hloop
    rename_i x hx
    split at hloop
    · rename_i hend
      have hj0 : j = 0 := by omega
      subst hj0
      split at hloop
      · cases hloop
        simp [hx]
      · split at hloop
        · cases hloop
        · cases hloop
          simp [hx]
    · split at hloop
      · cases hloop
      rename_i row1 sp1 hrec
      cases hloop
      cases j with
      | zero => simp [hx]
      | succ j =>
        simp only [List.getElem?_cons_succ]
        rw [ih (spent + 1) row1 spent' hrec j (by omega) (by omega)]
        congr 1
        omega

/-! ## The claims C1 to C10 -/

theorem demoCached_reachable : Reachable demoCached :=
  Reachable.step demoInit demoCached (Reachable.init _ _)
    (Step.precache demoHost _ _ "weapons/rocket1.wav" (some 0) (by decide!))

/-- C1: for a reachable pool, an entity `e ≥ 0` and a sub-channel `c ≠ 0`, two successful
`StartSound` calls in a row on `(e, c)` return the same slot, and afterwards exactly one
slot of the pool is live with the pair `(e, c)`. -/
theorem start_sound_twice_reuses_slot (h1 h2 : host_t) (s s1 s2 : hrtf_state_t) (e c : Int)
    (sfx1 sfx2 : Nat) (o1 o2 : vec3_t) (v1 a1 v2 a2 : ℚ) (r1 r2 : Bool) (rnd1 rnd2 : Nat)
    (fx1 fx2 : effect_alloc_t) (i1 i2 : Nat)
    (hs : Reachable s) (he : 0 ≤ e) (hc : c ≠ 0)
    (hfirst : StartSound h1 s e c sfx1 o1 v1 a1 r1 rnd1 fx1 = .ok (s1, some i1))
    (hsecond : StartSound h2 s1 e c sfx2 o2 v2 a2 r2 rnd2 fx2 = .ok (s2, some i2)) :
    i1 = i2 ∧ ∃! i, Holds s2.mixer i e c := by
  have hu1 : PairUnique s1.mixer := StartSound_pairUnique hfirst (reachable_pairUnique hs)
  have hu2 : PairUnique s2.mixer := StartSound_pairUnique hsecond hu1
  obtain ⟨j1, c0, c1, hp1, hc0, hm1, hr1⟩ := StartSound_ok hfirst
  obtain ⟨j2, d0, d1, hp2, hd0, hm2, hr2⟩ := StartSound_ok hsecond
  rcases hr1 with ⟨hn, _⟩ | ⟨hj1, hl1, he1, hch1, _, _⟩
  · cases hn
  rcases hr2 with ⟨hn, _⟩ | ⟨hj2, hl2, he2, hch2, _, _⟩
  · cases hn
  cases hj1
  cases hj2
  have hlen1 : i1 < s.mixer.length := by
    by_contra hlt
    rw [List.getElem?_eq_none (by omega)] at hc0
    cases hc0
  have hlen2 : i2 < s1.mixer.length := by
    by_contra hlt
    rw [List.getElem?_eq_none (by omega)] at hd0
    cases hd0
  have hold1 : Holds s1.mixer i1 e c := by
    refine ⟨c1, ?_, hl1, he1, hch1⟩
    rw [hm1, List.getElem?_set]
    simp [hlen1]
  have hold2 : Holds s2.mixer i2 e c := by
    refine ⟨d1, ?_, hl2, he2, hch2⟩
    rw [hm2, List.getElem?_set]
    simp [hlen2]
  constructor
  · rcases PickChannel_reuse he hc hp2 with ⟨hi2, _⟩ | ⟨hno, _⟩
    · exact hu1 e c i1 i2 he hc hold1 hi2
    · exact (hno i1 hold1).elim
  · exact ⟨i2, hold2, fun j hj => hu2 e c j i2 he hc hj hold2⟩

theorem start_sound_twice_reuses_slot_witness :
    (StartSound demoHost demoCached 5 3 0 (0, 0, 0) 1 1 false 0 demoFx = .ok (demoOnce, some 0) ∧
     StartSound demoHost demoOnce 5 3 0 (10, 0, 0) 1 1 false 0 demoFx = .ok (demoTwice, some 0)) ∧
    ((0 : Nat) = 0 ∧ ∃! i, Holds demoTwice.mixer i 5 3) :=
  ⟨⟨by decide!, by decide!⟩,
   start_sound_twice_reuses_slot demoHost demoHost demoCached demoOnce demoTwice 5 3 0 0
     (0, 0, 0) (10, 0, 0) 1 1 1 1 false false 0 0 demoFx demoFx 0 0
     demoCached_reachable (by decide) (by decide) (by decide!) (by decide!)⟩

theorem holds_iff_holdsb (m : List hrtf_channel_t) (i : Nat) (e c : Int) :
    Holds m i e c ↔ holdsb m i e c = true := by
  unfold Holds holdsb
  cases m[i]? with
  | none => simp
  | some ch => simp

/-- C2: a `StartSound` call with sub-channel `0` or a negative entity that returns has picked
the first free slot of the pool, whatever pairs the live channels hold: the slot was free
before the call, it is the slot returned when a channel is returned, and every slot that
was live before the call is unchanged. -/
theorem start_sound_auto_picks_free_slot (h : host_t) (s s1 : hrtf_state_t) (e c : Int)
    (sfx : Nat) (o : vec3_t) (v a : ℚ) (r : Bool) (rnd : Nat) (fx : effect_alloc_t)
    (res : Option Nat) (hec : c = 0 ∨ e < 0)
    (hs : StartSound h s e c sfx o v a r rnd fx = .ok (s1, res)) :
    ∃ i ch, PickChannel s.mixer e c = some i ∧ PickRandomChannel s.mixer = some i ∧
      s.mixer[i]? = some ch ∧ ch.sfx = none ∧ (res = some i ∨ res = none) ∧
      ∀ (j : Nat) (chj : hrtf_channel_t), s.mixer[j]? = some chj → chj.sfx.isSome = true → s1.mixer[j]? = some chj := by
  obtain ⟨i, c0, c1, hp, hc0, hm1, hr⟩ := StartSound_ok hs
  have hfree := PickChannel_free (hec.symm) hp
  obtain ⟨⟨ch, hch, hnone⟩, _⟩ := PickRandomChannel_some hfree
  refine ⟨i, ch, hp, hfree, hch, hnone, ?_, ?_⟩
  · rcases hr with ⟨hn, _⟩ | ⟨hsome, _⟩
    · exact Or.inr hn
    · exact Or.inl hsome
  · intro j chj hj hlive
    rw [hm1, List.getElem?_set]
    split
    · rename_i hij
      subst hij
      rw [hch] at hj
      cases hj
      simp [hnone] at hlive
    · exact hj

theorem start_sound_auto_picks_free_slot_witness :
    ((ENTCHANNEL_AUTO = 0 ∨ (5 : Int) < 0) ∧ Holds demoAuto.mixer 0 5 ENTCHANNEL_AUTO ∧
      StartSound demoHost demoAuto 5 ENTCHANNEL_AUTO 0 (0, 0, 0) 1 1 false 0 demoFx
        = .ok (demoAutoTwice, some 1)) ∧
    ∃ i ch, PickChannel demoAuto.mixer 5 ENTCHANNEL_AUTO = some i ∧
      PickRandomChannel demoAuto.mixer = some i ∧
      demoAuto.mixer[i]? = some ch ∧ ch.sfx = none ∧ (some 1 = some i ∨ some 1 = none) ∧
      ∀ (j : Nat) (chj : hrtf_channel_t), demoAuto.mixer[j]? = some chj → chj.sfx.isSome = true →
        demoAutoTwice.mixer[j]? = some chj :=
  ⟨⟨by decide, (holds_iff_holdsb _ _ _ _).2 (by decide!), by decide!⟩,
   start_sound_auto_picks_free_slot demoHost demoAuto demoAutoTwice 5 ENTCHANNEL_AUTO 0
     (0, 0, 0) 1 1 false 0 demoFx (some 1) (by decide) (by decide!)⟩

/-- C3, as the code has it: in every state reachable from the empty pool, no two live
channels hold the same (entity, sub-channel) pair when the entity is `≥ 0` and the
sub-channel is `≠ 0`. -/
theorem reachable_pool_pairs_unique (s : hrtf_state_t) (hr : Reachable s) : PairUnique s.mixer :=
  reachable_pairUnique hr

theorem demoAmbients_reachable : Reachable demoAmbients :=
  Reachable.step demoInit demoAmbients (Reachable.init _ _)
    (Step.init_ambients demoHost _ _ (fun _ => 0) (fun _ => demoFx) (by decide!))

theorem demoOnce_reachable : Reachable demoOnce :=
  Reachable.step demoCached demoOnce demoCached_reachable
    (Step.start_sound demoHost _ _ 5 3 0 (0, 0, 0) 1 1 demoFx (by decide!))

theorem demoTwice_reachable : Reachable demoTwice :=
  Reachable.step demoOnce demoTwice demoOnce_reachable
    (Step.start_sound demoHost _ _ 5 3 0 (10, 0, 0) 1 1 demoFx (by decide!))

theorem reachable_pool_pairs_unique_witness :
    Reachable demoTwice ∧ Holds demoTwice.mixer 0 5 3 ∧ PairUnique demoTwice.mixer ∧
    ∀ j, Holds demoTwice.mixer j 5 3 → j = 0 :=
  ⟨demoTwice_reachable, (holds_iff_holdsb _ _ _ _).2 (by decide!),
   reachable_pool_pairs_unique demoTwice demoTwice_reachable,
   fun j hj => reachable_pool_pairs_unique demoTwice demoTwice_reachable 5 3 j 0 (by decide)
     (by decide) hj ((holds_iff_holdsb _ _ _ _).2 (by decide!))⟩

/-- C3 fails as stated: after `InitAmbients` on the empty pool, slots `0` and `1` are both
live with the pair `(ENTNUM_STATIC, ENTCHANNEL_PLAY_GLOBALLY)`, whose sub-channel is not `0`. -/
theorem init_ambients_duplicates_pair :
    Reachable demoAmbients ∧ ENTCHANNEL_PLAY_GLOBALLY ≠ 0 ∧ (0 : Nat) ≠ 1 ∧
      Holds demoAmbients.mixer 0 ENTNUM_STATIC ENTCHANNEL_PLAY_GLOBALLY ∧
      Holds demoAmbients.mixer 1 ENTNUM_STATIC ENTCHANNEL_PLAY_GLOBALLY :=
  ⟨demoAmbients_reachable, by decide, by decide,
   (holds_iff_holdsb _ _ _ _).2 (by decide!), (holds_iff_holdsb _ _ _ _).2 (by decide!)⟩

/-- C4: with every slot of the pool live and none holding `(5, 3)`, `StartSound` does not
return: `PickChannel` yields `NULL`, which `memcpy(&oldChan, chan, ..)` reads before the
`chan == NULL` test. -/
theorem start_sound_full_pool_faults :
    demoFull.mixer.length = CHANNELS_MAX ∧
    demoFull.mixer.all (fun ch => ch.sfx.isSome) = true ∧
    PickChannel demoFull.mixer 5 3 = none ∧
    StartSound demoHost demoFull 5 3 0 (0, 0, 0) 1 1 false 0 demoFx = .error .nullDeref := by
  decide!

/-- Whatever the request, `StartSound` never returns when `PickChannel` finds no slot. -/
theorem StartSound_no_slot (h : host_t) (s s1 : hrtf_state_t) (e c : Int)
    (sfx : Nat) (o : vec3_t) (v a : ℚ) (r : Bool) (rnd : Nat) (fx : effect_alloc_t)
    (res : Option Nat) (hp : PickChannel s.mixer e c = none) :
    StartSound h s e c sfx o v a r rnd fx ≠ .ok (s1, res) := by
  intro hs
  obtain ⟨i, _, _, hpick, _⟩ := StartSound_ok hs
  rw [hp] at hpick
  cases hpick

/-- C5, as the code has it: a live channel with loop start `0 ≤ L < N`, playing a loaded
source of `N` samples with its cursor below `N`, is still playing after every tick of
`mix.numSamples` samples that returns, whatever the other channels of the pool are; its
cursor is below `N`, having gone back to `L` each time it reached `N`. The tick returns at
least when every live channel of the pool plays a loaded source with cursor and loop start
inside it. -/
theorem looping_channel_stays_playing (h : host_t) (s : hrtf_state_t) (mix : IPLAudioBuffer)
    (i k : Nat) (chan : hrtf_channel_t) (sfx : sfx_t) (entry : hrtf_sfx_cache_entry_t)
    (hi : s.mixer[i]? = some chan) (hk : chan.sfx = some k)
    (hsfx : s.sfxCache[k]? = some sfx) (hentry : sfx.cache_data = some entry)
    (hL0 : 0 ≤ chan.loopStartSample)
    (hLN : chan.loopStartSample < (entry.buf.numSamples : Int))
    (hcur : chan.spent < entry.buf.numSamples) :
    (∀ s' mix', MixAudio h s mix = .ok (s', mix') →
      ∃ spent', s'.mixer[i]? = some { chan with spent := spent' } ∧
        spent' < entry.buf.numSamples ∧
        spent' =
          if chan.spent + mix.numSamples < entry.buf.numSamples then chan.spent + mix.numSamples
          else chan.loopStartSample.toNat +
            (chan.spent + mix.numSamples - entry.buf.numSamples) %
              (entry.buf.numSamples - chan.loopStartSample.toNat)) ∧
    (poolOK s = true → ∃ s' mix', MixAudio h s mix = .ok (s', mix')) := by
  refine ⟨?_, fun hpool => ⟨_, _, MixAudio_total h s mix hpool⟩⟩
  intro s' mix' hrun
  obtain ⟨ht, hs', _⟩ := MixAudio_ok hrun
  have he : entryOf s.sfxCache chan = some entry := by rw [entryOf_eq hk hsfx, hentry]
  rcases ht chan (List.getElem?_mem hi) with hfree | ⟨entry', row, spent, he', hloop⟩
  · rw [hk] at hfree
    cases hfree
  rw [he] at he'
  cases he'
  have hsp := CopyNextChannelFrame_loop_cursor_looping entry.buf mix.numChannels
    chan.loopStartSample hL0 hLN mix.numSamples chan.spent row spent hcur hloop
  have hbound : spent < entry.buf.numSamples := by
    rw [hsp]
    split
    · assumption
    · have hd : 0 < entry.buf.numSamples - chan.loopStartSample.toNat := by omega
      have := Nat.mod_lt (chan.spent + mix.numSamples - entry.buf.numSamples) hd
      omega
  refine ⟨spent, ?_, hbound, hsp⟩
  rw [hs']
  simp only [List.getElem?_map, hi, Option.map_some']
  rw [slotAfter_eq he hloop, if_neg (by omega)]

/-- C6: after every tick of `FRAME_SIZE` samples that returns, whatever the other channels
of the pool are, a live channel without loop start (`L < 0`, cursor below the source length
`N`) has been released exactly when `cursor + FRAME_SIZE ≥ N`; otherwise it is unchanged but
for its cursor, advanced by `FRAME_SIZE`. Volume, attenuation and position are arbitrary, so
this holds for culled channels as well. The tick returns at least when every live channel of
the pool plays a loaded source with cursor and loop start inside it. -/
theorem nonlooping_channel_released_at_end (h : host_t) (s : hrtf_state_t) (mix : IPLAudioBuffer)
    (i k : Nat) (chan : hrtf_channel_t) (sfx : sfx_t) (entry : hrtf_sfx_cache_entry_t)
    (hframe : mix.numSamples = FRAME_SIZE)
    (hi : s.mixer[i]? = some chan) (hk : chan.sfx = some k)
    (hsfx : s.sfxCache[k]? = some sfx) (hentry : sfx.cache_data = some entry)
    (hL : chan.loopStartSample < 0) (hcur : chan.spent < entry.buf.numSamples) :
    (∀ s' mix', MixAudio h s mix = .ok (s', mix') →
      ∃ chan', s'.mixer[i]? = some chan' ∧
        (chan'.sfx = none ↔ chan.spent + FRAME_SIZE ≥ entry.buf.numSamples) ∧
        (chan.spent + FRAME_SIZE ≥ entry.buf.numSamples → chan' = hrtf_channel_t.zero) ∧
        (chan.spent + FRAME_SIZE < entry.buf.numSamples →
          chan' = { chan with spent := chan.spent + FRAME_SIZE })) ∧
    (poolOK s = true → ∃ s' mix', MixAudio h s mix = .ok (s', mix')) := by
  refine ⟨?_, fun hpool => ⟨_, _, MixAudio_total h s mix hpool⟩⟩
  intro s' mix' hrun
  obtain ⟨ht, hs', _⟩ := MixAudio_ok hrun
  have he : entryOf s.sfxCache chan = some entry := by rw [entryOf_eq hk hsfx, hentry]
  rcases ht chan (List.getElem?_mem hi) with hfree | ⟨entry', row, spent, he', hloop⟩
  · rw [hk] at hfree
    cases hfree
  rw [he] at he'
  cases he'
  have hsp := CopyNextChannelFrame_loop_cursor_nonlooping entry.buf mix.numChannels
    chan.loopStartSample hL mix.numSamples chan.spent row spent hcur hloop
  rw [hframe] at hsp
  refine ⟨(if chan.spent + FRAME_SIZE < entry.buf.numSamples
      then { chan with spent := chan.spent + FRAME_SIZE } else hrtf_channel_t.zero), ?_, ?_, ?_, ?_⟩
  · rw [hs']
    simp only [List.getElem?_map, hi, Option.map_some']
    rw [slotAfter_eq he hloop, hsp]
    by_cases hend : chan.spent + FRAME_SIZE < entry.buf.numSamples
    · rw [if_pos hend, if_pos hend, if_neg (by omega)]
    · rw [if_neg hend, if_neg hend, if_pos (le_refl _)]
  · by_cases hend : chan.spent + FRAME_SIZE < entry.buf.numSamples
    · rw [if_pos hend]
      simp only [hk, reduceCtorEq, false_iff]
      omega
    · rw [if_neg hend]
      simp only [hrtf_channel_t.zero, true_iff]
      omega
  · intro hend
    rw [if_neg (by omega)]
  · intro hend
    rw [if_pos hend]

theorem CopyNextChannelFrame_loop_exact_end {src : IPLAudioBuffer} (hsrc : srcOK src = true)
    (C : Nat) (L : Int) (hL0 : 0 ≤ L) (n spent : Nat) (hn : 0 < n)
    (hend : spent + n = src.numSamples) :
    ∃ row, CopyNextChannelFrame.loop src C L n spent = .ok (row, L.toNat) := by
  induction n generalizing spent with
  | zero => omega
  | succ n ih =>
    obtain ⟨x, hx⟩ := loop_read hsrc (by omega : spent < src.numSamples) C
    unfold CopyNextChannelFrame.loop
    rw [hx]
    simp only
    by_cases hlast : spent + 1 ≥ src.numSamples
    · have hn0 : n = 0 := by omega
      subst hn0
      rw [if_pos hlast, if_neg (by omega)]
      exact ⟨[x], by simp [CopyNextChannelFrame.loop]⟩
    · rw [if_neg hlast]
      obtain ⟨row, hrow⟩ := ih (spent + 1) (by omega) (by omega)
      rw [hrow]
      exact ⟨x :: row, rfl⟩

theorem foldl_mixAfter_skipped (h : host_t) (st : hrtf_state_t) (m : List hrtf_channel_t)
    (mix : IPLAudioBuffer)
    (hskip : ∀ chan ∈ m, chan.sfx = none ∨ ShouldSkipProcessingChannel h st chan = true) :
    m.foldl (fun acc chan => mixAfter h st chan acc) mix = mix := by
  induction m with
  | nil => rfl
  | cons chan rest ih =>
    simp only [List.foldl_cons]
    have h1 : mixAfter h st chan mix = mix := by
      unfold mixAfter
      rcases hskip chan (List.mem_cons_self _ _) with hf | hs
      · rw [if_pos hf]
      · rw [hs]
        simp
    rw [h1]
    exact ih (fun c hc => hskip c (List.mem_cons_of_mem _ hc))

theorem demoInit_reachable : Reachable demoInit := Reachable.init _ _

theorem demoLocal_reachable : Reachable demoLocal :=
  Reachable.step demoInit demoLocal demoInit_reachable
    (Step.local_sound demoHost _ _ "misc/menu1.wav" demoFx (by decide!))

theorem demoAtt0_reachable : Reachable demoAtt0 :=
  Reachable.step demoCached demoAtt0 demoCached_reachable
    (Step.start_sound demoHost _ _ 2 1 0 (100, 0, 0) 1 0 demoFx (by decide!))

theorem demoLoop_reachable : Reachable demoLoop :=
  Reachable.step demoLoopInit demoLoop (Reachable.init _ _)
    (Step.local_sound demoLoopHost _ _ "ambience/hum1.wav" demoFx (by decide!))

theorem demoLoop_mixer :
    demoLoop.mixer = demoLoopChan :: List.replicate 1023 hrtf_channel_t.zero := by decide!

theorem demoLoop_tickable :
    ∀ chan ∈ demoLoop.mixer, Tickable demoLoop.sfxCache demoMix.numChannels demoMix.numSamples chan := by
  intro chan hmem
  rw [demoLoop_mixer] at hmem
  rcases List.mem_cons.1 hmem with h0 | hrest
  · subst h0
    have hsrc : srcOK demoLoopEntry.buf = true := by decide!
    obtain ⟨row, hrow⟩ := CopyNextChannelFrame_loop_exact_end hsrc demoMix.numChannels
      demoLoopChan.loopStartSample (by decide) demoMix.numSamples demoLoopChan.spent
      (by decide) (by decide)
    exact Or.inr ⟨demoLoopEntry, row, _, by decide!, hrow⟩
  · rw [List.eq_of_mem_replicate hrest]
    exact Or.inl rfl

/-- C5 fails as stated: `demoLoop` is reachable, its slot `0` is live with loop start
`4096 ≥ 0` on a source of `FRAME_SIZE = 2048` samples, and after one tick of `FRAME_SIZE`
samples the slot is free: the cursor reached the source length on the last sample, was set
to the loop start, and `MixAudio` released the channel for `spent >= numSamples`. -/
theorem looping_channel_released_when_loop_start_past_end :
    Reachable demoLoop ∧ demoLoop.mixer[0]? = some demoLoopChan ∧
    demoLoopChan.sfx = some 0 ∧ 0 ≤ demoLoopChan.loopStartSample ∧
    entryOf demoLoop.sfxCache demoLoopChan = some demoLoopEntry ∧
    ∃ s' mix', MixAudio demoLoopHost demoLoop demoMix = .ok (s', mix') ∧
      s'.mixer[0]? = some hrtf_channel_t.zero := by
  refine ⟨demoLoop_reachable, by decide!, rfl, by decide, by decide!, _, _,
    MixAudio_tickable demoLoopHost demoLoop demoMix demoLoop_tickable, ?_⟩
  have hsrc : srcOK demoLoopEntry.buf = true := by decide!
  obtain ⟨row, hrow⟩ := CopyNextChannelFrame_loop_exact_end hsrc demoMix.numChannels
    demoLoopChan.loopStartSample (by decide) demoMix.numSamples demoLoopChan.spent
    (by decide) (by decide)
  have he : entryOf demoLoop.sfxCache demoLoopChan = some demoLoopEntry := by decide!
  simp only [demoLoop_mixer, List.map_cons, List.getElem?_cons_zero]
  rw [slotAfter_eq he hrow, if_pos (by decide)]

theorem demoMixed_reachable : Reachable demoMixed :=
  Reachable.step demoMixedTwo demoMixed
    (Reachable.step demoMixedOne demoMixedTwo
      (Reachable.step demoLoopInit demoMixedOne (Reachable.init _ _)
        (Step.local_sound demoMixedHost _ _ "ambience/drone1.wav" demoFx (by decide!)))
      (Step.local_sound demoMixedHost _ _ "ambience/hum1.wav" demoFx (by decide!)))
    (Step.local_sound demoMixedHost _ _ "misc/menu1.wav" demoFx (by decide!))

theorem demoMixed_mixer :
    demoMixed.mixer =
      demoLoopChan :: demoMixedHum :: demoMixedMenu :: List.replicate 1021 hrtf_channel_t.zero := by
  decide!

theorem demoMixed_tickable :
    ∀ chan ∈ demoMixed.mixer,
      Tickable demoMixed.sfxCache demoMix.numChannels demoMix.numSamples chan := by
  intro chan hmem
  rw [demoMixed_mixer] at hmem
  rcases List.mem_cons.1 hmem with h0 | hrest
  · subst h0
    have hsrc : srcOK demoLoopEntry.buf = true := by decide!
    obtain ⟨row, hrow⟩ := CopyNextChannelFrame_loop_exact_end hsrc demoMix.numChannels
      demoLoopChan.loopStartSample (by decide) demoMix.numSamples demoLoopChan.spent
      (by decide) (by decide)
    exact Or.inr ⟨demoLoopEntry, row, _, by decide!, hrow⟩
  · rcases List.mem_cons.1 hrest with h1 | hrest
    · subst h1
      exact channelOK_tickable (by decide!) _ _
    · rcases List.mem_cons.1 hrest with h2 | hrest
      · subst h2
        exact channelOK_tickable (by decide!) _ _
      · rw [List.eq_of_mem_replicate hrest]
        exact Or.inl rfl

theorem looping_channel_stays_playing_witness :
    ((demoHum.mixer[0]? = some demoHumChan ∧ demoHumChan.sfx = some 0 ∧
      demoHum.sfxCache[0]? = some ⟨"ambience/hum1.wav", some demoHumEntry⟩ ∧
      (0 : Int) ≤ demoHumChan.loopStartSample ∧
      demoHumChan.loopStartSample < (demoHumEntry.buf.numSamples : Int) ∧
      demoHumChan.spent < demoHumEntry.buf.numSamples ∧ poolOK demoHum = true) ∧
    ∃ s' mix' spent', MixAudio demoHumHost demoHum demoMix = .ok (s', mix') ∧
      s'.mixer[0]? = some { demoHumChan with spent := spent' } ∧
      spent' < demoHumEntry.buf.numSamples ∧
      spent' =
        if demoHumChan.spent + demoMix.numSamples < demoHumEntry.buf.numSamples
        then demoHumChan.spent + demoMix.numSamples
        else demoHumChan.loopStartSample.toNat +
          (demoHumChan.spent + demoMix.numSamples - demoHumEntry.buf.numSamples) %
            (demoHumEntry.buf.numSamples - demoHumChan.loopStartSample.toNat)) ∧
    ((Reachable demoMixed ∧ poolOK demoMixed = false ∧
      demoMixed.mixer[1]? = some demoMixedHum ∧ demoMixedHum.sfx = some 1 ∧
      demoMixed.sfxCache[1]? = some ⟨"ambience/hum1.wav", some demoHumEntry⟩ ∧
      (0 : Int) ≤ demoMixedHum.loopStartSample ∧
      demoMixedHum.loopStartSample < (demoHumEntry.buf.numSamples : Int) ∧
      demoMixedHum.spent < demoHumEntry.buf.numSamples) ∧
    ∃ s' mix', MixAudio demoMixedHost demoMixed demoMix = .ok (s', mix') ∧
      s'.mixer[1]? = some { demoMixedHum with spent := 4 }) :=
  ⟨⟨⟨by decide!, rfl, by decide!, by decide, by decide, by decide, by decide!⟩, by
    have key := looping_channel_stays_playing demoHumHost demoHum demoMix 0 0 demoHumChan
      ⟨"ambience/hum1.wav", some demoHumEntry⟩ demoHumEntry
      (by decide!) rfl (by decide!) rfl (by decide) (by decide) (by decide)
    obtain ⟨s', mix', hrun⟩ := key.2 (by decide!)
    obtain ⟨spent', h1, h2, h3⟩ := key.1 s' mix' hrun
    exact ⟨s', mix', spent', hrun, h1, h2, h3⟩⟩,
   ⟨⟨demoMixed_reachable, by decide!, by decide!, rfl, by decide!, by decide, by decide, by decide⟩, by
    have key := looping_channel_stays_playing demoMixedHost demoMixed demoMix 1 1 demoMixedHum
      ⟨"ambience/hum1.wav", some demoHumEntry⟩ demoHumEntry
      (by decide!) rfl (by decide!) rfl (by decide) (by decide) (by decide)
    have hrun := MixAudio_tickable demoMixedHost demoMixed demoMix demoMixed_tickable
    obtain ⟨spent', h1, _, h3⟩ := key.1 _ _ hrun
    have h4 : spent' = 4 := by rw [h3]; decide
    rw [h4] at h1
    exact ⟨_, _, hrun, h1⟩⟩⟩

theorem demoLongAmbients_reachable : Reachable demoLongAmbients :=
  Reachable.step demoInit demoLongAmbients (Reachable.init _ _)
    (Step.init_ambients demoLongHost _ _ (fun _ => 0) (fun _ => demoFx) (by decide!))

theorem nonlooping_channel_released_at_end_witness :
    (((Reachable demoLocal ∧ demoMix.numSamples = FRAME_SIZE ∧
      demoLocal.mixer[0]? = some demoLocalChan ∧ demoLocalChan.sfx = some 0 ∧
      demoLocal.sfxCache[0]? = some ⟨"misc/menu1.wav", some demoEntry⟩ ∧
      demoLocalChan.loopStartSample < 0 ∧ demoLocalChan.spent < demoEntry.buf.numSamples ∧
      demoLocalChan.spent + FRAME_SIZE ≥ demoEntry.buf.numSamples ∧
      ShouldSkipProcessingChannel demoHost demoLocal demoLocalChan = false ∧
      poolOK demoLocal = true) ∧
     ∃ s' mix', MixAudio demoHost demoLocal demoMix = .ok (s', mix') ∧
       s'.mixer[0]? = some hrtf_channel_t.zero) ∧
    ((Reachable demoLongAmbients ∧ demoLongAmbients.mixer[0]? = some demoLongChan ∧
      demoLongChan.sfx = some 0 ∧
      demoLongAmbients.sfxCache[0]? = some ⟨"ambience/water1.wav", some demoLongEntry⟩ ∧
      demoLongChan.loopStartSample < 0 ∧ demoLongChan.spent < demoLongEntry.buf.numSamples ∧
      demoLongChan.spent + FRAME_SIZE < demoLongEntry.buf.numSamples ∧
      ShouldSkipProcessingChannel demoLongHost demoLongAmbients demoLongChan = true ∧
      poolOK demoLongAmbients = true) ∧
     ∃ s' mix', MixAudio demoLongHost demoLongAmbients demoMix = .ok (s', mix') ∧
       s'.mixer[0]? = some { demoLongChan with spent := FRAME_SIZE })) ∧
    ((Reachable demoMixed ∧ poolOK demoMixed = false ∧
      demoMixed.mixer[2]? = some demoMixedMenu ∧ demoMixedMenu.sfx = some 2 ∧
      demoMixed.sfxCache[2]? = some ⟨"misc/menu1.wav", some demoEntry⟩ ∧
      demoMixedMenu.loopStartSample < 0 ∧ demoMixedMenu.spent < demoEntry.buf.numSamples ∧
      demoMixedMenu.spent + FRAME_SIZE ≥ demoEntry.buf.numSamples) ∧
    ∃ s' mix', MixAudio demoMixedHost demoMixed demoMix = .ok (s', mix') ∧
      s'.mixer[2]? = some hrtf_channel_t.zero) :=
  ⟨⟨⟨⟨demoLocal_reachable, rfl, by decide!, rfl, by decide!, by decide, by decide, by decide,
      by decide!, by decide!⟩, by
      have key := nonlooping_channel_released_at_end demoHost demoLocal demoMix 0 0 demoLocalChan
        ⟨"misc/menu1.wav", some demoEntry⟩ demoEntry
        rfl (by decide!) rfl (by decide!) rfl (by decide) (by decide)
      obtain ⟨s', mix', hrun⟩ := key.2 (by decide!)
      obtain ⟨chan', h1, _, h3, _⟩ := key.1 s' mix' hrun
      rw [h3 (by decide)] at h1
      exact ⟨s', mix', hrun, h1⟩⟩,
   ⟨⟨demoLongAmbients_reachable, by decide!, rfl, by decide!, by decide, by decide, by decide,
      by decide!, by decide!⟩, by
      have key := nonlooping_channel_released_at_end demoLongHost demoLongAmbients demoMix 0 0
        demoLongChan ⟨"ambience/water1.wav", some demoLongEntry⟩ demoLongEntry
        rfl (by decide!) rfl (by decide!) rfl (by decide) (by decide)
      obtain ⟨s', mix', hrun⟩ := key.2 (by decide!)
      obtain ⟨chan', h1, _, _, h4⟩ := key.1 s' mix' hrun
      rw [h4 (by decide)] at h1
      exact ⟨s', mix', hrun, h1⟩⟩⟩,
   ⟨⟨demoMixed_reachable, by decide!, by decide!, rfl, by decide!, by decide, by decide, by decide⟩, by
    have key := nonlooping_channel_released_at_end demoMixedHost demoMixed demoMix 2 2
      demoMixedMenu ⟨"misc/menu1.wav", some demoEntry⟩ demoEntry
      rfl (by decide!) rfl (by decide!) rfl (by decide) (by decide)
    have hrun := MixAudio_tickable demoMixedHost demoMixed demoMix demoMixed_tickable
    obtain ⟨chan', h1, _, h3, _⟩ := key.1 _ _ hrun
    rw [h3 (by decide)] at h1
    exact ⟨_, _, hrun, h1⟩⟩⟩

/-- C8: `demoAtt0` is reachable; its slot `0` plays a sound with attenuation `0` and volume
`1`, whose next frame starts with the sample `1/2`; yet the tick leaves the zeroed mix buffer
as it was, because `ShouldSkipProcessingChannel` returns true for `attenuation <= 0`. -/
theorem attenuation_zero_channel_is_muted :
    Reachable demoAtt0 ∧ demoAtt0.mixer[0]? = some demoAtt0Chan ∧
    demoAtt0Chan.attenuation = 0 ∧ 0 < demoAtt0Chan.volume ∧
    (nextFrame demoAtt0.sfxCache demoMix.numChannels demoMix.numSamples demoAtt0Chan)[0]? = some (1 / 2) ∧
    ShouldSkipProcessingChannel demoHost demoAtt0 demoAtt0Chan = true ∧
    ∃ s', MixAudio demoHost demoAtt0 demoMix = .ok (s', demoMix) := by
  have hall : demoAtt0.mixer.all
      (fun chan => chan.sfx.isNone || ShouldSkipProcessingChannel demoHost demoAtt0 chan) = true := by
    decide!
  have hskip : ∀ chan ∈ demoAtt0.mixer,
      chan.sfx = none ∨ ShouldSkipProcessingChannel demoHost demoAtt0 chan = true := by
    intro chan hmem
    have := List.all_eq_true.1 hall chan hmem
    simp only [Bool.or_eq_true, Option.isNone_iff_eq_none] at this
    exact this
  refine ⟨demoAtt0_reachable, by decide!, rfl, by decide!, by decide!, by decide!,
    { demoAtt0 with
      mixer := demoAtt0.mixer.map
        (slotAfter demoAtt0.sfxCache demoMix.numChannels demoMix.numSamples) }, ?_⟩
  rw [MixAudio_total demoHost demoAtt0 demoMix (by decide!),
    foldl_mixAfter_skipped demoHost demoAtt0 demoAtt0.mixer demoMix hskip]

/-- C9: for a live channel with attenuation `> 0` and volume `> 0`: when it belongs to the
listener's own entity or its sub-channel is `ENTCHANNEL_PLAY_GLOBALLY`,
`ShouldSkipProcessingChannel` never culls it, wherever it is; otherwise it is culled exactly
when `ComputeDistanceAttenuation` is `≤ 0.01`. In the tick of its slot a culled channel
leaves the mix buffer as it was, and a channel that is not culled is mixed in: its next
frame, spatialized unless the channel is the listener's own or plays globally, is scaled by
the volume and added to the mix buffer. The tick of the slot returns when the channel plays
a loaded source with cursor and loop start inside it. The code compares with `0.01f`, which
decides the same as `1/100` on a binary32 value. -/
theorem cull_rule (h : host_t) (s : hrtf_state_t) (chan : hrtf_channel_t)
    (hlive : chan.sfx.isSome = true) (ha : 0 < chan.attenuation) (hv : 0 < chan.volume) :
    ((chan.entnum = h.viewentity ∨ chan.entchannel = ENTCHANNEL_PLAY_GLOBALLY) →
      ShouldSkipProcessingChannel h s chan = false) ∧
    (¬ (chan.entnum = h.viewentity ∨ chan.entchannel = ENTCHANNEL_PLAY_GLOBALLY) →
      (ShouldSkipProcessingChannel h s chan = true ↔
        ComputeDistanceAttenuation h s.listenerOrigin chan.origin chan.attenuation ≤ 1 / 100)) ∧
    (∀ (mix mix' : IPLAudioBuffer) (chan' : hrtf_channel_t),
      MixAudio.channel h s chan mix = .ok (chan', mix') →
      (ShouldSkipProcessingChannel h s chan = true → mix' = mix) ∧
      (ShouldSkipProcessingChannel h s chan = false →
        mix' =
          iplAudioBufferMix
            (ApplyGain
              (if chan.entnum ≠ h.viewentity ∧ chan.entchannel ≠ ENTCHANNEL_PLAY_GLOBALLY then
                 ApplyEffects h
                   (s.listenerOrigin, s.listenerForward, s.listenerRight, s.listenerUp)
                   (subsetOf s.sfxCache mix.numChannels mix.numSamples chan)
                   { chan with spent := nextCursor s.sfxCache mix.numChannels mix.numSamples chan }
               else subsetOf s.sfxCache mix.numChannels mix.numSamples chan)
              chan.volume)
            mix)) ∧
    (∀ mix : IPLAudioBuffer, channelOK s.sfxCache chan = true →
      ∃ r, MixAudio.channel h s chan mix = .ok r) := by
  have hnot : ¬ (chan.attenuation ≤ 0 ∨ chan.volume ≤ 0) := by
    rintro (h1 | h1)
    · exact absurd ha (not_lt.mpr h1)
    · exact absurd hv (not_lt.mpr h1)
  have hne : chan.sfx ≠ none := by
    intro hn
    simp [hn] at hlive
  refine ⟨?_, ?_, ?_, ?_⟩
  · intro hown
    unfold ShouldSkipProcessingChannel
    rw [if_neg hnot, if_pos hown]
  · intro hother
    unfold ShouldSkipProcessingChannel
    rw [if_neg hnot, if_neg hother]
    exact decide_eq_true_iff.trans (ComputeDistanceAttenuation_le_threshold _ _ _ _)
  · intro mix mix' chan' hrun
    have ht := MixAudio_channel_ok_tickable hrun
    rw [MixAudio_channel_tickable h s chan mix ht] at hrun
    cases hrun
    constructor
    · intro hskip
      unfold mixAfter
      rw [if_neg hne, if_pos hskip]
    · intro hskip
      unfold mixAfter
      rw [if_neg hne, hskip]
      simp only [Bool.false_eq_true, if_false]
  · intro mix hok
    exact ⟨_, MixAudio_channel_tickable h s chan mix (channelOK_tickable hok _ _)⟩

theorem cull_rule_witness :
    ((demoOwnFar.sfx.isSome = true ∧ (0 : ℚ) < demoOwnFar.attenuation ∧ (0 : ℚ) < demoOwnFar.volume ∧
      demoOwnFar.entnum = demoHost.viewentity ∧ demoOwnFar.origin = (2000, 0, 0)) ∧
     ShouldSkipProcessingChannel demoHost demoCached demoOwnFar = false) ∧
    ((demoGlobalFar.sfx.isSome = true ∧ (0 : ℚ) < demoGlobalFar.attenuation ∧
      (0 : ℚ) < demoGlobalFar.volume ∧ demoGlobalFar.entchannel = ENTCHANNEL_PLAY_GLOBALLY ∧
      demoGlobalFar.origin = (2000, 0, 0) ∧ channelOK demoCached.sfxCache demoGlobalFar = true) ∧
     ShouldSkipProcessingChannel demoHost demoCached demoGlobalFar = false ∧
     ∃ chan' mix', MixAudio.channel demoHost demoCached demoGlobalFar demoMix = .ok (chan', mix') ∧
       mix' = iplAudioBufferMix
         (ApplyGain (subsetOf demoCached.sfxCache demoMix.numChannels demoMix.numSamples demoGlobalFar)
           demoGlobalFar.volume) demoMix ∧
       mix'.sample? 0 0 = some (1 / 2) ∧ mix'.sample? 1 0 = some (1 / 2)) ∧
    ((demoFar.sfx.isSome = true ∧ (0 : ℚ) < demoFar.attenuation ∧ (0 : ℚ) < demoFar.volume ∧
      ¬ (demoFar.entnum = demoHost.viewentity ∨ demoFar.entchannel = ENTCHANNEL_PLAY_GLOBALLY) ∧
      ComputeDistanceAttenuation demoHost demoCached.listenerOrigin demoFar.origin
        demoFar.attenuation ≤ 1 / 100 ∧ channelOK demoCached.sfxCache demoFar = true) ∧
     ShouldSkipProcessingChannel demoHost demoCached demoFar = true ∧
     ∃ chan', MixAudio.channel demoHost demoCached demoFar demoMix = .ok (chan', demoMix)) ∧
    ((demoNear.sfx.isSome = true ∧ (0 : ℚ) < demoNear.attenuation ∧ (0 : ℚ) < demoNear.volume ∧
      ¬ (demoNear.entnum = demoHost.viewentity ∨ demoNear.entchannel = ENTCHANNEL_PLAY_GLOBALLY) ∧
      ¬ (ComputeDistanceAttenuation demoHost demoCached.listenerOrigin demoNear.origin
        demoNear.attenuation ≤ 1 / 100)) ∧
     ShouldSkipProcessingChannel demoHost demoCached demoNear = false) := by
  refine ⟨⟨⟨rfl, by decide!, by decide!, rfl, rfl⟩, ?_⟩,
    ⟨⟨rfl, by decide!, by decide!, rfl, rfl, by decide!⟩, ?_⟩,
    ⟨⟨rfl, by decide!, by decide!, by decide, by decide!, by decide!⟩, ?_⟩,
    ⟨⟨rfl, by decide!, by decide!, by decide, by decide!⟩, ?_⟩⟩
  · exact (cull_rule demoHost demoCached demoOwnFar rfl (by decide!) (by decide!)).1 (Or.inl rfl)
  · have key := cull_rule demoHost demoCached demoGlobalFar rfl (by decide!) (by decide!)
    have hskip := key.1 (Or.inr rfl)
    obtain ⟨⟨chan', mix'⟩, hrun⟩ := key.2.2.2 demoMix (by decide!)
    have hmix := (key.2.2.1 demoMix mix' chan' hrun).2 hskip
    rw [if_neg (by decide)] at hmix
    refine ⟨hskip, chan', mix', hrun, hmix, ?_, ?_⟩
    · rw [hmix]
      decide!
    · rw [hmix]
      decide!
  · have key := cull_rule demoHost demoCached demoFar rfl (by decide!) (by decide!)
    have hskip := (key.2.1 (by decide)).2 (by decide!)
    obtain ⟨⟨chan', mix'⟩, hrun⟩ := key.2.2.2 demoMix (by decide!)
    have hmix := (key.2.2.1 demoMix mix' chan' hrun).1 hskip
    rw [hmix] at hrun
    exact ⟨hskip, chan', hrun⟩
  · have key := cull_rule demoHost demoCached demoNear rfl (by decide!) (by decide!)
    have hiff := key.2.1 (by decide)
    have hn : ¬ (ComputeDistanceAttenuation demoHost demoCached.listenerOrigin demoNear.origin
        demoNear.attenuation ≤ 1 / 100) := by decide!
    cases hs : ShouldSkipProcessingChannel demoHost demoCached demoNear with
    | false => rfl
    | true => exact absurd (hiff.1 hs) hn

theorem CopyNextChannelFrame_loop_length (src : IPLAudioBuffer) (C : Nat) (L : Int) (n spent : Nat)
    (row : List ℚ) (spent' : Nat)
    (hloop : CopyNextChannelFrame.loop src C L n spent = .ok (row, spent')) : row.length = n := by
  induction n generalizing spent row spent' with
  | zero =>
    unfold CopyNextChannelFrame.loop at hloop
    cases hloop
    rfl
  | succ n ih =>
    unfold CopyNextChannelFrame.loop at hloop
    split at hloop
    · cases hloop
    · split at hloop
      · split at hloop
        · cases hloop
          simp
        · split at hloop
          · cases hloop
          · rename_i row1 sp1 hrec
            cases hloop
            simp [ih _ _ _ hrec]
      · split at hloop
        · cases hloop
        · rename_i row1 sp1 hrec
          cases hloop
          simp [ih _ _ _ hrec]

theorem nextFrame_length {sfxCache : List sfx_t} {C S : Nat} {chan : hrtf_channel_t}
    (ht : Tickable sfxCache C S chan) (hlive : chan.sfx.isSome = true) :
    (nextFrame sfxCache C S chan).length = S := by
  rcases ht with hfree | ⟨entry, row, spent, he, hloop⟩
  · simp [hfree] at hlive
  · rw [nextFrame_eq he hloop]
    exact CopyNextChannelFrame_loop_length _ _ _ _ _ _ _ hloop

theorem zipWith_replicate_rows {α : Type} (f : α → α → α) (n : Nat) (a b : α) :
    List.zipWith f (List.replicate n a) (List.replicate n b) = List.replicate n (f a b) := by
  induction n with
  | zero => rfl
  | succ n ih => simp [List.replicate_succ, ih]

/-- The tick of an unspatialized, audible live channel adds `volume` times its next frame to
every row of a mix buffer whose rows are all alike. -/
theorem mixAfter_unspatialized (h : host_t) (st : hrtf_state_t) (chan : hrtf_channel_t)
    (C S : Nat) (acc : List ℚ) (hlive : chan.sfx.isSome = true)
    (hown : chan.entnum = h.viewentity ∨ chan.entchannel = ENTCHANNEL_PLAY_GLOBALLY)
    (ha : 0 < chan.attenuation) (hv : 0 < chan.volume) :
    mixAfter h st chan ⟨C, S, List.replicate C acc⟩ =
      ⟨C, S, List.replicate C
        (List.zipWith (fun x y => x + y) acc
          ((nextFrame st.sfxCache C S chan).map (fun x => x * chan.volume)))⟩ := by
  have hne : chan.sfx ≠ none := by
    intro hn
    simp [hn] at hlive
  have hnot : ¬ (chan.attenuation ≤ 0 ∨ chan.volume ≤ 0) := by
    rintro (h1 | h1)
    · exact absurd ha (not_lt.mpr h1)
    · exact absurd hv (not_lt.mpr h1)
  have hskip : ShouldSkipProcessingChannel h st chan = false := by
    unfold ShouldSkipProcessingChannel
    rw [if_neg hnot, if_pos hown]
  have hsp : ¬ (chan.entnum ≠ h.viewentity ∧ chan.entchannel ≠ ENTCHANNEL_PLAY_GLOBALLY) := by
    rintro ⟨h1, h2⟩
    rcases hown with h3 | h3
    · exact h1 h3
    · exact h2 h3
  unfold mixAfter
  rw [if_neg hne, hskip]
  simp only [Bool.false_eq_true, if_false, if_neg hsp]
  simp only [iplAudioBufferMix, ApplyGain, subsetOf, List.map_replicate, zipWith_replicate_rows]

theorem foldl_mixAfter_unspatialized (h : host_t) (st : hrtf_state_t) (C S : Nat)
    (m : List hrtf_channel_t) (acc : List ℚ)
    (hun : ∀ chan ∈ m, chan.sfx.isSome = true →
      (chan.entnum = h.viewentity ∨ chan.entchannel = ENTCHANNEL_PLAY_GLOBALLY) ∧
        0 < chan.attenuation ∧ 0 < chan.volume) :
    m.foldl (fun mix chan => mixAfter h st chan mix) ⟨C, S, List.replicate C acc⟩ =
      ⟨C, S, List.replicate C (mixedRow st.sfxCache C S m acc)⟩ := by
  induction m generalizing acc with
  | nil => rfl
  | cons chan rest ih =>
    have hrest : ∀ c ∈ rest, c.sfx.isSome = true →
        (c.entnum = h.viewentity ∨ c.entchannel = ENTCHANNEL_PLAY_GLOBALLY) ∧
          0 < c.attenuation ∧ 0 < c.volume :=
      fun c hc => hun c (List.mem_cons_of_mem _ hc)
    simp only [List.foldl_cons, mixedRow]
    by_cases hlive : chan.sfx.isSome = true
    · obtain ⟨hown, ha, hv⟩ := hun chan (List.mem_cons_self _ _) hlive
      rw [mixAfter_unspatialized h st chan C S acc hlive hown ha hv, if_pos hlive]
      exact ih _ hrest
    · have hfree : chan.sfx = none := by
        cases hs : chan.sfx with
        | none => rfl
        | some k => simp [hs] at hlive
      rw [mixAfter_free h st chan _ hfree, if_neg hlive]
      exact ih _ hrest

theorem mixedRow_getElem? (sfxCache : List sfx_t) (C S : Nat) (m : List hrtf_channel_t)
    (acc : List ℚ) (hacc : acc.length = S)
    (hlen : ∀ chan ∈ m, chan.sfx.isSome = true → (nextFrame sfxCache C S chan).length = S)
    (j : Nat) (hj : j < S) :
    (mixedRow sfxCache C S m acc)[j]? =
      some (acc.getD j 0 +
        ((m.filter (fun chan => chan.sfx.isSome)).map
          (fun chan => chan.volume * (nextFrame sfxCache C S chan).getD j 0)).sum) := by
  induction m generalizing acc with
  | nil =>
    simp only [mixedRow, List.filter_nil, List.map_nil, List.sum_nil, add_zero]
    rw [List.getD_eq_getElem?_getD, List.getElem?_eq_getElem (by omega)]
    rfl
  | cons chan rest ih =>
    have hrest : ∀ c ∈ rest, c.sfx.isSome = true → (nextFrame sfxCache C S c).length = S :=
      fun c hc => hlen c (List.mem_cons_of_mem _ hc)
    unfold mixedRow
    by_cases hlive : chan.sfx.isSome = true
    · have hrow := hlen chan (List.mem_cons_self _ _) hlive
      rw [if_pos hlive, ih _ (by simp [hacc, hrow]) hrest]
      simp only [List.filter_cons, hlive, if_true, List.map_cons, List.sum_cons]
      congr 1
      have e1 : (List.zipWith (fun x y => x + y) acc
          (List.map (fun x => x * chan.volume) (nextFrame sfxCache C S chan))).getD j 0 =
          acc.getD j 0 + chan.volume * (nextFrame sfxCache C S chan).getD j 0 := by
        simp only [List.getD_eq_getElem?_getD, List.getElem?_zipWith, List.getElem?_map]
        rw [List.getElem?_eq_getElem (by omega : j < acc.length),
          List.getElem?_eq_getElem (by omega : j < (nextFrame sfxCache C S chan).length)]
        simp only [Option.map_some', Option.getD_some]
        ring
      rw [e1]
      ring
    · rw [if_neg hlive, ih _ hacc hrest]
      simp only [List.filter_cons, hlive, Bool.false_eq_true, if_false]

/-- C10: in a pool whose live channels are all unspatialized (owned by the listener's
entity, or on `ENTCHANNEL_PLAY_GLOBALLY`) with attenuation `> 0` and volume `> 0`, whenever
`MixAudio` on a zeroed mix buffer of `C` channels of `S` samples returns, sample `j` of
every output channel `c` of the mix is the sum over the live channels of `volume` times
sample `j` of the channel's next frame, with no normalization; and sample `j` of a channel's
next frame is sample `cursor + j` of its source, as long as that is inside the source.
`MixAudio` returns at least when every live channel plays a loaded source with cursor and
loop start inside it. -/
theorem unspatialized_mix_is_weighted_sum (h : host_t) (s : hrtf_state_t) (C S : Nat)
    (hun : ∀ chan ∈ s.mixer, chan.sfx.isSome = true →
      (chan.entnum = h.viewentity ∨ chan.entchannel = ENTCHANNEL_PLAY_GLOBALLY) ∧
        0 < chan.attenuation ∧ 0 < chan.volume) :
    (∀ s' mix', MixAudio h s (iplAudioBufferZero (AllocScratchBuffer C S)) = .ok (s', mix') →
      (∀ c j, c < C → j < S →
        mix'.sample? c j =
          some (((s.mixer.filter (fun chan => chan.sfx.isSome)).map
            (fun chan => chan.volume * (nextFrame s.sfxCache C S chan).getD j 0)).sum)) ∧
      (∀ chan ∈ s.mixer, ∀ entry, entryOf s.sfxCache chan = some entry →
        ∀ j, j < S → chan.spent + j < entry.buf.numSamples → 0 < C →
          (nextFrame s.sfxCache C S chan)[j]? = entry.buf.sample? 0 (chan.spent + j))) ∧
    (poolOK s = true →
      ∃ s' mix', MixAudio h s (iplAudioBufferZero (AllocScratchBuffer C S)) = .ok (s', mix')) := by
  refine ⟨?_, fun hpool => ⟨_, _, MixAudio_total h s _ hpool⟩⟩
  intro s' mix' hrun
  obtain ⟨ht, _, hmix⟩ := MixAudio_ok hrun
  have ht' : ∀ chan ∈ s.mixer, Tickable s.sfxCache C S chan := ht
  constructor
  · intro c j hc hj
    have hzero : iplAudioBufferZero (AllocScratchBuffer C S) =
        ⟨C, S, List.replicate C (List.replicate S 0)⟩ := rfl
    rw [hmix, hzero, foldl_mixAfter_unspatialized h s C S s.mixer _ hun]
    unfold IPLAudioBuffer.sample?
    simp only [List.getElem?_replicate, if_pos hc]
    rw [mixedRow_getElem? s.sfxCache C S s.mixer _ (by simp) ?_ j hj]
    · simp [List.getD_eq_getElem?_getD, List.getElem?_replicate, hj]
    · intro chan hmem hlive
      exact nextFrame_length (ht' chan hmem) hlive
  · intro chan hmem entry he j hj hin hC
    rcases ht' chan hmem with hfree | ⟨entry', row, spent, he', hloop⟩
    · simp [entryOf, hfree] at he
    · rw [he] at he'
      cases he'
      rw [nextFrame_eq he hloop]
      exact CopyNextChannelFrame_loop_sample entry.buf C hC chan.loopStartSample S chan.spent
        row spent hloop j hj hin

theorem demoDuo_reachable : Reachable demoDuo :=
  Reachable.step demoLocal demoDuo demoLocal_reachable
    (Step.start_sound demoHost _ _ 7 ENTCHANNEL_PLAY_GLOBALLY 0 (50, 0, 0) (1 / 2) 1 demoFx
      (by decide!))

theorem unspatialized_mix_is_weighted_sum_witness :
    ((Reachable demoDuo ∧
      (∀ chan ∈ demoDuo.mixer, chan.sfx.isSome = true →
        (chan.entnum = demoHost.viewentity ∨ chan.entchannel = ENTCHANNEL_PLAY_GLOBALLY) ∧
          0 < chan.attenuation ∧ 0 < chan.volume) ∧
      demoDuo.mixer.filter (fun chan => chan.sfx.isSome) = [demoLocalChan, demoDuoChan] ∧
      poolOK demoDuo = true) ∧
    ∃ s' mix',
      MixAudio demoHost demoDuo
        (iplAudioBufferZero (AllocScratchBuffer NUM_OUTPUT_CHANNELS FRAME_SIZE)) = .ok (s', mix') ∧
      (∀ c j, c < NUM_OUTPUT_CHANNELS → j < FRAME_SIZE →
        mix'.sample? c j =
          some (((demoDuo.mixer.filter (fun chan => chan.sfx.isSome)).map
            (fun chan => chan.volume *
              (nextFrame demoDuo.sfxCache NUM_OUTPUT_CHANNELS FRAME_SIZE chan).getD j 0)).sum)) ∧
      mix'.sample? 0 3 = some (3 / 4) ∧ mix'.sample? 1 3 = some (3 / 4) ∧
      mix'.sample? 0 4 = some 0 ∧
      (nextFrame demoDuo.sfxCache NUM_OUTPUT_CHANNELS FRAME_SIZE demoDuoChan)[3]? =
        demoEntry.buf.sample? 0 (demoDuoChan.spent + 3)) ∧
    ((Reachable demoMixed ∧ poolOK demoMixed = false ∧
      (∀ chan ∈ demoMixed.mixer, chan.sfx.isSome = true →
        (chan.entnum = demoMixedHost.viewentity ∨ chan.entchannel = ENTCHANNEL_PLAY_GLOBALLY) ∧
          0 < chan.attenuation ∧ 0 < chan.volume) ∧
      demoMixed.mixer.filter (fun chan => chan.sfx.isSome) =
        [demoLoopChan, demoMixedHum, demoMixedMenu]) ∧
    ∃ s' mix',
      MixAudio demoMixedHost demoMixed
        (iplAudioBufferZero (AllocScratchBuffer NUM_OUTPUT_CHANNELS FRAME_SIZE)) = .ok (s', mix') ∧
      mix'.sample? 0 0 = some (3 / 2) ∧ mix'.sample? 1 1 = some (5 / 4) ∧
      mix'.sample? 0 5 = some (3 / 4) ∧ mix'.sample? 1 8 = some 1) :=
  ⟨⟨⟨demoDuo_reachable, by decide!, by decide!, by decide!⟩, by
    have key := unspatialized_mix_is_weighted_sum demoHost demoDuo NUM_OUTPUT_CHANNELS FRAME_SIZE
      (by decide!)
    obtain ⟨s', mix', hrun⟩ := key.2 (by decide!)
    obtain ⟨hsum, hsrc⟩ := key.1 s' mix' hrun
    have hf : demoDuo.mixer.filter (fun chan => chan.sfx.isSome) = [demoLocalChan, demoDuoChan] := by
      decide!
    refine ⟨s', mix', hrun, hsum, ?_, ?_, ?_, ?_⟩
    · rw [hsum 0 3 (by decide) (by decide), hf]
      decide!
    · rw [hsum 1 3 (by decide) (by decide), hf]
      decide!
    · rw [hsum 0 4 (by decide) (by decide), hf]
      decide!
    · exact hsrc demoDuoChan (by decide!) demoEntry (by decide!) 3 (by decide) (by decide)
        (by decide)⟩,
   ⟨⟨demoMixed_reachable, by decide!, by decide!, by decide!⟩, by
    have key := unspatialized_mix_is_weighted_sum demoMixedHost demoMixed NUM_OUTPUT_CHANNELS
      FRAME_SIZE (by decide!)
    have hrun := MixAudio_tickable demoMixedHost demoMixed demoMix demoMixed_tickable
    obtain ⟨hsum, _⟩ := key.1 _ _ hrun
    have hf : demoMixed.mixer.filter (fun chan => chan.sfx.isSome) =
        [demoLoopChan, demoMixedHum, demoMixedMenu] := by decide!
    refine ⟨_, _, hrun, ?_, ?_, ?_, ?_⟩
    · rw [hsum 0 0 (by decide) (by decide), hf]
      decide!
    · rw [hsum 1 1 (by decide) (by decide), hf]
      decide!
    · rw [hsum 0 5 (by decide) (by decide), hf]
      decide!
    · rw [hsum 1 8 (by decide) (by decide), hf]
      decide!⟩⟩

theorem resync_eq (S : Nat) (hS : 0 < S) (acc : List ℚ) (rows : List (List ℚ))
    (hlen : acc.length = rows.length) (hrows : ∀ row ∈ rows, row.length = S) :
    ApplyUnderwaterEffect.resync S acc rows = .ok (rows.map (fun row => row.getD (S - 1) 0)) := by
  induction rows generalizing acc with
  | nil =>
    cases acc with
    | nil => rfl
    | cons a as => simp at hlen
  | cons row rows ih =>
    cases acc with
    | nil => simp at hlen
    | cons a as =>
      have hr : row.length = S := hrows row (List.mem_cons_self _ _)
      have hget : row[S - 1]? = some (row.getD (S - 1) 0) := by
        rw [List.getD_eq_getElem?_getD, List.getElem?_eq_getElem (by omega)]
        rfl
      unfold ApplyUnderwaterEffect.resync
      rw [if_neg (by omega), hget]
      simp only
      rw [ih as (by simpa using hlen) (fun r hr' => hrows r (List.mem_cons_of_mem _ hr'))]
      rfl

theorem wellShaped_iff (buf : IPLAudioBuffer) :
    buf.wellShaped = true ↔
      buf.data.length = buf.numChannels ∧ ∀ row ∈ buf.data, row.length = buf.numSamples := by
  simp [IPLAudioBuffer.wellShaped, List.all_eq_true]

theorem ApplyGlobalVolume_sample_range (fvol x : ℚ) :
    -1 ≤ (ApplyGlobalVolume.sample fvol x).1 ∧ (ApplyGlobalVolume.sample fvol x).1 ≤ 1 := by
  unfold ApplyGlobalVolume.sample
  simp only
  split
  · unfold CLAMP
    split
    · exact ⟨le_refl _, by norm_num⟩
    · split
      · exact ⟨by norm_num, le_refl _⟩
      · rename_i h1 h2
        exact ⟨not_lt.1 h1, not_lt.1 h2⟩
  · rename_i hn
    rw [not_or] at hn
    exact ⟨not_lt.1 hn.1, not_lt.1 hn.2⟩

theorem sample?_mem {buf : IPLAudioBuffer} {i j : Nat} {x : ℚ} (hx : buf.sample? i j = some x) :
    ∃ row ∈ buf.data, x ∈ row := by
  unfold IPLAudioBuffer.sample? at hx
  split at hx
  · cases hx
  · rename_i row hrow
    exact ⟨row, List.getElem?_mem hrow, List.getElem?_mem hx⟩

theorem interleave_mem {buf : IPLAudioBuffer} {x : ℚ} (hx : x ∈ iplAudioBufferInterleave buf) :
    x = 0 ∨ ∃ row ∈ buf.data, x ∈ row := by
  unfold iplAudioBufferInterleave at hx
  simp only [List.mem_flatMap, List.mem_map, List.mem_range] at hx
  obtain ⟨j, _, i, _, hxe⟩ := hx
  cases hs : buf.sample? i j with
  | none =>
    rw [hs] at hxe
    exact Or.inl hxe.symm
  | some y =>
    rw [hs] at hxe
    simp only [Option.getD_some] at hxe
    subst hxe
    exact Or.inr (sample?_mem hs)

theorem ApplyGlobalVolume_interleave_range (st : hrtf_state_t) (buf : IPLAudioBuffer) :
    ∀ x ∈ iplAudioBufferInterleave (ApplyGlobalVolume st buf).1, -1 ≤ x ∧ x ≤ 1 := by
  intro x hx
  rcases interleave_mem hx with h0 | ⟨row, hrow, hxr⟩
  · subst h0
    norm_num
  · simp only [ApplyGlobalVolume, List.mem_map] at hrow
    obtain ⟨row0, _, hrow0⟩ := hrow
    subst hrow0
    simp only [List.mem_map] at hxr
    obtain ⟨y, _, hy⟩ := hxr
    subst hy
    exact ApplyGlobalVolume_sample_range _ y

theorem BGM_Update_none (h : host_t) (st : hrtf_state_t) (hslot : st.bgmFrameFull = false)
    (hnone : h.bgmNext = none) : BGM_Update h st = st := by
  unfold BGM_Update
  rw [hslot, hnone]
  rfl

theorem BGM_Update_some (h : host_t) (st : hrtf_state_t) (frame : Nat → Nat → ℚ)
    (hslot : st.bgmFrameFull = false) (hmusic : h.bgmNext = some frame) :
    BGM_Update h st = { st with bgmFrame := st.bgmFrame.fill frame, bgmFrameFull := true } := by
  unfold BGM_Update
  rw [hslot, hmusic]
  rfl

/-- What `MixAndSend` returns when the mailbox is empty and its two fallible steps return. -/
theorem MixAndSend_eq {h : host_t} {s s1 : hrtf_state_t} {mixA mixU : IPLAudioBuffer}
    {acc : List ℚ} (hempty : s.frameBufferFull = false)
    (hmix : MixAudio h s (iplAudioBufferZero (AllocScratchBuffer s.audioSpec.channels FRAME_SIZE))
      = .ok (s1, mixA))
    (hunder : ApplyUnderwaterEffect h s1.underwater s1.acc mixA = .ok (acc, mixU)) :
    MixAndSend h s =
      .ok { BGM_Update h { s1 with acc := some acc } with
            bgmFrame :=
              if (BGM_Update h { s1 with acc := some acc }).bgmFrameFull then
                ApplyGain (BGM_Update h { s1 with acc := some acc }).bgmFrame
                  (TO_PERCEPTIBLE_VOLUME h h.bgmvolume)
              else (BGM_Update h { s1 with acc := some acc }).bgmFrame,
            bgmFrameFull := false,
            frameBuffer := iplAudioBufferInterleave
              (if (BGM_Update h { s1 with acc := some acc }).bgmFrameFull then
                iplAudioBufferMix
                  (ApplyGain (BGM_Update h { s1 with acc := some acc }).bgmFrame
                    (TO_PERCEPTIBLE_VOLUME h h.bgmvolume))
                  (ApplyGlobalVolume { s1 with acc := some acc } mixU).1
               else (ApplyGlobalVolume { s1 with acc := some acc } mixU).1),
            frameBufferFull := true,
            starved := 0 } := by
  unfold MixAndSend
  rw [hempty]
  simp only [Bool.false_eq_true, if_false, hmix, hunder]
  split <;> rfl

theorem zipWith_rows_shape (S : Nat) (f : ℚ → ℚ → ℚ) (a b : List (List ℚ))
    (ha : ∀ row ∈ a, row.length = S) (hb : ∀ row ∈ b, row.length = S) :
    ∀ row ∈ List.zipWith (fun m i => List.zipWith f m i) a b, row.length = S := by
  induction a generalizing b with
  | nil => simp
  | cons x xs ih =>
    cases b with
    | nil => simp
    | cons y ys =>
      intro row hrow
      simp only [List.zipWith_cons_cons, List.mem_cons] at hrow
      rcases hrow with hr | hr
      · subst hr
        simp [ha x (List.mem_cons_self _ _), hb y (List.mem_cons_self _ _)]
      · exact ih ys (fun r hr' => ha r (List.mem_cons_of_mem _ hr'))
          (fun r hr' => hb r (List.mem_cons_of_mem _ hr')) row hr

/-- The tick of a tickable slot keeps the mix buffer in shape. -/
theorem mixAfter_wellShaped (h : host_t) (st : hrtf_state_t) (chan : hrtf_channel_t)
    (mix : IPLAudioBuffer) (ht : Tickable st.sfxCache mix.numChannels mix.numSamples chan)
    (hshape : mix.wellShaped = true) : (mixAfter h st chan mix).wellShaped = true := by
  unfold mixAfter
  split
  · exact hshape
  rename_i hlive
  split
  · exact hshape
  have hl : chan.sfx.isSome = true := by
    cases hs : chan.sfx with
    | none => exact absurd hs hlive
    | some k => rfl
  have hrow := nextFrame_length ht hl
  simp only [IPLAudioBuffer.wellShaped, Bool.and_eq_true, beq_iff_eq, List.all_eq_true] at hshape ⊢
  obtain ⟨hlen, hrows⟩ := hshape
  constructor
  · simp only [iplAudioBufferMix, ApplyGain, List.length_zipWith, List.length_map]
    split
    · simp [ApplyEffects, IPLAudioBuffer.fill, subsetOf, hlen]
    · simp [subsetOf, hlen]
  · intro row hmem
    simp only [iplAudioBufferMix, ApplyGain] at hmem ⊢
    refine zipWith_rows_shape mix.numSamples _ _ _ hrows ?_ row hmem
    intro r hr
    simp only [List.mem_map] at hr
    obtain ⟨r0, hr0, rfl⟩ := hr
    rw [List.length_map]
    split at hr0
    · simp only [ApplyEffects, IPLAudioBuffer.fill, subsetOf, List.mem_map, List.mem_range] at hr0
      obtain ⟨i, _, rfl⟩ := hr0
      simp
    · simp only [subsetOf] at hr0
      rw [List.eq_of_mem_replicate hr0]
      exact hrow

theorem foldl_mixAfter_wellShaped (h : host_t) (st : hrtf_state_t) (m : List hrtf_channel_t)
    (mix : IPLAudioBuffer)
    (ht : ∀ chan ∈ m, Tickable st.sfxCache mix.numChannels mix.numSamples chan)
    (hshape : mix.wellShaped = true) :
    (m.foldl (fun acc chan => mixAfter h st chan acc) mix).wellShaped = true := by
  induction m generalizing mix with
  | nil => exact hshape
  | cons chan rest ih =>
    simp only [List.foldl_cons]
    obtain ⟨g1, g2⟩ := mixAfter_shape h st chan mix
    refine ih _ ?_ (mixAfter_wellShaped h st chan mix (ht chan (List.mem_cons_self _ _)) hshape)
    intro c hc
    rw [g1, g2]
    exact ht c (List.mem_cons_of_mem _ hc)

theorem resync_total (S : Nat) (hS : 0 < S) (acc : List ℚ) (rows : List (List ℚ))
    (hlen : rows.length ≤ acc.length) (hrows : ∀ row ∈ rows, row.length = S) :
    ∃ acc', ApplyUnderwaterEffect.resync S acc rows = .ok acc' := by
  induction rows generalizing acc with
  | nil =>
    cases acc <;> exact ⟨_, rfl⟩
  | cons row rows ih =>
    cases acc with
    | nil => simp at hlen
    | cons a as =>
      have hr : row.length = S := hrows row (List.mem_cons_self _ _)
      have hget : row[S - 1]? = some (row.getD (S - 1) 0) := by
        rw [List.getD_eq_getElem?_getD, List.getElem?_eq_getElem (by omega)]
        rfl
      obtain ⟨acc', hacc'⟩ := ih as (by simpa using hlen)
        (fun r hr' => hrows r (List.mem_cons_of_mem _ hr'))
      unfold ApplyUnderwaterEffect.resync
      rw [if_neg (by omega), hget]
      simp only
      rw [hacc']
      exact ⟨_, rfl⟩

theorem filter_total (alpha : ℚ) (acc : List ℚ) (rows : List (List ℚ))
    (hlen : rows.length ≤ acc.length) :
    ∃ r, ApplyUnderwaterEffect.filter alpha acc rows = .ok r := by
  induction rows generalizing acc with
  | nil =>
    cases acc <;> exact ⟨_, rfl⟩
  | cons row rows ih =>
    cases acc with
    | nil => simp at hlen
    | cons a as =>
      obtain ⟨r, hr⟩ := ih as (by simpa using hlen)
      unfold ApplyUnderwaterEffect.filter
      rw [hr]
      exact ⟨_, rfl⟩

/-- `ApplyUnderwaterEffect` returns on a frame in shape when the filter memory, once
allocated, has room for every channel. -/
theorem ApplyUnderwaterEffect_total (h : host_t) (intensity : ℚ) (acc : Option (List ℚ))
    (inp : IPLAudioBuffer) (hshape : inp.wellShaped = true) (hpos : 0 < inp.numSamples)
    (hacc : ∀ a, acc = some a → inp.numChannels ≤ a.length) :
    ∃ r, ApplyUnderwaterEffect h intensity acc inp = .ok r := by
  obtain ⟨hlen, hrows⟩ := (wellShaped_iff inp).1 hshape
  have key : ∀ a : List ℚ, inp.data.length ≤ a.length →
      ∃ r, (if intensity ≤ 0 then
        match ApplyUnderwaterEffect.resync inp.numSamples a inp.data with
        | .error f => .error f
        | .ok acc => .ok (acc, inp)
      else
        match ApplyUnderwaterEffect.filter (h.exp (-intensity * h.log 12)) a inp.data with
        | .error f => .error f
        | .ok (acc, rows) => .ok (acc, { inp with data := rows }) :
          Except Fault (List ℚ × IPLAudioBuffer)) = .ok r := by
    intro a hfit
    split
    · obtain ⟨acc', h1⟩ := resync_total inp.numSamples hpos a inp.data hfit hrows
      rw [h1]
      exact ⟨_, rfl⟩
    · obtain ⟨r, h1⟩ := filter_total (h.exp (-intensity * h.log 12)) a inp.data hfit
      rw [h1]
      exact ⟨_, rfl⟩
  unfold ApplyUnderwaterEffect
  cases acc with
  | none => exact key _ (by simp [hlen])
  | some a => exact key a (by have := hacc a rfl; omega)

theorem zero_eq (C S : Nat) :
    iplAudioBufferZero (AllocScratchBuffer C S) = ⟨C, S, List.replicate C (List.replicate S 0)⟩ :=
  rfl

theorem zero_wellShaped (C S : Nat) :
    (iplAudioBufferZero (AllocScratchBuffer C S)).wellShaped = true := by
  simp [IPLAudioBuffer.wellShaped, iplAudioBufferZero, AllocScratchBuffer]

/-- `MixAndSend` returns when the mailbox is empty, every slot of the pool is tickable and
the filter memory, once allocated, has room for every channel. -/
theorem MixAndSend_returns (h : host_t) (s : hrtf_state_t) (hempty : s.frameBufferFull = false)
    (htick : ∀ chan ∈ s.mixer, Tickable s.sfxCache s.audioSpec.channels FRAME_SIZE chan)
    (hacc : ∀ a, s.acc = some a → s.audioSpec.channels ≤ a.length) :
    ∃ s', MixAndSend h s = .ok s' := by
  have hmix := MixAudio_tickable h s
    (iplAudioBufferZero (AllocScratchBuffer s.audioSpec.channels FRAME_SIZE)) htick
  have hshape := foldl_mixAfter_wellShaped h s s.mixer
    (iplAudioBufferZero (AllocScratchBuffer s.audioSpec.channels FRAME_SIZE)) htick
    (zero_wellShaped _ _)
  obtain ⟨g1, g2⟩ := foldl_mixAfter_shape h s s.mixer
    (iplAudioBufferZero (AllocScratchBuffer s.audioSpec.channels FRAME_SIZE))
  obtain ⟨⟨acc', mixU⟩, hunder⟩ := ApplyUnderwaterEffect_total h s.underwater s.acc _ hshape
    (by rw [g2]; exact (by decide : 0 < FRAME_SIZE))
    (by rw [g1]; exact hacc)
  exact ⟨_, MixAndSend_eq hempty hmix hunder⟩

/-- C7, as the code has it: with the mailbox empty and no music frame to mix in (the music
slot is empty and the resampler emits nothing), whenever `MixAndSend` returns, whatever the
pool holds, the mailbox is full and every sample of its frame lies in `[-1, 1]`.
`MixAndSend` returns at least when every live channel plays a loaded source with cursor and
loop start inside it and the filter memory, once allocated, has room for every channel. -/
theorem mailbox_frame_in_range_without_music (h : host_t) (s : hrtf_state_t)
    (hempty : s.frameBufferFull = false)
    (hslot : s.bgmFrameFull = false) (hnone : h.bgmNext = none) :
    (∀ s', MixAndSend h s = .ok s' →
      s'.frameBufferFull = true ∧ ∀ x ∈ s'.frameBuffer, -1 ≤ x ∧ x ≤ 1) ∧
    (poolOK s = true → (∀ a, s.acc = some a → s.audioSpec.channels ≤ a.length) →
      ∃ s', MixAndSend h s = .ok s') := by
  constructor
  · intro s' hrun
    rcases hmix : MixAudio h s
        (iplAudioBufferZero (AllocScratchBuffer s.audioSpec.channels FRAME_SIZE)) with f | ⟨s1, mixA⟩
    · simp [MixAndSend, hempty, hmix] at hrun
    rcases hunder : ApplyUnderwaterEffect h s1.underwater s1.acc mixA with f | ⟨acc', mixU⟩
    · simp [MixAndSend, hempty, hmix, hunder] at hrun
    have heq := MixAndSend_eq hempty hmix hunder
    obtain ⟨_, hs1, _⟩ := MixAudio_ok hmix
    have hslot1 : s1.bgmFrameFull = false := by rw [hs1]; exact hslot
    have hb : BGM_Update h { s1 with acc := some acc' } = _ := BGM_Update_none h _ hslot1 hnone
    rw [hb] at heq
    simp only [hslot1, Bool.false_eq_true, if_false] at heq
    rw [heq] at hrun
    cases hrun
    exact ⟨rfl, ApplyGlobalVolume_interleave_range _ mixU⟩
  · intro hpool hacc
    have hmix := MixAudio_total h s
      (iplAudioBufferZero (AllocScratchBuffer s.audioSpec.channels FRAME_SIZE)) hpool
    have htick : ∀ chan ∈ s.mixer, Tickable s.sfxCache
        (iplAudioBufferZero (AllocScratchBuffer s.audioSpec.channels FRAME_SIZE)).numChannels
        (iplAudioBufferZero (AllocScratchBuffer s.audioSpec.channels FRAME_SIZE)).numSamples chan :=
      fun chan hc => channelOK_tickable ((poolOK_iff s).1 hpool chan hc) _ _
    have hshape := foldl_mixAfter_wellShaped h s s.mixer _ htick (zero_wellShaped _ _)
    obtain ⟨g1, g2⟩ := foldl_mixAfter_shape h s s.mixer
      (iplAudioBufferZero (AllocScratchBuffer s.audioSpec.channels FRAME_SIZE))
    obtain ⟨⟨acc', mixU⟩, hunder⟩ := ApplyUnderwaterEffect_total h s.underwater s.acc _ hshape
      (by rw [g2]; exact (by decide : 0 < FRAME_SIZE))
      (by rw [g1]; exact hacc)
    exact ⟨_, MixAndSend_eq hempty hmix hunder⟩

theorem mailbox_frame_in_range_without_music_witness :
    ((Reachable demoDuo ∧ demoDuo.frameBufferFull = false ∧ demoDuo.bgmFrameFull = false ∧ demoHost.bgmNext = none ∧
      poolOK demoDuo = true ∧ demoDuo.acc = none) ∧
     ∃ s', MixAndSend demoHost demoDuo = .ok s' ∧ s'.frameBufferFull = true ∧
       ∀ x ∈ s'.frameBuffer, -1 ≤ x ∧ x ≤ 1) ∧
    ((Reachable demoLoop ∧ demoLoop.frameBufferFull = false ∧ demoLoop.bgmFrameFull = false ∧
      demoLoopHost.bgmNext = none ∧ poolOK demoLoop = false) ∧
     ∃ s', MixAndSend demoLoopHost demoLoop = .ok s' ∧ s'.frameBufferFull = true ∧
       ∀ x ∈ s'.frameBuffer, -1 ≤ x ∧ x ≤ 1) :=
  ⟨⟨⟨demoDuo_reachable, by decide!, by decide!, rfl, by decide!, by decide!⟩, by
      have key := mailbox_frame_in_range_without_music demoHost demoDuo (by decide!) (by decide!) rfl
      have hn : demoDuo.acc = none := by decide!
      obtain ⟨s', hrun⟩ := key.2 (by decide!) (fun a ha => by rw [hn] at ha; cases ha)
      exact ⟨s', hrun, key.1 s' hrun⟩⟩,
   ⟨⟨demoLoop_reachable, by decide!, by decide!, rfl, by decide!⟩, by
      have key := mailbox_frame_in_range_without_music demoLoopHost demoLoop (by decide!)
        (by decide!) rfl
      have hn : demoLoop.acc = none := by decide!
      have hc : demoLoop.audioSpec.channels = demoMix.numChannels := by decide!
      obtain ⟨s', hrun⟩ := MixAndSend_returns demoLoopHost demoLoop (by decide!)
        (by rw [hc]; exact demoLoop_tickable) (fun a ha => by rw [hn] at ha; cases ha)
      exact ⟨s', hrun, key.1 s' hrun⟩⟩⟩

/-- The bypass branch of `ApplyUnderwaterEffect` on a frame in shape: the frame is returned
as it is, and the filter memory holds the last sample of every channel. -/
theorem ApplyUnderwaterEffect_bypass (h : host_t) (intensity : ℚ) (acc : Option (List ℚ))
    (inp : IPLAudioBuffer) (hi : intensity ≤ 0) (hshape : inp.wellShaped = true)
    (hpos : 0 < inp.numSamples) (hacc : ∀ a, acc = some a → a.length = inp.numChannels) :
    ApplyUnderwaterEffect h intensity acc inp =
      .ok (inp.data.map (fun row => row.getD (inp.numSamples - 1) 0), inp) := by
  obtain ⟨hlen, hrows⟩ := (wellShaped_iff inp).1 hshape
  unfold ApplyUnderwaterEffect
  simp only [if_pos hi]
  cases acc with
  | none =>
    simp only
    rw [resync_eq inp.numSamples hpos _ inp.data (by simp [hlen]) hrows]
  | some a =>
    simp only
    rw [resync_eq inp.numSamples hpos _ inp.data (by rw [hacc a rfl, hlen]) hrows]

theorem interleave_head (buf : IPLAudioBuffer) (hS : 0 < buf.numSamples)
    (hC : 0 < buf.numChannels) :
    (iplAudioBufferInterleave buf)[0]? = some ((buf.sample? 0 0).getD 0) := by
  unfold iplAudioBufferInterleave
  obtain ⟨S, hS'⟩ := Nat.exists_eq_succ_of_ne_zero (Nat.pos_iff_ne_zero.1 hS)
  obtain ⟨C, hC'⟩ := Nat.exists_eq_succ_of_ne_zero (Nat.pos_iff_ne_zero.1 hC)
  rw [hS', hC']
  simp [List.range_succ_eq_map]

theorem iplAudioBufferMix_sample (inp mix : IPLAudioBuffer) (i j : Nat) (x y : ℚ)
    (hx : mix.sample? i j = some x) (hy : inp.sample? i j = some y) :
    (iplAudioBufferMix inp mix).sample? i j = some (x + y) := by
  unfold IPLAudioBuffer.sample? at hx hy ⊢
  unfold iplAudioBufferMix
  simp only [List.getElem?_zipWith]
  cases hm : mix.data[i]? with
  | none => simp [hm] at hx
  | some mrow =>
    cases hn : inp.data[i]? with
    | none => simp [hn] at hy
    | some irow =>
      simp only [hm, hn] at hx hy ⊢
      simp [List.getElem?_zipWith, hx, hy]

theorem ApplyGlobalVolume_sample? (st : hrtf_state_t) (buf : IPLAudioBuffer) (i j : Nat) (x : ℚ)
    (hx : buf.sample? i j = some x) :
    (ApplyGlobalVolume st buf).1.sample? i j =
      some (ApplyGlobalVolume.sample (CLAMP 0 st.volume 1) x).1 := by
  unfold IPLAudioBuffer.sample? at hx ⊢
  unfold ApplyGlobalVolume
  simp only [List.getElem?_map]
  cases hm : buf.data[i]? with
  | none => simp [hm] at hx
  | some row =>
    simp only [hm] at hx ⊢
    simp [hx]

theorem ApplyGain_sample? (buf : IPLAudioBuffer) (gain : ℚ) (i j : Nat) (x : ℚ)
    (hx : buf.sample? i j = some x) : (ApplyGain buf gain).sample? i j = some (x * gain) := by
  unfold IPLAudioBuffer.sample? at hx ⊢
  unfold ApplyGain
  simp only [List.getElem?_map]
  cases hm : buf.data[i]? with
  | none => simp [hm] at hx
  | some row =>
    simp only [hm] at hx ⊢
    simp [hx]

theorem fill_sample? (buf : IPLAudioBuffer) (f : Nat → Nat → ℚ) (i j : Nat)
    (hi : i < buf.numChannels) (hj : j < buf.numSamples) :
    (buf.fill f).sample? i j = some (f i j) := by
  unfold IPLAudioBuffer.sample? IPLAudioBuffer.fill
  simp [List.getElem?_map, List.getElem?_range, hi, hj]

/-- The first sample `MixAndSend` puts in the mailbox when every live channel is
unspatialized, the filter is bypassed and the resampler emits a music frame: the first
sample of the mix after `ApplyGlobalVolume`, plus the first music sample times the music
gain. -/
theorem MixAndSend_first_sample (h : host_t) (s : hrtf_state_t) (frame : Nat → Nat → ℚ) (x : ℚ)
    (hempty : s.frameBufferFull = false) (hpool : poolOK s = true)
    (hun : ∀ chan ∈ s.mixer, chan.sfx.isSome = true →
      (chan.entnum = h.viewentity ∨ chan.entchannel = ENTCHANNEL_PLAY_GLOBALLY) ∧
        0 < chan.attenuation ∧ 0 < chan.volume)
    (hacc : s.acc = none) (hdry : s.underwater ≤ 0) (hslot : s.bgmFrameFull = false)
    (hmusic : h.bgmNext = some frame) (hC : 0 < s.audioSpec.channels)
    (hbC : 0 < s.bgmFrame.numChannels) (hbS : 0 < s.bgmFrame.numSamples)
    (hx : (mixedRow s.sfxCache s.audioSpec.channels FRAME_SIZE s.mixer
      (List.replicate FRAME_SIZE 0))[0]? = some x) :
    ∃ s', MixAndSend h s = .ok s' ∧ s'.frameBufferFull = true ∧
      s'.frameBuffer[0]? =
        some ((ApplyGlobalVolume.sample (CLAMP 0 s.volume 1) x).1 +
          frame 0 0 * TO_PERCEPTIBLE_VOLUME h h.bgmvolume) := by
  have hmix := MixAudio_total h s
    (iplAudioBufferZero (AllocScratchBuffer s.audioSpec.channels FRAME_SIZE)) hpool
  have hshape := foldl_mixAfter_wellShaped h s s.mixer
    (iplAudioBufferZero (AllocScratchBuffer s.audioSpec.channels FRAME_SIZE))
    (fun chan hc => channelOK_tickable ((poolOK_iff s).1 hpool chan hc) _ _)
    (zero_wellShaped _ _)
  rw [zero_eq, foldl_mixAfter_unspatialized h s _ _ s.mixer _ hun] at hmix hshape
  have hunder := ApplyUnderwaterEffect_bypass h s.underwater s.acc _ hdry hshape
    (by decide : 0 < FRAME_SIZE)
    (by
      intro a ha
      rw [hacc] at ha
      cases ha)
  rw [← zero_eq] at hmix
  have heq := MixAndSend_eq hempty hmix hunder
  have hb : BGM_Update h { ({ s with mixer := s.mixer.map (slotAfter s.sfxCache
      (iplAudioBufferZero (AllocScratchBuffer s.audioSpec.channels FRAME_SIZE)).numChannels
      (iplAudioBufferZero (AllocScratchBuffer s.audioSpec.channels FRAME_SIZE)).numSamples) } :
        hrtf_state_t) with
      acc := some (List.map (fun row => row.getD (FRAME_SIZE - 1) 0)
        (List.replicate s.audioSpec.channels
          (mixedRow s.sfxCache s.audioSpec.channels FRAME_SIZE s.mixer
            (List.replicate FRAME_SIZE 0)))) } = _ := BGM_Update_some h _ frame hslot hmusic
  rw [hb] at heq
  simp only [if_true] at heq
  refine ⟨_, heq, rfl, ?_⟩
  simp only
  rw [interleave_head _ (by decide : 0 < FRAME_SIZE) hC]
  have hsfx := ApplyGlobalVolume_sample?
    { ({ s with mixer := s.mixer.map (slotAfter s.sfxCache
        (iplAudioBufferZero (AllocScratchBuffer s.audioSpec.channels FRAME_SIZE)).numChannels
        (iplAudioBufferZero (AllocScratchBuffer s.audioSpec.channels FRAME_SIZE)).numSamples) } :
          hrtf_state_t) with
      acc := some (List.map (fun row => row.getD (FRAME_SIZE - 1) 0)
        (List.replicate s.audioSpec.channels
          (mixedRow s.sfxCache s.audioSpec.channels FRAME_SIZE s.mixer
            (List.replicate FRAME_SIZE 0)))) }
    ⟨s.audioSpec.channels, FRAME_SIZE,
      List.replicate s.audioSpec.channels
        (mixedRow s.sfxCache s.audioSpec.channels FRAME_SIZE s.mixer
          (List.replicate FRAME_SIZE 0))⟩ 0 0 x
    (by
      unfold IPLAudioBuffer.sample?
      simp only [List.getElem?_replicate, if_pos hC]
      exact hx)
  have hm := ApplyGain_sample? (s.bgmFrame.fill frame) (TO_PERCEPTIBLE_VOLUME h h.bgmvolume) 0 0
    (frame 0 0) (fill_sample? _ _ 0 0 hbC hbS)
  rw [iplAudioBufferMix_sample _ _ 0 0 _ _ hsfx hm]
  rfl

/-- C7 fails as stated: `demoLocal` is reachable and its mailbox is empty; the music frame has
samples `3/4` and gain `1`; the first sample of the mix is `1/2`, which the global volume
`7/10` makes `7/20`; `MixAndSend` adds the music frame after the clamp of
`ApplyGlobalVolume`, and the first sample of the frame in the mailbox is `11/10 > 1`. -/
theorem music_frame_leaves_range :
    Reachable demoLocal ∧ demoLocal.frameBufferFull = false ∧
    demoMusicHost.bgmNext = some (fun _ _ => 3 / 4) ∧
    TO_PERCEPTIBLE_VOLUME demoMusicHost demoMusicHost.bgmvolume = 1 ∧
    ∃ s', MixAndSend demoMusicHost demoLocal = .ok s' ∧ s'.frameBufferFull = true ∧
      s'.frameBuffer[0]? = some (11 / 10) ∧ ¬ ((11 : ℚ) / 10 ≤ 1) := by
  have hpool : poolOK demoLocal = true := by decide!
  have hc : demoLocal.audioSpec.channels = 2 := by decide!
  have hx : (mixedRow demoLocal.sfxCache demoLocal.audioSpec.channels FRAME_SIZE demoLocal.mixer
      (List.replicate FRAME_SIZE 0))[0]? = some (1 / 2) := by
    rw [mixedRow_getElem? demoLocal.sfxCache _ FRAME_SIZE demoLocal.mixer _ (by simp)
      (fun chan hmem hlive => nextFrame_length
        (channelOK_tickable ((poolOK_iff demoLocal).1 hpool chan hmem) _ _) hlive) 0 (by decide)]
    rw [hc]
    decide!
  obtain ⟨s', hs', hfull, hfirst⟩ := MixAndSend_first_sample demoMusicHost demoLocal
    (fun _ _ => 3 / 4) (1 / 2) (by decide!) hpool (by decide!) (by decide!) (by decide!)
    (by decide!) rfl (by decide!) (by decide!) (by decide!) hx
  refine ⟨demoLocal_reachable, by decide!, rfl, by decide!, s', hs', hfull, ?_, by norm_num⟩
  rw [hfirst]
  have hv : (ApplyGlobalVolume.sample (CLAMP 0 demoLocal.volume 1) (1 / 2)).1 = 7 / 20 := by
    decide!
  have hg : TO_PERCEPTIBLE_VOLUME demoMusicHost demoMusicHost.bgmvolume = 1 := by decide!
  rw [hv, hg]
  norm_num

/-! ## The claims C11 to C20 -/

/-- C11: with intensity `≤ 0`, on a frame of at least one sample and a filter memory that is
unallocated or holds one value per channel, `ApplyUnderwaterEffect` returns the input frame
itself and leaves in the memory of each channel the last input sample of that channel. -/
theorem underwater_bypass_is_identity (h : host_t) (intensity : ℚ) (acc : Option (List ℚ))
    (inp : IPLAudioBuffer) (hi : intensity ≤ 0) (hshape : inp.wellShaped = true)
    (hpos : 0 < inp.numSamples) (hacc : ∀ a, acc = some a → a.length = inp.numChannels) :
    ∃ acc', ApplyUnderwaterEffect h intensity acc inp = .ok (acc', inp) ∧
      acc'.length = inp.numChannels ∧
      ∀ i, i < inp.numChannels → ∃ x, acc'[i]? = some x ∧ inp.sample? i (inp.numSamples - 1) = some x := by
  obtain ⟨hlen, hrows⟩ := (wellShaped_iff inp).1 hshape
  refine ⟨inp.data.map (fun row => row.getD (inp.numSamples - 1) 0), ?_, by simp [hlen], ?_⟩
  · unfold ApplyUnderwaterEffect
    simp only [if_pos hi]
    cases acc with
    | none =>
      simp only
      rw [resync_eq inp.numSamples hpos _ inp.data (by simp [hlen]) hrows]
    | some a =>
      simp only
      rw [resync_eq inp.numSamples hpos _ inp.data (by rw [hacc a rfl, hlen]) hrows]
  · intro i hlt
    have hi' : i < inp.data.length := by omega
    refine ⟨(inp.data[i]).getD (inp.numSamples - 1) 0, ?_, ?_⟩
    · rw [List.getElem?_map, List.getElem?_eq_getElem hi']
      rfl
    · unfold IPLAudioBuffer.sample?
      rw [List.getElem?_eq_getElem hi']
      simp only
      have hr : (inp.data[i]).length = inp.numSamples := hrows _ (List.getElem_mem _)
      rw [List.getD_eq_getElem?_getD, List.getElem?_eq_getElem (by omega)]
      rfl

theorem underwater_bypass_is_identity_witness :
    ∃ acc', ApplyUnderwaterEffect demoHost 0 none demoBFrame = .ok (acc', demoBFrame) ∧
      acc'.length = demoBFrame.numChannels ∧
      ∀ i, i < demoBFrame.numChannels →
        ∃ x, acc'[i]? = some x ∧ demoBFrame.sample? i (demoBFrame.numSamples - 1) = some x :=
  underwater_bypass_is_identity demoHost 0 none demoBFrame (le_refl 0) (by decide) (by decide)
    (fun a ha => by cases ha)

/-- C12, as the code has it: for every attenuation `a > 0` and all positions, with `d` the
distance between source and listener that `VectorNormalize` returns and `q` the binary32
quotient `a / 1000.f`, `ComputeDistanceAttenuation` is exactly `1` when `d = 0` and exactly
`0` when `d * q ≥ 1`; that covers every `d ≥ 1000 / a` when `q` is not below `a / 1000`. -/
theorem distance_attenuation_endpoints (h : host_t) (listenerOrigin sourceOrigin : vec3_t)
    (a : ℚ) (ha : 0 < a) :
    (h.VectorNormalize (VectorSubtract sourceOrigin listenerOrigin) = 0 →
      ComputeDistanceAttenuation h listenerOrigin sourceOrigin a = 1) ∧
    (1 ≤ h.VectorNormalize (VectorSubtract sourceOrigin listenerOrigin) * f32 (a / 1000) →
      ComputeDistanceAttenuation h listenerOrigin sourceOrigin a = 0) ∧
    (a / 1000 ≤ f32 (a / 1000) →
      1000 / a ≤ h.VectorNormalize (VectorSubtract sourceOrigin listenerOrigin) →
      ComputeDistanceAttenuation h listenerOrigin sourceOrigin a = 0) := by
  have key : 1 ≤ h.VectorNormalize (VectorSubtract sourceOrigin listenerOrigin) * f32 (a / 1000) →
      ComputeDistanceAttenuation h listenerOrigin sourceOrigin a = 0 := by
    intro hd
    have h1 := f32_one_le _ hd
    have h2 := f32_nonpos
      (1 - f32 (h.VectorNormalize (VectorSubtract sourceOrigin listenerOrigin) * f32 (a / 1000)))
      (by linarith)
    simp only [ComputeDistanceAttenuation, CLAMP]
    split
    · rfl
    · rw [if_neg (by linarith)]
      linarith
  refine ⟨?_, key, ?_⟩
  · intro hd
    simp only [ComputeDistanceAttenuation, hd, zero_mul, f32_zero, sub_zero, f32_one, CLAMP]
    norm_num
  · intro hq hd
    apply key
    have hlen : 0 < h.VectorNormalize (VectorSubtract sourceOrigin listenerOrigin) :=
      lt_of_lt_of_le (div_pos (by norm_num) ha) hd
    have h1 : 1 ≤ h.VectorNormalize (VectorSubtract sourceOrigin listenerOrigin) * (a / 1000) := by
      have := (div_le_iff₀ ha).1 hd
      rw [mul_div_assoc', le_div_iff₀ (by norm_num)]
      linarith
    calc (1 : ℚ) ≤ h.VectorNormalize (VectorSubtract sourceOrigin listenerOrigin) * (a / 1000) := h1
      _ ≤ h.VectorNormalize (VectorSubtract sourceOrigin listenerOrigin) * f32 (a / 1000) :=
        mul_le_mul_of_nonneg_left hq (le_of_lt hlen)

theorem distance_attenuation_endpoints_witness :
    ((0 : ℚ) < 2 ∧ (0 : ℚ) < 151 / 64 ∧
      demoHost.VectorNormalize (VectorSubtract (3, 4, 5) (3, 4, 5)) = 0 ∧
      (2 : ℚ) / 1000 ≤ f32 (2 / 1000) ∧
      (1000 : ℚ) / 2 ≤ demoHost.VectorNormalize (VectorSubtract (600, 0, 0) (0, 0, 0)) ∧
      f32 (151 / 64 / 1000) < 151 / 64 / 1000 ∧
      1 ≤ demoHost.VectorNormalize (VectorSubtract (424, 0, 0) (0, 0, 0)) * f32 (151 / 64 / 1000)) ∧
    ComputeDistanceAttenuation demoHost (3, 4, 5) (3, 4, 5) 2 = 1 ∧
    ComputeDistanceAttenuation demoHost (0, 0, 0) (600, 0, 0) 2 = 0 ∧
    ComputeDistanceAttenuation demoHost (0, 0, 0) (424, 0, 0) (151 / 64) = 0 :=
  ⟨⟨by norm_num, by norm_num, by decide!, by decide!, by decide!, by decide!, by decide!⟩,
   (distance_attenuation_endpoints demoHost (3, 4, 5) (3, 4, 5) 2 (by norm_num)).1 (by decide!),
   (distance_attenuation_endpoints demoHost (0, 0, 0) (600, 0, 0) 2 (by norm_num)).2.2
     (by decide!) (by decide!),
   (distance_attenuation_endpoints demoHost (0, 0, 0) (424, 0, 0) (151 / 64) (by norm_num)).2.1
     (by decide!)⟩

/-- C12 fails as stated: with attenuation `151/64` the cut-off `1000 / a` lies below the
distance `423.841064453125`, yet the quotient `a / 1000.f` is rounded down, the product is
rounded to `1 - 2^-24`, and `ComputeDistanceAttenuation` returns `2^-24`, not `0`. -/
theorem distance_attenuation_positive_past_cutoff :
    (0 : ℚ) < 151 / 64 ∧
    demoHost.VectorNormalize (VectorSubtract (1736053 / 4096, 0, 0) (0, 0, 0)) = 1736053 / 4096 ∧
    (1000 : ℚ) / (151 / 64) ≤ 1736053 / 4096 ∧
    ComputeDistanceAttenuation demoHost (0, 0, 0) (1736053 / 4096, 0, 0) (151 / 64) = 1 / 16777216 ∧
    (1 : ℚ) / 16777216 ≠ 0 := by
  refine ⟨by norm_num, by decide!, by norm_num, by decide!, by norm_num⟩

/-- C13: when the frame mailbox is still full, `MixAndSend` returns the state it was given:
mailbox, pool, filter memory and music frame are all unchanged. So does `HRTF_ExtraUpdate`. -/
theorem mix_and_send_skips_full_mailbox (h : host_t) (s : hrtf_state_t)
    (hfull : s.frameBufferFull = true) :
    MixAndSend h s = .ok s ∧ (s.initialized = true → HRTF_ExtraUpdate h s = .ok s) := by
  have h1 : MixAndSend h s = .ok s := by
    unfold MixAndSend
    rw [if_pos hfull]
  refine ⟨h1, ?_⟩
  intro hinit
  unfold HRTF_ExtraUpdate
  simp [hinit, h1]

theorem mix_and_send_skips_full_mailbox_witness :
    demoBMailboxFull.frameBufferFull = true ∧
    (MixAndSend demoHost demoBMailboxFull = .ok demoBMailboxFull ∧
      (demoBMailboxFull.initialized = true →
        HRTF_ExtraUpdate demoHost demoBMailboxFull = .ok demoBMailboxFull)) :=
  ⟨rfl, mix_and_send_skips_full_mailbox demoHost demoBMailboxFull rfl⟩

/-- C14: the device callback. With the mailbox empty the device gets zeroes, the starvation
counter grows by one and the mailbox stays empty; with the mailbox full and the request of
the size of the frame buffer, the device gets the stored frame and the mailbox is emptied. -/
theorem device_callback_drains_mailbox (s : hrtf_state_t) (len : Nat) :
    (s.frameBufferFull = false →
      sdl_audio_callback s len =
        .ok (List.replicate (len / 4) 0, { s with starved := s.starved + 1 }) ∧
      ({ s with starved := s.starved + 1 } : hrtf_state_t).frameBufferFull = false) ∧
    (s.frameBufferFull = true → len = s.frameBufferSize →
      sdl_audio_callback s len = .ok (s.frameBuffer, { s with frameBufferFull := false })) := by
  constructor
  · intro he
    simp [sdl_audio_callback, he]
  · intro hf hl
    simp [sdl_audio_callback, hf, hl]

theorem cacheNames_set {sfxCache : List sfx_t} {next k : Nat} {e e' : sfx_t}
    (hc : CacheNames sfxCache next) (hk : sfxCache[k]? = some e) (hn : e'.name = e.name) :
    CacheNames (sfxCache.set k e') next := by
  have key : ∀ (i : Nat) (x : sfx_t), (sfxCache.set k e')[i]? = some x →
      ∃ y, sfxCache[i]? = some y ∧ y.name = x.name := by
    intro i x hx
    rw [List.getElem?_set] at hx
    split at hx
    · rename_i hki
      subst hki
      split at hx
      · cases hx
        exact ⟨e, hk, hn.symm⟩
      · cases hx
    · exact ⟨x, hx, rfl⟩
  constructor
  · intro i x hi hx
    obtain ⟨y, hy, hyn⟩ := key i x hx
    rw [← hyn]
    exact hc.1 i y hi hy
  · intro i j xi xj hi hj hxi hxj hname
    obtain ⟨yi, hyi, hyin⟩ := key i xi hxi
    obtain ⟨yj, hyj, hyjn⟩ := key j xj hxj
    exact hc.2 i j yi yj hi hj hyi hyj (by rw [hyin, hyjn, hname])

theorem FindOrAllocateCacheEntry_cacheNames {s s' : hrtf_state_t} {name : String} {k : Nat}
    (hs : FindOrAllocateCacheEntry s name = .ok (s', k))
    (hc : CacheNames s.sfxCache s.nextSFXCacheEntry) :
    CacheNames s'.sfxCache s'.nextSFXCacheEntry := by
  unfold FindOrAllocateCacheEntry at hs
  split at hs
  · cases hs
  rename_i hshort
  split at hs
  · cases hs
    exact hc
  rename_i hnone
  split at hs
  · cases hs
  split at hs
  · cases hs
  rename_i ret hret
  cases hs
  rw [firstIndex_eq_none_iff] at hnone
  have hfresh : ∀ (i : Nat) (e : sfx_t), i < s.nextSFXCacheEntry → s.sfxCache[i]? = some e →
      e.name ≠ name := by
    intro i e hi he hname
    have := hnone i e (by rw [List.getElem?_take_of_lt hi]; exact he)
    simp [hname] at this
  have hlen : s.nextSFXCacheEntry < s.sfxCache.length := by
    by_contra hlt
    rw [List.getElem?_eq_none (by omega)] at hret
    cases hret
  have key : ∀ (i : Nat) (x : sfx_t), i < s.nextSFXCacheEntry + 1 →
      (s.sfxCache.set s.nextSFXCacheEntry { ret with name := name })[i]? = some x →
      (i = s.nextSFXCacheEntry ∧ x.name = name) ∨
        (i < s.nextSFXCacheEntry ∧ s.sfxCache[i]? = some x) := by
    intro i x hi hx
    rw [List.getElem?_set] at hx
    by_cases hki : s.nextSFXCacheEntry = i
    · rw [if_pos hki, if_pos hlen] at hx
      cases hx
      exact Or.inl ⟨hki.symm, rfl⟩
    · rw [if_neg hki] at hx
      exact Or.inr ⟨by omega, hx⟩
  constructor
  · intro i x hi hx
    rcases key i x hi hx with ⟨_, hn⟩ | ⟨hlt, hx'⟩
    · rw [hn]
      omega
    · exact hc.1 i x hlt hx'
  · intro i j xi xj hi hj hxi hxj hname
    rcases key i xi hi hxi with ⟨hi1, hn1⟩ | ⟨hlt1, hx1⟩ <;>
      rcases key j xj hj hxj with ⟨hj1, hn2⟩ | ⟨hlt2, hx2⟩
    · rw [hi1, hj1]
    · exact (hfresh j xj hlt2 hx2 (by rw [← hname, hn1])).elim
    · exact (hfresh i xi hlt1 hx1 (by rw [hname, hn2])).elim
    · exact hc.2 i j xi xj hlt1 hlt2 hx1 hx2 hname

theorem PrecacheSound_cacheNames {h : host_t} {s s' : hrtf_state_t} {name : String}
    {r : Option Nat} (hs : PrecacheSound h s name = .ok (s', r))
    (hc : CacheNames s.sfxCache s.nextSFXCacheEntry) :
    CacheNames s'.sfxCache s'.nextSFXCacheEntry := by
  unfold PrecacheSound at hs
  split at hs
  · cases hs
  rename_i s2 k hfind
  have h2 := FindOrAllocateCacheEntry_cacheNames hfind hc
  split at hs
  · cases hs
  rename_i e he
  split at hs
  · cases hs
    exact h2
  split at hs
  · cases hs
    exact h2
  · cases hs
    exact cacheNames_set h2 he rfl

theorem StartSound_cacheNames {h : host_t} {s s1 : hrtf_state_t} {e c : Int} {sfx : Nat}
    {o : vec3_t} {v a : ℚ} {r : Bool} {rnd : Nat} {fx : effect_alloc_t} {res : Option Nat}
    (hs : StartSound h s e c sfx o v a r rnd fx = .ok (s1, res))
    (hc : CacheNames s.sfxCache s.nextSFXCacheEntry) :
    CacheNames s1.sfxCache s1.nextSFXCacheEntry := by
  unfold StartSound at hs
  split at hs
  · cases hs
  split at hs
  · cases hs
  split at hs
  · cases hs
  split at hs
  · cases hs
  rename_i s2 sfx2 hpre
  have h2 : CacheNames s2.sfxCache s2.nextSFXCacheEntry := by
    split at hpre
    · exact PrecacheSound_cacheNames hpre hc
    · cases hpre
      exact hc
  split at hs
  · cases hs
  split at hs
  · cases hs
  rename_i chan0 _
  dsimp only at hs
  generalize (if chan0.sfx.isSome = true then FreeChannel chan0 else chan0) = chanF at hs
  rcases halloc : AllocEffects fx chanF with ⟨chan1, ok⟩
  rw [halloc] at hs
  cases ok
  · simp only at hs
    cases hs
    exact h2
  · simp only at hs
    split at hs
    · cases hs
    split at hs
    · cases hs
    split at hs
    · cases hs
    split at hs
    · cases hs
    cases hs
    exact h2

theorem MixAndSend_cache {h : host_t} {s s' : hrtf_state_t} (hm : MixAndSend h s = .ok s') :
    s'.sfxCache = s.sfxCache ∧ s'.nextSFXCacheEntry = s.nextSFXCacheEntry := by
  have hb : ∀ st : hrtf_state_t, (BGM_Update h st).sfxCache = st.sfxCache ∧
      (BGM_Update h st).nextSFXCacheEntry = st.nextSFXCacheEntry := by
    intro st
    unfold BGM_Update
    split
    · exact ⟨rfl, rfl⟩
    · split <;> exact ⟨rfl, rfl⟩
  unfold MixAndSend at hm
  split at hm
  · cases hm
    exact ⟨rfl, rfl⟩
  · dsimp only at hm
    split at hm
    · cases hm
    rename_i s2 mix2 hmix
    have h2 : s2.sfxCache = s.sfxCache ∧ s2.nextSFXCacheEntry = s.nextSFXCacheEntry := by
      unfold MixAudio at hmix
      split at hmix
      · cases hmix
      · cases hmix
        exact ⟨rfl, rfl⟩
    split at hm
    · cases hm
    cases hm
    simp only [(hb _).1, (hb _).2]
    exact h2

theorem UpdateAmbients_cache (h : host_t) (s : hrtf_state_t) :
    (UpdateAmbients h s).sfxCache = s.sfxCache ∧
      (UpdateAmbients h s).nextSFXCacheEntry = s.nextSFXCacheEntry := by
  unfold UpdateAmbients
  split
  · exact ⟨rfl, rfl⟩
  · split
    · exact ⟨rfl, rfl⟩
    · dsimp only
      unfold UpdateUnderwater
      dsimp only
      split_ifs <;> exact ⟨rfl, rfl⟩

theorem InitAmbients_loop_cacheNames {h : host_t} {rnd : Nat → Nat} {fx : Nat → effect_alloc_t}
    {is : List Nat} {s s' : hrtf_state_t} (hs : InitAmbients.loop h rnd fx is s = .ok s')
    (hc : CacheNames s.sfxCache s.nextSFXCacheEntry) :
    CacheNames s'.sfxCache s'.nextSFXCacheEntry := by
  induction is generalizing s with
  | nil =>
    unfold InitAmbients.loop at hs
    cases hs
    exact hc
  | cons i is ih =>
    unfold InitAmbients.loop at hs
    split at hs
    · exact ih hs hc
    · split at hs
      · cases hs
      · rename_i s2 chan hstart
        refine ih hs ?_
        show CacheNames s2.sfxCache s2.nextSFXCacheEntry
        exact StartSound_cacheNames hstart hc

theorem InitAmbients_cacheNames {h : host_t} {rnd : Nat → Nat} {fx : Nat → effect_alloc_t}
    {s s' : hrtf_state_t} (hs : InitAmbients h s rnd fx = .ok s')
    (hc : CacheNames s.sfxCache s.nextSFXCacheEntry) :
    CacheNames s'.sfxCache s'.nextSFXCacheEntry := by
  unfold InitAmbients at hs
  split at hs
  · cases hs
  rename_i s2 water h1
  dsimp only at hs
  split at hs
  · cases hs
  rename_i s3 sky h2
  split at hs
  · cases hs
  rename_i s4 h3
  refine InitAmbients_loop_cacheNames hs ?_
  have e1 := PrecacheSound_cacheNames h1 hc
  have e2 := PrecacheSound_cacheNames h2 (s := { s2 with
    ambient_sfx := s2.ambient_sfx.set AMBIENT_WATER water }) e1
  unfold HRTF_StopSound at h3
  split at h3
  · cases h3
  · cases h3
    exact e2

theorem step_cacheNames {s s' : hrtf_state_t} (hstep : Step s s')
    (hc : CacheNames s.sfxCache s.nextSFXCacheEntry) :
    CacheNames s'.sfxCache s'.nextSFXCacheEntry := by
  cases hstep with
  | start_sound h _ _ e c sfx o v a fx hs =>
    unfold HRTF_StartSound at hs
    split at hs
    · cases hs
    · rename_i s2 r hst
      cases hs
      exact StartSound_cacheNames hst hc
  | static_sound h _ _ sfx o v a rnd fx hs =>
    unfold HRTF_StaticSound at hs
    split at hs
    · cases hs
    · rename_i s2 r hst
      cases hs
      exact StartSound_cacheNames hst hc
  | local_sound h _ _ name fx hs =>
    unfold HRTF_LocalSound at hs
    split at hs
    · cases hs
    rename_i s2 k hfind
    split at hs
    · cases hs
    rename_i s3 r hst
    split at hs
    · cases hs
    cases hs
    exact StartSound_cacheNames hst (FindOrAllocateCacheEntry_cacheNames hfind hc)
  | init_ambients h _ _ rnd fx hs => exact InitAmbients_cacheNames hs hc
  | stop_sound _ _ e c hs =>
    unfold HRTF_StopSound at hs
    split at hs
    · cases hs
    · cases hs
      exact hc
  | stop_all _ _ hs =>
    unfold HRTF_StopAllSounds HRTF_ClearBuffer at hs
    split at hs
    · cases hs
    · rename_i hi
      simp only [hi, Bool.false_eq_true, if_false] at hs
      cases hs
      exact hc
  | clear_buffer _ _ hs =>
    unfold HRTF_ClearBuffer at hs
    split at hs
    · cases hs
    · cases hs
      exact hc
  | precache h _ _ name r hs =>
    unfold HRTF_PrecacheSound at hs
    split at hs
    · cases hs
    · exact PrecacheSound_cacheNames hs hc
  | clear_precache _ _ hs =>
    unfold HRTF_ClearPrecache freeSFXCache at hs
    split at hs
    · cases hs
    · cases hs
      exact ⟨fun i e hi _ => absurd hi (Nat.not_lt_zero i),
             fun i j _ _ hi _ _ _ _ => absurd hi (Nat.not_lt_zero i)⟩
  | update h _ _ o f r u hs =>
    unfold HRTF_Update at hs
    split at hs
    · cases hs
    · obtain ⟨e1, e2⟩ := MixAndSend_cache hs
      obtain ⟨g1, g2⟩ := UpdateAmbients_cache h
        { s with listenerOrigin := o, listenerForward := f, listenerRight := r, listenerUp := u }
      rw [e1, e2, g1, g2]
      exact hc
  | extra_update h _ _ hs =>
    unfold HRTF_ExtraUpdate at hs
    split at hs
    · cases hs
    · obtain ⟨e1, e2⟩ := MixAndSend_cache hs
      rw [e1, e2]
      exact hc
  | device_callback _ _ len stream hs =>
    unfold sdl_audio_callback at hs
    split at hs
    · cases hs
      exact hc
    · split at hs
      · cases hs
      · cases hs
        exact hc

theorem reachable_cacheNames {s : hrtf_state_t} (hr : Reachable s) :
    CacheNames s.sfxCache s.nextSFXCacheEntry := by
  induction hr with
  | init v f =>
    exact ⟨fun i e hi _ => absurd hi (Nat.not_lt_zero i),
           fun i j _ _ hi _ _ _ _ => absurd hi (Nat.not_lt_zero i)⟩
  | step s s' _ hstep ih => exact step_cacheNames hstep ih

/-- C16: in every reachable state, `FindOrAllocateCacheEntry` on the name of a registered
entry returns the slot of that entry and the state unchanged, and no other registered entry
has that name. -/
theorem find_or_allocate_returns_existing (s : hrtf_state_t) (name : String) (i : Nat)
    (e : sfx_t) (hr : Reachable s) (hi : i < s.nextSFXCacheEntry)
    (he : s.sfxCache[i]? = some e) (hname : e.name = name) :
    FindOrAllocateCacheEntry s name = .ok (s, i) ∧
    ∀ (j : Nat) (e' : sfx_t), j < s.nextSFXCacheEntry → s.sfxCache[j]? = some e' →
      e'.name = name → j = i := by
  obtain ⟨hshort, huniq⟩ := reachable_cacheNames hr
  have hfirst : firstIndex (fun x : sfx_t => x.name == name)
      (s.sfxCache.take s.nextSFXCacheEntry) = some i := by
    rw [firstIndex_eq_some_iff]
    refine ⟨⟨e, by rw [List.getElem?_take_of_lt hi]; exact he, by simp [hname]⟩, ?_⟩
    intro j hj b hb
    rw [List.getElem?_take_of_lt (by omega)] at hb
    by_contra hm
    have hbn : b.name = name := by simpa using hm
    have := huniq j i b e (by omega) hi hb he (by rw [hbn, hname])
    omega
  constructor
  · unfold FindOrAllocateCacheEntry
    have hlen := hshort i e hi he
    rw [hname] at hlen
    rw [if_neg (by omega), hfirst]
  · intro j e' hj he' hn'
    exact huniq j i e' e hj hi he' he (by rw [hn', hname])

theorem find_or_allocate_returns_existing_witness :
    (Reachable demoCached ∧ 0 < demoCached.nextSFXCacheEntry ∧
      demoCached.sfxCache[0]? = some ⟨"weapons/rocket1.wav", some demoEntry⟩) ∧
    (FindOrAllocateCacheEntry demoCached "weapons/rocket1.wav" = .ok (demoCached, 0) ∧
    ∀ (j : Nat) (e' : sfx_t), j < demoCached.nextSFXCacheEntry → demoCached.sfxCache[j]? = some e' →
      e'.name = "weapons/rocket1.wav" → j = 0) :=
  ⟨⟨demoCached_reachable, by decide!, by decide!⟩,
   find_or_allocate_returns_existing demoCached "weapons/rocket1.wav" 0
     ⟨"weapons/rocket1.wav", some demoEntry⟩ demoCached_reachable (by decide!) (by decide!) rfl⟩

theorem demoBUnloaded_reachable : Reachable demoBUnloaded :=
  Reachable.step demoInit demoBUnloaded (Reachable.init _ _)
    (Step.precache demoBFailHost _ _ "misc/missing.wav" none (by decide!))

/-- C17: `StartSound` on a sound that is registered but not loaded, when the load fails
(`PrecacheSound` returns `NULL`), does not return: `entry = sfx->cache.data` dereferences the
`NULL` `sfx`. `HRTF_LocalSound` on a file that does not load ends the same way. -/
theorem start_sound_failed_load_faults :
    HRTF_PrecacheSound demoBFailHost demoInit "misc/missing.wav" = .ok (demoBUnloaded, none) ∧
    PickChannel demoBUnloaded.mixer 5 3 = some 0 ∧
    StartSound demoBFailHost demoBUnloaded 5 3 0 (0, 0, 0) 1 1 false 0 demoFx
      = .error .nullDeref ∧
    HRTF_LocalSound demoBFailHost demoInit "misc/missing.wav" demoFx = .error .nullDeref := by
  decide!

/-- On a cache without registered entries `FindOrAllocateCacheEntry` registers the name in
slot `0`. -/
theorem FindOrAllocateCacheEntry_empty (s : hrtf_state_t) (name : String) (e : sfx_t)
    (hn : s.nextSFXCacheEntry = 0) (h0 : s.sfxCache[0]? = some e)
    (hname : name.utf8ByteSize < MAX_QPATH) :
    ∃ s', FindOrAllocateCacheEntry s name = .ok (s', 0) ∧ s'.nextSFXCacheEntry = 1 := by
  unfold FindOrAllocateCacheEntry
  rw [if_neg (by omega), hn]
  simp only [List.take_zero, firstIndex]
  rw [if_neg (by decide), h0]
  exact ⟨_, rfl, rfl⟩

/-- C18: `freeSFXCache` is total, so the clearing returns whatever the cache holds, entries
registered without data included (`HRTF_ClearPrecache` calls it in every initialised state).
Afterwards the entry count and the cached size are `0`, every slot of the cache is zeroed, the
lookup finds no name, and the next name to be looked up is registered in slot `0`. -/
theorem clear_precache_empties_cache (s : hrtf_state_t) :
    (freeSFXCache s).nextSFXCacheEntry = 0 ∧ (freeSFXCache s).precachedAudioBuffersSize = 0 ∧
    (freeSFXCache s).sfxCache.length = SFX_CACHE_MAX ∧
    (∀ (i : Nat) (e : sfx_t), (freeSFXCache s).sfxCache[i]? = some e → e = ⟨"", none⟩) ∧
    (∀ name : String,
      firstIndex (fun e : sfx_t => e.name == name)
        ((freeSFXCache s).sfxCache.take (freeSFXCache s).nextSFXCacheEntry) = none) ∧
    (∀ name : String, name.utf8ByteSize < MAX_QPATH →
      ∃ s', FindOrAllocateCacheEntry (freeSFXCache s) name = .ok (s', 0) ∧
        s'.nextSFXCacheEntry = 1) ∧
    (s.initialized = true → HRTF_ClearPrecache s = .ok (freeSFXCache s)) := by
  refine ⟨rfl, rfl, ?_, ?_, ?_, ?_, ?_⟩
  · simp [freeSFXCache]
  · intro i e he
    simp only [freeSFXCache, List.getElem?_replicate] at he
    split at he
    · cases he
      rfl
    · cases he
  · intro name
    simp [freeSFXCache, firstIndex]
  · intro name hname
    have h0 : (freeSFXCache s).sfxCache[0]? = some ⟨"", none⟩ := by
      show (List.replicate SFX_CACHE_MAX (⟨"", none⟩ : sfx_t))[0]? = some ⟨"", none⟩
      rw [List.getElem?_replicate, if_pos (by decide)]
    exact FindOrAllocateCacheEntry_empty (freeSFXCache s) name ⟨"", none⟩ rfl h0 hname
  · intro hinit
    unfold HRTF_ClearPrecache
    simp [hinit]

theorem clear_precache_empties_cache_witness :
    (demoBUnloaded.initialized = true ∧ Reachable demoBUnloaded ∧
      demoBUnloaded.nextSFXCacheEntry = 1 ∧
      demoBUnloaded.sfxCache[0]? = some ⟨"misc/missing.wav", none⟩) ∧
    HRTF_ClearPrecache demoBUnloaded = .ok (freeSFXCache demoBUnloaded) ∧
    (freeSFXCache demoBUnloaded).nextSFXCacheEntry = 0 ∧
    (freeSFXCache demoBUnloaded).precachedAudioBuffersSize = 0 ∧
    (freeSFXCache demoBUnloaded).sfxCache[0]? = some ⟨"", none⟩ ∧
    firstIndex (fun e : sfx_t => e.name == "misc/missing.wav")
      ((freeSFXCache demoBUnloaded).sfxCache.take (freeSFXCache demoBUnloaded).nextSFXCacheEntry)
      = none :=
  ⟨⟨by decide!, demoBUnloaded_reachable, by decide!, by decide!⟩,
   (clear_precache_empties_cache demoBUnloaded).2.2.2.2.2.2 (by decide!),
   (clear_precache_empties_cache demoBUnloaded).1,
   (clear_precache_empties_cache demoBUnloaded).2.1,
   by decide!,
   (clear_precache_empties_cache demoBUnloaded).2.2.2.2.1 "misc/missing.wav"⟩

theorem demoBStatic_poolOK : poolOK demoBStatic = true := by decide!

/-- C19: a channel started by `HRTF_StaticSound` on a sound whose cache entry has no loop
start (`loopStart = -1`) is released by the next tick: the cursor reaches the end of the
source and `MixAudio` frees the slot. -/
theorem static_sound_released_at_end :
    demoBStatic.mixer[0]? =
      some { entnum := ENTNUM_STATIC, entchannel := ENTCHANNEL_AUTO, volume := 1, attenuation := 1,
             sfx := some 0, origin := (100, 0, 0), spent := 3, loopStartSample := -1,
             iplBinauralEffect := some 1, iplDirectEffect := some 2 } ∧
    (MixAudio demoHost demoBStatic demoMix).map (fun r => r.1.mixer[0]?)
      = .ok (some hrtf_channel_t.zero) := by
  refine ⟨by decide!, ?_⟩
  rw [MixAudio_total demoHost demoBStatic demoMix demoBStatic_poolOK]
  decide!

theorem AllocEffects_fail (fx : effect_alloc_t) (chan : hrtf_channel_t)
    (hfail : fx.binaural = none ∨ fx.direct = none) : (AllocEffects fx chan).2 = false := by
  unfold AllocEffects
  rcases hfail with hb | hd
  · rw [hb]
  · cases hb : fx.binaural with
    | none => rfl
    | some b => simp only [hd]

theorem PickChannel_index {m : List hrtf_channel_t} {e c : Int} {i : Nat}
    (hp : PickChannel m e c = some i) : ∃ chan, m[i]? = some chan := by
  unfold PickChannel at hp
  have hfree : ∀ j, PickRandomChannel m = some j → ∃ chan, m[j]? = some chan := by
    intro j hj
    obtain ⟨⟨ch, hch, _⟩, _⟩ := PickRandomChannel_some hj
    exact ⟨ch, hch⟩
  split at hp
  · exact hfree i hp
  · split at hp
    · rename_i i' hi'
      cases hp
      rw [firstIndex_eq_some_iff] at hi'
      obtain ⟨⟨ch, h1, _⟩, _⟩ := hi'
      exact ⟨ch, h1⟩
    · exact hfree i hp

/-- The part of `StartSound` from the channel pick on, when the effect allocation fails. -/
theorem StartSound_alloc_fail {h : host_t} {s s1 : hrtf_state_t} {e c : Int} {sfx : Nat}
    {o : vec3_t} {v a : ℚ} {r : Bool} {rnd : Nat} {fx : effect_alloc_t} {res : Option Nat}
    (hfail : fx.binaural = none ∨ fx.direct = none)
    (hs : StartSound h s e c sfx o v a r rnd fx = .ok (s1, res)) : res = none := by
  unfold StartSound at hs
  split at hs
  · cases hs
  split at hs
  · cases hs
  split at hs
  · cases hs
  split at hs
  · cases hs
  split at hs
  · cases hs
  split at hs
  · cases hs
  rename_i chan0 _
  dsimp only at hs
  generalize (if chan0.sfx.isSome = true then FreeChannel chan0 else chan0) = chanF at hs
  have hf := AllocEffects_fail fx chanF hfail
  rcases halloc : AllocEffects fx chanF with ⟨chan1, ok⟩
  rw [halloc] at hs hf
  simp only at hf
  subst hf
  simp only at hs
  cases hs
  rfl

/-- C20: when the allocation of the spatializer effect state fails, a `StartSound` call that
returns has returned `NULL`, the slot it targeted is free afterwards and every other slot
is unchanged; and the call does return whenever the request is well formed (non-negative
volume and attenuation, a loaded sound, a slot to pick). -/
theorem start_sound_alloc_failure (h : host_t) (s : hrtf_state_t) (e c : Int) (sfx : Nat)
    (o : vec3_t) (v a : ℚ) (r : Bool) (rnd : Nat) (fx : effect_alloc_t)
    (hfail : fx.binaural = none ∨ fx.direct = none) :
    (∀ s1 res, StartSound h s e c sfx o v a r rnd fx = .ok (s1, res) →
      res = none ∧
      ∃ i chan1, PickChannel s.mixer e c = some i ∧ s1.mixer[i]? = some chan1 ∧
        chan1.sfx = none ∧ ∀ j, j ≠ i → s1.mixer[j]? = s.mixer[j]?) ∧
    (∀ entry i, 0 ≤ v → 0 ≤ a → s.sfxCache[sfx]? = some entry →
      entry.cache_data.isSome = true → PickChannel s.mixer e c = some i →
      ∃ s1, StartSound h s e c sfx o v a r rnd fx = .ok (s1, none)) := by
  constructor
  · intro s1 res hs
    have hres := StartSound_alloc_fail hfail hs
    obtain ⟨i, chan0, chan1, hpick, hchan0, hm1, hr⟩ := StartSound_ok hs
    refine ⟨hres, i, chan1, hpick, ?_, ?_, ?_⟩
    · have hlen : i < s.mixer.length := by
        by_contra hlt
        rw [List.getElem?_eq_none (by omega)] at hchan0
        cases hchan0
      rw [hm1, List.getElem?_set]
      simp [hlen]
    · rcases hr with ⟨_, hdead⟩ | ⟨hsome, _⟩
      · exact hdead
      · rw [hres] at hsome
        cases hsome
    · intro j hj
      rw [hm1, List.getElem?_set]
      rw [if_neg (fun hij => hj hij.symm)]
  · intro entry i hv ha hsfx hdata hpick
    obtain ⟨chan0, hchan0⟩ := PickChannel_index hpick
    unfold StartSound
    rw [if_neg (by linarith), if_neg (by linarith)]
    simp only [hsfx]
    have hnone : entry.cache_data.isNone = false := by
      cases hd : entry.cache_data with
      | none => simp [hd] at hdata
      | some x => rfl
    simp only [hnone, Bool.false_eq_true, if_false, hpick, hchan0]
    generalize (if chan0.sfx.isSome = true then FreeChannel chan0 else chan0) = chanF
    have hf := AllocEffects_fail fx chanF hfail
    rcases halloc : AllocEffects fx chanF with ⟨chan1, ok⟩
    rw [halloc] at hf
    simp only at hf
    subst hf
    exact ⟨_, rfl⟩

theorem start_sound_alloc_failure_witness :
    (demoBFxFail.binaural = none ∨ demoBFxFail.direct = none) ∧
    StartSound demoHost demoOnce 5 3 0 (0, 0, 0) 1 1 false 0 demoBFxFail
      = .ok ({ demoOnce with
               mixer := demoOnce.mixer.set 0 { hrtf_channel_t.zero with iplBinauralEffect := some 1 } },
             none) ∧
    ((∀ s1 res, StartSound demoHost demoOnce 5 3 0 (0, 0, 0) 1 1 false 0 demoBFxFail = .ok (s1, res) →
      res = none ∧
      ∃ i chan1, PickChannel demoOnce.mixer 5 3 = some i ∧ s1.mixer[i]? = some chan1 ∧
        chan1.sfx = none ∧ ∀ j, j ≠ i → s1.mixer[j]? = demoOnce.mixer[j]?) ∧
    (∀ entry i, (0 : ℚ) ≤ 1 → (0 : ℚ) ≤ 1 → demoOnce.sfxCache[0]? = some entry →
      entry.cache_data.isSome = true → PickChannel demoOnce.mixer 5 3 = some i →
      ∃ s1, StartSound demoHost demoOnce 5 3 0 (0, 0, 0) 1 1 false 0 demoBFxFail = .ok (s1, none))) :=
  ⟨Or.inr rfl, by decide!,
   start_sound_alloc_failure demoHost demoOnce 5 3 0 (0, 0, 0) 1 1 false 0 demoBFxFail (Or.inr rfl)⟩

/-! ## The claims C21 to C29 -/

/-- C21: right after `HRTF_Init` with the `volume` option at `1/2`, `ApplyGlobalVolume`
multiplies the mix by `1/2`, the raw value of the option: `HRTF_Init` stores
`sfxvolume.value` as it is. The perceptual curve gives `2491/6592` (about `0.378`) there, and
that is the gain once `HRTF_CB_sfxvolume` has run for the same value. -/
theorem init_gain_is_raw_volume :
    demoHalfInit.volume = 1 / 2 ∧
    (ApplyGlobalVolume demoHalfInit demoUnitBuf).1.data = [[1 / 2]] ∧
    TO_PERCEPTIBLE_VOLUME demoExpHost (1 / 2) = 2491 / 6592 ∧
    (HRTF_CB_sfxvolume demoExpHost demoHalfInit (1 / 2)).map
      (fun s => (ApplyGlobalVolume s demoUnitBuf).1.data) = .ok [[2491 / 6592]] := by
  decide!

theorem take_length_eq_zero_iff (n : Nat) (hn : 0 < n) (l : List Nat) :
    (l.take n).length = 0 ↔ l = [] := by
  cases l with
  | nil => simp
  | cons a as =>
    simp only [List.length_take, List.length_cons, reduceCtorEq, iff_false]
    omega

/-- When the loop of `FeedNextRawFrame` exits, the stream it started with holds at least
`inFrameSize` converted bytes. -/
theorem FeedNextRawFrame_loop_exit (h : bgm_host_t) (n : Nat) (reads : List codec_read_t)
    (looped : Bool) (s0 : SDL_AudioStream) (st : Option SDL_AudioStream)
    (rest : List codec_read_t)
    (hrun : FeedNextRawFrame.loop h n reads looped (some s0) = .ok (some (st, rest))) :
    ∃ s, st = some s ∧ n ≤ s.converted.length ∧ s0.converted.length ≤ s.converted.length := by
  induction reads generalizing looped s0 with
  | nil =>
    unfold FeedNextRawFrame.loop at hrun
    cases hrun
  | cons r reads ih =>
    unfold FeedNextRawFrame.loop at hrun
    split at hrun
    · split at hrun
      · cases hrun
      · split at hrun
        · cases hrun
        · split at hrun
          · exact ih _ _ hrun
          · rename_i hge
            cases hrun
            simp only [SDL_AudioStreamAvailable, not_lt] at hge
            exact ⟨s0, rfl, hge, le_refl _⟩
    · simp only at hrun
      split at hrun
      · cases hrun
      · rename_i out hput
        split at hrun
        · obtain ⟨s, e1, e2, e3⟩ := ih _ _ hrun
          refine ⟨s, e1, e2, ?_⟩
          simp only [List.length_append] at e3
          omega
        · rename_i hge
          cases hrun
          simp only [SDL_AudioStreamAvailable, not_lt] at hge
          exact ⟨_, rfl, hge, by simp⟩

/-- C22, as the code has it: when `FeedNextRawFrame` returns with a conversion stream, the
stream holds at least `inFrameSize` converted bytes, the size in bytes of `FRAME_SIZE`
samples of the INPUT format; nothing else of the state has changed and the stream has only
grown. -/
theorem feed_returns_with_input_frame_size (h : bgm_host_t) (state state' : bgm_state_t)
    (reads rest : List codec_read_t) (s0 : SDL_AudioStream)
    (hs : state.inStream = some s0)
    (hrun : FeedNextRawFrame h state reads = .ok (some (state', rest))) :
    ∃ s, state' = { state with inStream := some s } ∧
      state.inFrameSize ≤ s.converted.length ∧ s0.converted.length ≤ s.converted.length := by
  unfold FeedNextRawFrame at hrun
  split at hrun
  · cases hrun
  · rw [hs] at hrun
    split at hrun
    · cases hrun
    · cases hrun
    · rename_i st rest' hloop
      cases hrun
      obtain ⟨s, e1, e2, e3⟩ := FeedNextRawFrame_loop_exit h _ _ _ _ _ _ hloop
      subst e1
      exact ⟨s, rfl, e2, e3⟩

/-- `FeedNextRawFrame` for a single read that brings the stream to `inFrameSize`. -/
theorem FeedNextRawFrame_one_read (h : bgm_host_t) (state : bgm_state_t) (s0 : SDL_AudioStream)
    (r : codec_read_t) (out : List Nat) (hn : 0 < state.inFrameSize)
    (hs : state.inStream = some s0) (hr : r.bytes ≠ [])
    (hle : r.bytes.length ≤ state.inFrameSize)
    (hput : h.SDL_AudioStreamPut s0 r.bytes = some out)
    (henough : state.inFrameSize ≤ s0.converted.length + out.length) :
    FeedNextRawFrame h state [r] =
      .ok (some ({ state with inStream := some { s0 with converted := s0.converted ++ out } }, [])) := by
  have htake : r.bytes.take state.inFrameSize = r.bytes := List.take_of_length_le hle
  have hne : ¬ (r.bytes.take state.inFrameSize).length = 0 := by
    rw [take_length_eq_zero_iff _ hn]
    exact hr
  unfold FeedNextRawFrame
  rw [if_neg (by omega), hs]
  unfold FeedNextRawFrame.loop
  rw [if_neg hne]
  simp only [htake, hput, SDL_AudioStreamAvailable, List.length_append]
  rw [if_neg (by omega)]

theorem demoBgmCd_eq :
    demoBgmCd = { outSpec := demoInit.audioSpec, inStream := some (demoCdStream 0),
                  inSpec := { freq := 44100, channels := 2, format := AUDIO_S16SYS, samples := FRAME_SIZE },
                  inFrameSize := 8192, initialized := true, interleavedSize := 16384 } := by
  decide!

/-- The feed step of `demoBgmCd` for the last 4096 bytes of a track. -/
theorem demoTail_feed :
    FeedNextRawFrame demoBgmHost demoBgmCd demoTail =
      .ok (some ({ demoBgmCd with inStream := some (demoCdStream 8192) }, [])) := by
  have hs : demoBgmCd.inStream = some (demoCdStream 0) := by decide!
  have hn : demoBgmCd.inFrameSize = 8192 := by decide!
  have := FeedNextRawFrame_one_read demoBgmHost demoBgmCd (demoCdStream 0)
    ⟨List.replicate 4096 0, 0⟩ (List.replicate (2 * 4096) 0) (by rw [hn]; decide) hs
    (by
      intro hnil
      have := congrArg List.length hnil
      simp only [List.length_replicate, List.length_nil] at this
      omega)
    (by rw [hn]; simp only [List.length_replicate]; omega)
    (by simp only [demoBgmHost, List.length_replicate])
    (by rw [hn]; simp only [demoCdStream, List.length_replicate]; omega)
  rw [demoTail, this]
  simp only [demoCdStream, List.replicate_zero, List.nil_append]

/-- C22 fails as stated: the conversion stream of `demoBgmCd` converts 16-bit stereo to
`float` stereo at the same rate and is empty; the decoder delivers the last 4096 bytes of a
track. `FeedNextRawFrame` returns with 8192 converted bytes in the stream, which is
`inFrameSize` but half of the 16384 bytes of a target frame. -/
theorem feed_returns_with_half_a_target_frame :
    demoBgmCd.inFrameSize = 8192 ∧ demoBgmCd.interleavedSize = 16384 ∧
    demoBgmCd.inStream = some (demoCdStream 0) ∧
    FeedNextRawFrame demoBgmHost demoBgmCd demoTail =
      .ok (some ({ demoBgmCd with inStream := some (demoCdStream 8192) }, [])) ∧
    SDL_AudioStreamAvailable (some (demoCdStream 8192)) = 8192 ∧
    (8192 : Nat) < demoBgmCd.interleavedSize :=
  ⟨by decide!, by decide!, by decide!, demoTail_feed,
   by simp only [SDL_AudioStreamAvailable, demoCdStream, List.length_replicate], by decide!⟩

theorem feed_returns_with_input_frame_size_witness :
    (demoBgmCd.inStream = some (demoCdStream 0) ∧
      FeedNextRawFrame demoBgmHost demoBgmCd demoTail =
        .ok (some ({ demoBgmCd with inStream := some (demoCdStream 8192) }, []))) ∧
    ∃ s, ({ demoBgmCd with inStream := some (demoCdStream 8192) } : bgm_state_t) =
        { demoBgmCd with inStream := some s } ∧
      demoBgmCd.inFrameSize ≤ s.converted.length ∧
      (demoCdStream 0).converted.length ≤ s.converted.length :=
  ⟨⟨by decide!, demoTail_feed⟩,
   feed_returns_with_input_frame_size demoBgmHost demoBgmCd _ demoTail [] (demoCdStream 0)
     (by decide!) demoTail_feed⟩

/-- A run of the loop of `FeedNextRawFrame` that is still going when the answers `pre` end
goes on with the answers that follow, with too little data in the stream to stop. -/
theorem FeedNextRawFrame_loop_append (h : bgm_host_t) (n : Nat) (pre : List codec_read_t)
    (looped : Bool) (st : Option SDL_AudioStream)
    (hshort : SDL_AudioStreamAvailable st < n)
    (hrun : FeedNextRawFrame.loop h n pre looped st = .ok none) :
    ∃ looped' st', SDL_AudioStreamAvailable st' < n ∧
      ∀ suffix, FeedNextRawFrame.loop h n (pre ++ suffix) looped st =
        FeedNextRawFrame.loop h n suffix looped' st' := by
  induction pre generalizing looped st with
  | nil => exact ⟨looped, st, hshort, fun suffix => rfl⟩
  | cons r pre ih =>
    unfold FeedNextRawFrame.loop at hrun
    split at hrun
    · rename_i hzero
      split at hrun
      · cases hrun
      · rename_i hl
        split at hrun
        · cases hrun
        · rename_i hrew
          obtain ⟨l', st', h1, h2⟩ := ih true st hshort hrun
          refine ⟨l', st', h1, fun suffix => ?_⟩
          rw [List.cons_append]
          conv_lhs => unfold FeedNextRawFrame.loop
          rw [if_pos hzero, if_neg hl, if_neg hrew, if_pos hshort]
          exact h2 suffix
    · rename_i hnz
      cases st with
      | none => simp at hrun
      | some s =>
        simp only at hrun
        split at hrun
        · cases hrun
        · rename_i out hput
          split at hrun
          · rename_i hcont
            obtain ⟨l', st', h1, h2⟩ := ih looped _ hcont hrun
            refine ⟨l', st', h1, fun suffix => ?_⟩
            rw [List.cons_append]
            conv_lhs => unfold FeedNextRawFrame.loop
            rw [if_neg hnz]
            simp only [hput]
            rw [if_pos hcont]
            exact h2 suffix
          · cases hrun

/-- Two reads without bytes in a row end the loop of `FeedNextRawFrame` in `Sys_Error`. -/
theorem FeedNextRawFrame_loop_two_empty (h : bgm_host_t) (n : Nat) (hn : 0 < n)
    (z1 z2 : codec_read_t) (post : List codec_read_t) (looped : Bool)
    (st : Option SDL_AudioStream) (hshort : SDL_AudioStreamAvailable st < n)
    (hz1 : z1.bytes = []) (hz2 : z2.bytes = []) :
    FeedNextRawFrame.loop h n (z1 :: z2 :: post) looped st = .error .sysError := by
  have e1 : (z1.bytes.take n).length = 0 := (take_length_eq_zero_iff n hn _).2 hz1
  have e2 : (z2.bytes.take n).length = 0 := (take_length_eq_zero_iff n hn _).2 hz2
  unfold FeedNextRawFrame.loop
  rw [if_pos e1]
  split
  · rfl
  · split
    · rfl
    · unfold FeedNextRawFrame.loop
      rw [if_pos e2, if_pos rfl]

/-- With at most one read without bytes still to come (none when the loop has rewound
already), rewinds that succeed and conversions that succeed, the loop of `FeedNextRawFrame`
does not end in an error. -/
theorem FeedNextRawFrame_loop_no_fault (h : bgm_host_t) (n : Nat) (hn : 0 < n)
    (hput : ∀ s b, (h.SDL_AudioStreamPut s b).isSome = true)
    (reads : List codec_read_t) (looped : Bool) (s : SDL_AudioStream)
    (hrew : ∀ r ∈ reads, r.rewind = 0)
    (hcount : emptyReads reads + (if looped then 1 else 0) ≤ 1) :
    ∃ r, FeedNextRawFrame.loop h n reads looped (some s) = .ok r := by
  induction reads generalizing looped s with
  | nil => exact ⟨none, rfl⟩
  | cons r reads ih =>
    have hrew' : ∀ x ∈ reads, x.rewind = 0 := fun x hx => hrew x (List.mem_cons_of_mem _ hx)
    unfold FeedNextRawFrame.loop
    by_cases hzero : (r.bytes.take n).length = 0
    · have hnil : r.bytes = [] := (take_length_eq_zero_iff n hn _).1 hzero
      have hc : emptyReads (r :: reads) = emptyReads reads + 1 := by
        simp [emptyReads, List.filter_cons, hnil]
      rw [hc] at hcount
      have hl : looped = false := by
        cases looped with
        | false => rfl
        | true => simp at hcount
      subst hl
      rw [if_pos hzero]
      simp only [Bool.false_eq_true, if_false, hrew r (List.mem_cons_self _ _), ne_eq,
        not_true_eq_false]
      split
      · exact ih true s hrew' (by simp only [if_true]; simp at hcount; omega)
      · exact ⟨_, rfl⟩
    · have hne : r.bytes ≠ [] := fun hnil => hzero ((take_length_eq_zero_iff n hn _).2 hnil)
      have hc : emptyReads (r :: reads) = emptyReads reads := by
        cases hb : r.bytes with
        | nil => exact absurd hb hne
        | cons a as => simp [emptyReads, List.filter_cons, hb]
      rw [hc] at hcount
      rw [if_neg hzero]
      simp only
      cases hp : h.SDL_AudioStreamPut s (r.bytes.take n) with
      | none =>
        have := hput s (r.bytes.take n)
        rw [hp] at this
        cases this
      | some out =>
        simp only
        split
        · exact ih looped _ hrew' hcount
        · exact ⟨_, rfl⟩

/-- C25, as the code has it: in a feed step that starts with a conversion stream short of
`inFrameSize` bytes, two reads in a row that deliver no byte, reached while the step is
still reading, end it in `Sys_Error`; and the step does not fail as long as at most one of
the reads delivers no byte, every rewind succeeds and every conversion succeeds: the first
end of the data triggers a rewind. -/
theorem feed_fatal_rule (h : bgm_host_t) (state : bgm_state_t) (s0 : SDL_AudioStream)
    (hn : 0 < state.inFrameSize) (hs : state.inStream = some s0)
    (hshort : s0.converted.length < state.inFrameSize) :
    (∀ pre z1 z2 post, FeedNextRawFrame h state pre = .ok none → z1.bytes = [] → z2.bytes = [] →
      FeedNextRawFrame h state (pre ++ z1 :: z2 :: post) = .error .sysError) ∧
    (∀ reads, emptyReads reads ≤ 1 → (∀ r ∈ reads, r.rewind = 0) →
      (∀ s b, (h.SDL_AudioStreamPut s b).isSome = true) →
      ∃ r, FeedNextRawFrame h state reads = .ok r) := by
  have hne : ¬ state.inFrameSize = 0 := by omega
  constructor
  · intro pre z1 z2 post hrun hz1 hz2
    unfold FeedNextRawFrame at hrun ⊢
    rw [if_neg hne] at hrun ⊢
    have hloop : FeedNextRawFrame.loop h state.inFrameSize pre false state.inStream = .ok none := by
      split at hrun
      · cases hrun
      · assumption
      · cases hrun
    obtain ⟨l', st', h1, h2⟩ := FeedNextRawFrame_loop_append h _ pre false state.inStream
      (by rw [hs]; exact hshort) hloop
    rw [h2, FeedNextRawFrame_loop_two_empty h _ hn z1 z2 post l' st' h1 hz1 hz2]
  · intro reads hcount hrew hput
    unfold FeedNextRawFrame
    rw [if_neg hne, hs]
    obtain ⟨r, hr⟩ := FeedNextRawFrame_loop_no_fault h _ hn hput reads false s0 hrew
      (by simpa using hcount)
    rw [hr]
    cases r with
    | none => exact ⟨_, rfl⟩
    | some p => exact ⟨_, rfl⟩

theorem feed_fatal_rule_witness :
    ((0 : Nat) < demoBgmCd.inFrameSize ∧ demoBgmCd.inStream = some (demoCdStream 0) ∧
      (demoCdStream 0).converted.length < demoBgmCd.inFrameSize) ∧
    FeedNextRawFrame demoBgmHost demoBgmCd [⟨[1, 2, 3, 4], 0⟩, ⟨[], 0⟩, ⟨[], 0⟩] = .error .sysError ∧
    ((∀ pre z1 z2 post, FeedNextRawFrame demoBgmHost demoBgmCd pre = .ok none → z1.bytes = [] →
        z2.bytes = [] →
        FeedNextRawFrame demoBgmHost demoBgmCd (pre ++ z1 :: z2 :: post) = .error .sysError) ∧
    (∀ reads, emptyReads reads ≤ 1 → (∀ r ∈ reads, r.rewind = 0) →
      (∀ s b, (demoBgmHost.SDL_AudioStreamPut s b).isSome = true) →
      ∃ r, FeedNextRawFrame demoBgmHost demoBgmCd reads = .ok r)) :=
  ⟨⟨by decide!, by decide!, by decide!⟩, by decide!,
   feed_fatal_rule demoBgmHost demoBgmCd (demoCdStream 0) (by decide!) (by decide!) (by decide!)⟩

/-- C25 fails as stated: a track of four bytes, every rewind succeeding. The first three
reads (data, end, data) leave the feed step reading; the fourth read is the end of the data
again, and the step ends in `Sys_Error` although the read before it delivered bytes and no
two reads in a row were empty. -/
theorem feed_fatal_after_data :
    demoTinyTrack.map (fun r => (r.bytes.length, r.rewind)) = [(4, 0), (0, 0), (4, 0), (0, 0)] ∧
    FeedNextRawFrame demoBgmHost demoBgmCd (demoTinyTrack.take 3) = .ok none ∧
    FeedNextRawFrame demoBgmHost demoBgmCd demoTinyTrack = .error .sysError := by
  decide!

/-- When the stream hands out `a` bytes and then `b` more, and `4 * a + b` exceeds the size
of the buffer, the second call is given a destination that runs past its end. -/
theorem GetNextConvertedFrame_second_call_overflows (state : bgm_state_t) (s : SDL_AudioStream)
    (a b : Nat) (hs : state.inStream = some s) (ha : 0 < a) (hb : 0 < b)
    (hab : a + b ≤ s.converted.length) (hsz : a + b ≤ state.interleavedSize)
    (hover : state.interleavedSize < 4 * a + b) :
    GetNextConvertedFrame state [(a : Int), (b : Int)] = .error .outOfBounds := by
  have h1 : (s.converted.take (min a (state.interleavedSize - 0))).length = a := by
    rw [List.length_take]
    omega
  have h2 : ((s.converted.drop a).take (min b (state.interleavedSize - (0 + a)))).length = b := by
    rw [List.length_take, List.length_drop]
    omega
  unfold GetNextConvertedFrame
  rw [hs]
  simp only
  unfold GetNextConvertedFrame.loop
  simp only [Int.toNat_ofNat, h1]
  rw [if_neg (by omega), if_neg (by omega), if_neg (by omega), if_pos (by omega)]
  unfold GetNextConvertedFrame.loop
  simp only [Int.toNat_ofNat, h2]
  rw [if_neg (by omega), if_neg (by omega), if_pos (by omega)]

/-- C26: the conversion stream holds the sixteen bytes `1 .. 16` and hands them out in two
calls of eight bytes. `GetNextConvertedFrame` returns `true` with `totalRead = 16`, but the
second call wrote at `interleaved + 8` with `interleaved` an `IPLfloat32*`, that is at byte
32: bytes 8 to 31 of the frame are zero and the bytes `9 .. 16` are at 32 to 39. Handed out
in one call, the same bytes are contiguous. With 8192 bytes in the stream, handed out as
4096 and 1, the second call writes at byte 16384, past the end of the buffer. -/
theorem second_chunk_lands_at_four_times_offset :
    demoBgmSixteen.interleavedSize = 16384 ∧
    (GetNextConvertedFrame demoBgmSixteen [8, 8]).map (fun r => (r.1, r.2.1.take 40, r.2.2.2))
      = .ok (true,
             [1, 2, 3, 4, 5, 6, 7, 8,
              0, 0, 0, 0, 0, 0, 0, 0, 0, 0, 0, 0, 0, 0, 0, 0, 0, 0, 0, 0, 0, 0, 0, 0,
              9, 10, 11, 12, 13, 14, 15, 16],
             16) ∧
    (GetNextConvertedFrame demoBgmSixteen [16]).map (fun r => (r.1, r.2.1.take 40, r.2.2.2))
      = .ok (true,
             [1, 2, 3, 4, 5, 6, 7, 8, 9, 10, 11, 12, 13, 14, 15, 16,
              0, 0, 0, 0, 0, 0, 0, 0, 0, 0, 0, 0, 0, 0, 0, 0, 0, 0, 0, 0, 0, 0, 0, 0],
             16) ∧
    GetNextConvertedFrame demoBgmHalf [4096, 1] = .error .outOfBounds := by
  refine ⟨by decide!, by decide!, by decide!, ?_⟩
  have hsz : demoBgmHalf.interleavedSize = 16384 := by decide!
  exact GetNextConvertedFrame_second_call_overflows demoBgmHalf (demoCdStream 8192) 4096 1 rfl
    (by decide) (by decide)
    (by simp only [demoCdStream, List.length_replicate]; omega)
    (by rw [hsz]; omega) (by rw [hsz]; omega)

/-- C27: for a file sampled at 44100 Hz with declared loop start 2048, played by a mixer at
22050 Hz, `LoadWAV` stores the loop start 4096 (`2048 * 44100 / 22050`) where the same
instant of the resampled buffer is sample 1024 (`2048 * 22050 / 44100`); with the rates
exchanged it stores 1024 instead of 4096. A file without loop gets `-1`. The entry
`demoLoopEntry` is the first case for a file of 4096 samples: its loop start is not an index
of its buffer. -/
theorem loop_start_scaled_by_inverse_ratio :
    LoadWAV.loopStart 2048 44100 22050 = .ok 4096 ∧
    truncToInt (2048 * ((22050 : ℚ) / 44100)) = 1024 ∧
    LoadWAV.loopStart 2048 22050 44100 = .ok 1024 ∧
    truncToInt (2048 * ((44100 : ℚ) / 22050)) = 4096 ∧
    LoadWAV.loopStart (-1) 44100 22050 = .ok (-1) ∧
    demoLoopEntry.loopStart = 4096 ∧
    (demoLoopEntry.buf.numSamples : Int) = truncToInt (4096 * ((22050 : ℚ) / 44100)) ∧
    ¬ (demoLoopEntry.loopStart < demoLoopEntry.buf.numSamples) := by
  decide!

theorem demoCleared_reachable : Reachable demoCleared :=
  Reachable.step demoLocal demoCleared demoLocal_reachable
    (Step.clear_precache _ _ (by decide!))

/-- C29: `HRTF_ClearPrecache` while a sound plays. `demoLocal` is reachable and its live
channel plays a loaded entry; the call returns, slot `0` is still live and still refers to
cache slot `0`, which now holds no data; the next tick reads `entry->buf` through that
`NULL` and does not return. -/
theorem clear_precache_keeps_live_channel :
    Reachable demoLocal ∧ LiveLoaded demoLocal = true ∧
    HRTF_ClearPrecache demoLocal = .ok demoCleared ∧
    demoCleared.mixer[0]? = some demoLocalChan ∧ demoLocalChan.sfx = some 0 ∧
    demoCleared.sfxCache[0]? = some ⟨"", none⟩ ∧
    LiveLoaded demoCleared = false ∧
    MixAudio demoHost demoCleared demoMix = .error .nullDeref :=
  ⟨demoLocal_reachable, by decide!, by decide!, by decide!, rfl, by decide!, by decide!, by decide!⟩

end Ironwail
